import Mathlib

set_option linter.unusedSectionVars false

/-!
Shallow embedding of the Slic3r GUI selection core
(src/src/slic3r/GUI/Selection.cpp) together with a verification of the
selection invariants and transform policies stated in the specification.

The scalar type of all transform components is kept parametric (a field
with decidable equality); the purely combinatorial operations of the
selection (the index-set mutators, classification, mirroring and the
sibling-copy synchronizations) are defined at this generality, and the
operations that need real trigonometry (rotate, translate with matrix
inverses, scale and flattening) are defined over the reals.

External collaborators of the selection (the renderable-volume list
GLVolume, the hierarchical model ModelObject, the item type of deletion
requests and the TransformationType flag set) are declared in headers
that are not part of this repository snapshot; they are modelled from the
specification where so noted.  Rendering, OpenGL state and the bounding
box (which depends on external convex-hull geometry) are out of scope of
the claims and are not modelled; the drag-start bounding-box center and
the on-bed minimum-z query are taken as oracle inputs.
-/

/-- Three-component vector of scalars, modelling Eigen's Vec3d. -/
structure Vec3 (α : Type) where
  x : α
  y : α
  z : α
deriving DecidableEq

/-- Coordinate axis, modelling the Axis enum (X = 0, Y = 1, Z = 2). -/
inductive Axis
  | X
  | Y
  | Z
deriving DecidableEq

namespace Vec3

variable {α : Type}

/-- Componentwise addition of vectors. -/
def add [Add α] (a b : Vec3 α) : Vec3 α := ⟨a.x + b.x, a.y + b.y, a.z + b.z⟩

instance [Add α] : Add (Vec3 α) := ⟨Vec3.add⟩

/-- Componentwise subtraction of vectors. -/
def sub [Sub α] (a b : Vec3 α) : Vec3 α := ⟨a.x - b.x, a.y - b.y, a.z - b.z⟩

instance [Sub α] : Sub (Vec3 α) := ⟨Vec3.sub⟩

/-- The component of a vector along an axis. -/
def comp (v : Vec3 α) : Axis → α
  | Axis.X => v.x
  | Axis.Y => v.y
  | Axis.Z => v.z

/-- Replace the component of a vector along an axis. -/
def setComp (v : Vec3 α) : Axis → α → Vec3 α
  | Axis.X, a => ⟨a, v.y, v.z⟩
  | Axis.Y, a => ⟨v.x, a, v.z⟩
  | Axis.Z, a => ⟨v.x, v.y, a⟩

/-- The zero vector, modelling Vec3d::Zero(). -/
def zero [Zero α] : Vec3 α := ⟨0, 0, 0⟩

/-- The all-ones vector, modelling Vec3d::Ones(). -/
def ones [One α] : Vec3 α := ⟨1, 1, 1⟩

end Vec3

/-- Modelled from the spec: the renderable-volume collaborator (class
GLVolume of the volume list, declared outside this repository snapshot).
Per volume the selection reads object/instance/part identity, the
wipe-tower / modifier flags, and reads and writes the selected/disabled
flags and the decomposed instance-level and volume-level transforms
(offset, Euler rotation, per-axis scale, per-axis mirror sign). -/
structure GLVolume (α : Type) where
  object_idx : Int
  instance_idx : Int
  volume_idx : Int
  is_wipe_tower : Bool
  is_modifier : Bool
  selected : Bool
  disabled : Bool
  instance_offset : Vec3 α
  instance_rotation : Vec3 α
  instance_scaling_factor : Vec3 α
  instance_mirror : Vec3 α
  volume_offset : Vec3 α
  volume_rotation : Vec3 α
  volume_scaling_factor : Vec3 α
  volume_mirror : Vec3 α
deriving DecidableEq

/-- Modelled from the spec: the hierarchical-model collaborator (class
ModelObject, declared outside this repository snapshot).  The selection
only reads the per-object part count and instance count. -/
structure ModelObject where
  volumes_count : Nat
  instances_count : Nat
deriving DecidableEq

/-- Selection mode: per-part (Volume) versus whole-rigid-instance
(Instance) transform granularity. -/
inductive SelectionMode
  | Volume
  | Instance
deriving DecidableEq

/-- The derived selection-shape classification, recomputed on every
mutation by updateType. -/
inductive SelectionType
  | Invalid
  | Empty
  | WipeTower
  | SingleModifier
  | MultipleModifier
  | SingleVolume
  | MultipleVolume
  | SingleFullObject
  | MultipleFullObject
  | SingleFullInstance
  | MultipleFullInstance
  | Mixed
deriving DecidableEq

/-- Rotation synchronization kind passed to the unselected-instance
synchronization (SyncRotationType). -/
inductive SyncRotationType
  | SYNC_ROTATION_NONE
  | SYNC_ROTATION_FULL
  | SYNC_ROTATION_GENERAL
deriving DecidableEq

/-- Modelled from the spec: the TransformationType flag set (declared in
the selection header, outside this repository snapshot).  It carries the
local-versus-world, relative-versus-absolute and joint-versus-independent
flags that select the transform composition semantics. -/
structure TransformationType where
  world : Bool
  absolute : Bool
  joint : Bool
deriving DecidableEq

/-- Relative is the negation of absolute. -/
def TransformationType.relative (t : TransformationType) : Bool := !t.absolute

/-- Independent is the negation of joint. -/
def TransformationType.independent (t : TransformationType) : Bool := !t.joint

/-- Modelled from the spec: the kind of a deletion request emitted by
erase to the object list collaborator (whole object, whole instance, or
single part). -/
inductive ItemType
  | itObject
  | itVolume
  | itInstance
deriving DecidableEq

/-- Modelled from the spec: one deletion request (ItemForDelete) emitted
by erase: an item kind, an object index and a sub-index (instance or
part index, unused for whole objects). -/
structure ItemForDelete where
  type : ItemType
  obj_idx : Int
  sub_obj_idx : Int
deriving DecidableEq

/-- One cached transform decomposition (TransformCache): offset, Euler
rotation, per-axis scale and per-axis mirror.  The derived matrices of
the source are recomputed from these components where needed. -/
structure TransformCache (α : Type) where
  position : Vec3 α
  rotation : Vec3 α
  scaling_factor : Vec3 α
  mirror : Vec3 α
deriving DecidableEq

/-- Default-constructed TransformCache: zero offset and rotation, unit
scale and mirror. -/
def TransformCache.init {α : Type} [Zero α] [One α] : TransformCache α :=
  ⟨Vec3.zero, Vec3.zero, Vec3.ones, Vec3.ones⟩

/-- The drag-start snapshot of one volume (VolumeCache): its volume-local
and instance-level transform decompositions. -/
structure VolumeCache (α : Type) where
  m_volume : TransformCache α
  m_instance : TransformCache α
deriving DecidableEq

/-- Default-constructed VolumeCache, as produced by the map subscript
operator of the snapshot cache for an absent key. -/
def VolumeCache.init {α : Type} [Zero α] [One α] : VolumeCache α :=
  ⟨TransformCache.init, TransformCache.init⟩

/-- The selection state.  m_volumes and m_model are the non-owning
references to the external volume list and model (None models a null
pointer); m_list is the ordered set of selected volume indices; m_content
is the object-to-instances membership cache; m_cache_volumes_data and
m_dragging_center are the drag-start snapshot.  The lazily recomputed
bounding box is not part of any claim and is not modelled. -/
structure Selection (α : Type) where
  m_volumes : Option (List (GLVolume α))
  m_model : Option (List ModelObject)
  m_mode : SelectionMode
  m_type : SelectionType
  m_valid : Bool
  m_list : List Nat
  m_content : List (Int × List Int)
  m_cache_volumes_data : List (VolumeCache α)
  m_dragging_center : Vec3 α
deriving DecidableEq

namespace Selection

variable {α : Type} [Field α] [DecidableEq α]

/-- Default volume record used only to totalize list indexing; the code
never reads it on in-range indices. -/
def defVol : GLVolume α :=
  { object_idx := 0, instance_idx := 0, volume_idx := 0
    is_wipe_tower := false, is_modifier := false
    selected := false, disabled := false
    instance_offset := Vec3.zero, instance_rotation := Vec3.zero
    instance_scaling_factor := Vec3.ones, instance_mirror := Vec3.ones
    volume_offset := Vec3.zero, volume_rotation := Vec3.zero
    volume_scaling_factor := Vec3.ones, volume_mirror := Vec3.ones }

/-- The dereferenced volume list (meaningful only when the selection is
valid, exactly as in the source where the pointer is only dereferenced
behind the validity guard). -/
def volsD (s : Selection α) : List (GLVolume α) := s.m_volumes.getD []

/-- The dereferenced model object list. -/
def mdlD (s : Selection α) : List ModelObject := s.m_model.getD []

/-- Indexing of the volume list, totalized with the default volume. -/
def volAt (vols : List (GLVolume α)) (i : Nat) : GLVolume α := vols.getD i defVol

/-- Indexing of the model object list by the (int-valued) object index of
a volume; out-of-range access is undefined behaviour in the source and is
totalized here with a zero-count object. -/
def modelGetObj (mdl : List ModelObject) (i : Int) : ModelObject :=
  if 0 ≤ i then mdl.getD i.toNat ⟨0, 0⟩ else ⟨0, 0⟩

/-- Insertion into the sorted duplicate-free index set m_list
(std::set of unsigned int). -/
def slInsert : List Nat → Nat → List Nat
  | [], i => [i]
  | j :: t, i =>
      if i < j then i :: j :: t
      else if i = j then j :: t
      else j :: slInsert t i

/-- Insertion into a duplicate-free worklist (std::set used purely for
membership and cardinality; iteration order of this set is never
observable in the embedded operations). -/
def dInsert (l : List Nat) (i : Nat) : List Nat := if i ∈ l then l else l ++ [i]

/-- Insert an (object index, instance index) pair into the
object-to-instances membership cache (std::map of int to std::set of
int); the per-object instance sets are kept duplicate-free. -/
def contentInsert : List (Int × List Int) → Int → Int → List (Int × List Int)
  | [], o, i => [(o, [i])]
  | (o', is) :: t, o, i =>
      if o' = o then (o', if i ∈ is then is else is ++ [i]) :: t
      else (o', is) :: contentInsert t o i

/-- Look up the instance set of an object in the membership cache. -/
def contentFind (c : List (Int × List Int)) (o : Int) : Option (List Int) :=
  (c.find? (fun p => p.1 = o)).map Prod.snd

/-- Rebuild the object-to-instances membership cache from the selected
index set (the first loop of updateType). -/
def computeContent (vols : List (GLVolume α)) (l : List Nat) : List (Int × List Int) :=
  l.foldl (fun c i => contentInsert c (volAt vols i).object_idx (volAt vols i).instance_idx) []

/-- get_object_idx: the unique selected object index, or -1. -/
def getObjectIdxOf (content : List (Int × List Int)) : Int :=
  match content with
  | [(o, _)] => o
  | _ => -1

/-- get_instance_idx: the unique selected instance index, or -1. -/
def getInstanceIdxOf (content : List (Int × List Int)) : Int :=
  match content with
  | [(_, [i])] => i
  | _ => -1

/-- get_object_idx on the selection state. -/
def getObjectIdx (s : Selection α) : Int := getObjectIdxOf s.m_content

/-- get_instance_idx on the selection state. -/
def getInstanceIdx (s : Selection α) : Int := getInstanceIdxOf s.m_content

/-- Update one volume of the list in place. -/
def setVolAt (vols : List (GLVolume α)) (i : Nat) (f : GLVolume α → GLVolume α) :
    List (GLVolume α) :=
  vols.set i (f (volAt vols i))

/-- The branch structure of updateType that picks the classification, the
possibly forced Instance mode and the disable requirement, transcribed
from the source.  Returns (type, mode, requires_disable). -/
def classify (s : Selection α) (content : List (Int × List Int)) :
    SelectionType × SelectionMode × Bool :=
  if s.m_valid ≠ true then (SelectionType.Invalid, s.m_mode, false)
  else
    let vols := volsD s
    let mdl := mdlD s
    match s.m_list with
    | [] => (SelectionType.Empty, s.m_mode, false)
    | [i0] =>
        let first := volAt vols i0
        if first.is_wipe_tower then (SelectionType.WipeTower, s.m_mode, false)
        else if first.is_modifier then (SelectionType.SingleModifier, s.m_mode, true)
        else
          let mo := modelGetObj mdl first.object_idx
          if mo.volumes_count * mo.instances_count = 1 then
            (SelectionType.SingleFullObject, SelectionMode.Instance, false)
          else if mo.volumes_count = 1 then
            (SelectionType.SingleFullInstance, SelectionMode.Instance, false)
          else (SelectionType.SingleVolume, s.m_mode, true)
    | _ =>
        match content with
        | [(o, insts)] =>
            let mo := modelGetObj mdl o
            let sla_volumes_count :=
              (s.m_list.filter (fun i => (volAt vols i).volume_idx < 0)).length
            let volumes_count := mo.volumes_count + sla_volumes_count
            let instances_count := mo.instances_count
            let selected_instances_count := insts.length
            if volumes_count * instances_count = s.m_list.length then
              (SelectionType.SingleFullObject, SelectionMode.Instance, false)
            else if selected_instances_count = 1 then
              if volumes_count = s.m_list.length then
                (SelectionType.SingleFullInstance, SelectionMode.Instance, false)
              else
                let modifiers_count :=
                  (s.m_list.filter (fun i => (volAt vols i).is_modifier)).length
                if modifiers_count = 0 then
                  (SelectionType.MultipleVolume, s.m_mode, true)
                else if modifiers_count = s.m_list.length then
                  (SelectionType.MultipleModifier, s.m_mode, true)
                else (SelectionType.Mixed, s.m_mode, false)
            else if 1 < selected_instances_count ∧
                selected_instances_count * volumes_count = s.m_list.length then
              (SelectionType.MultipleFullInstance, SelectionMode.Instance, false)
            else (SelectionType.Mixed, s.m_mode, false)
        | _ =>
            let sels_cntr := content.foldl
              (fun a p =>
                let mo := modelGetObj mdl p.1
                a + mo.volumes_count * mo.instances_count) 0
            if sels_cntr = s.m_list.length then
              (SelectionType.MultipleFullObject, SelectionMode.Instance, false)
            else (SelectionType.Mixed, s.m_mode, false)

/-- updateType: rebuild the membership cache, re-classify the selection
and rewrite every volume's disabled flag. -/
def updateType (s : Selection α) : Selection α :=
  let vols := volsD s
  let content := computeContent vols s.m_list
  let (t, mode, requires_disable) := classify s content
  let object_idx := getObjectIdxOf content
  let instance_idx := getInstanceIdxOf content
  let vols' := vols.map (fun v =>
    { v with disabled :=
        if requires_disable then
          v.object_idx ≠ object_idx ∨ v.instance_idx ≠ instance_idx
        else false })
  { s with m_volumes := some vols', m_content := content, m_type := t, m_mode := mode }

/-- _add_volume: insert the index into the set and raise the selected
flag of that volume. -/
def addVolumePrim (s : Selection α) (i : Nat) : Selection α :=
  { s with m_list := slInsert s.m_list i
           m_volumes := some (setVolAt (volsD s) i (fun v => { v with selected := true })) }

/-- _remove_volume: if present, erase the index from the set and lower
the selected flag of that volume. -/
def removeVolumePrim (s : Selection α) (i : Nat) : Selection α :=
  if i ∈ s.m_list then
    { s with m_list := s.m_list.erase i
             m_volumes := some (setVolAt (volsD s) i (fun v => { v with selected := false })) }
  else s

/-- _add_instance: add every volume sharing the (object, instance) pair. -/
def addInstancePrim (s : Selection α) (oi ii : Int) : Selection α :=
  (List.range (volsD s).length).foldl
    (fun st i =>
      let v := volAt (volsD st) i
      if v.object_idx = oi ∧ v.instance_idx = ii then addVolumePrim st i else st) s

/-- _add_object: add every volume of the object. -/
def addObjectPrim (s : Selection α) (oi : Int) : Selection α :=
  (List.range (volsD s).length).foldl
    (fun st i =>
      if (volAt (volsD st) i).object_idx = oi then addVolumePrim st i else st) s

/-- _remove_instance: remove every volume sharing the (object, instance)
pair. -/
def removeInstancePrim (s : Selection α) (oi ii : Int) : Selection α :=
  (List.range (volsD s).length).foldl
    (fun st i =>
      let v := volAt (volsD st) i
      if v.object_idx = oi ∧ v.instance_idx = ii then removeVolumePrim st i else st) s

/-- _remove_object: remove every volume of the object. -/
def removeObjectPrim (s : Selection α) (oi : Int) : Selection α :=
  (List.range (volsD s).length).foldl
    (fun st i =>
      if (volAt (volsD st) i).object_idx = oi then removeVolumePrim st i else st) s

/-- clear: lower the selected flag of every selected volume, empty the
index set and re-classify.  The sidebar cache reset is an external UI
callback and is not modelled. -/
def clear (s : Selection α) : Selection α :=
  if s.m_valid ≠ true then s
  else
    let vols' := s.m_list.foldl
      (fun vs i => setVolAt vs i (fun v => { v with selected := false })) (volsD s)
    updateType { s with m_volumes := some vols', m_list := [] }

/-- Modelled from the spec: is_wipe_tower, the header classification
predicate (the selection is exactly the wipe-tower pseudo-volume). -/
def isWipeTowerSel (s : Selection α) : Bool := s.m_type = SelectionType.WipeTower

/-- Modelled from the spec: is_modifier, the header classification
predicate (the selection consists of modifier parts). -/
def isModifierSel (s : Selection α) : Bool :=
  s.m_type = SelectionType.SingleModifier ∨ s.m_type = SelectionType.MultipleModifier

/-- Modelled from the spec: is_empty, the header classification
predicate. -/
def isEmptySel (s : Selection α) : Bool := s.m_type = SelectionType.Empty

/-- Modelled from the spec: is_mixed, the header classification
predicate. -/
def isMixedSel (s : Selection α) : Bool := s.m_type = SelectionType.Mixed

/-- Modelled from the spec: is_single_full_object, the header
classification predicate. -/
def isSingleFullObjectSel (s : Selection α) : Bool :=
  s.m_type = SelectionType.SingleFullObject

/-- Modelled from the spec: is_multiple_full_object, the header
classification predicate. -/
def isMultipleFullObjectSel (s : Selection α) : Bool :=
  s.m_type = SelectionType.MultipleFullObject

/-- Modelled from the spec: is_multiple_full_instance, the header
classification predicate. -/
def isMultipleFullInstanceSel (s : Selection α) : Bool :=
  s.m_type = SelectionType.MultipleFullInstance

/-- Modelled from the spec: is_single_volume, the header classification
predicate. -/
def isSingleVolumeSel (s : Selection α) : Bool := s.m_type = SelectionType.SingleVolume

/-- Modelled from the spec: is_single_modifier, the header classification
predicate. -/
def isSingleModifierSel (s : Selection α) : Bool :=
  s.m_type = SelectionType.SingleModifier

/-- Modelled from the spec: contains_volume, membership of an index in
the selected set. -/
def containsVolume (s : Selection α) (i : Nat) : Bool := i ∈ s.m_list

/-- is_single_full_instance, transcribed from the source: either the
cached type says so, or a single full object with a definite instance, or
the selected volumes all share one (object, instance) pair and their
distinct non-negative part indices exhaust the object's parts. -/
def isSingleFullInstance (s : Selection α) : Bool :=
  if s.m_type = SelectionType.SingleFullInstance then true
  else if s.m_type = SelectionType.SingleFullObject then getInstanceIdx s ≠ -1
  else if s.m_list.isEmpty ∨ (volsD s).isEmpty then false
  else
    let object_idx := if s.m_valid then getObjectIdx s else -1
    if object_idx < 0 ∨ Int.ofNat (mdlD s).length ≤ object_idx then false
    else
      match s.m_list with
      | [] => false
      | i0 :: _ =>
          let vols := volsD s
          let instance_idx := (volAt vols i0).instance_idx
          if s.m_list.all (fun i =>
              (volAt vols i).object_idx = object_idx ∧
              (volAt vols i).instance_idx = instance_idx) then
            let volumes_idxs := (s.m_list.filterMap (fun i =>
              if 0 ≤ (volAt vols i).volume_idx then some (volAt vols i).volume_idx
              else none)).dedup
            (modelGetObj (mdlD s) object_idx).volumes_count = volumes_idxs.length
          else false

/-- add: select one volume by index, with the wipe-tower, modifier and
exclusivity reset rules and the mode resolution of the source. -/
def add (s : Selection α) (volume_idx : Nat) (as_single_selection : Bool) : Selection α :=
  if s.m_valid ≠ true ∨ (volsD s).length ≤ volume_idx then s
  else
    let v := volAt (volsD s) volume_idx
    if isWipeTowerSel s ∧ v.is_wipe_tower then s
    else
      let needs_reset := as_single_selection ∨ v.is_wipe_tower ∨
        (isWipeTowerSel s ∧ ¬v.is_wipe_tower) ∨
        (¬isModifierSel s ∧ v.is_modifier) ∨
        (isModifierSel s ∧ ¬v.is_modifier)
      let s1 := if needs_reset then clear s else s
      let s2 :=
        if v.is_modifier then { s1 with m_mode := SelectionMode.Volume }
        else if ¬containsVolume s1 volume_idx then { s1 with m_mode := SelectionMode.Instance }
        else s1
      let s3 :=
        match s2.m_mode with
        | SelectionMode.Volume =>
            if 0 ≤ v.volume_idx ∧ (isEmptySel s2 ∨ v.instance_idx = getInstanceIdx s2) then
              addVolumePrim s2 volume_idx
            else s2
        | SelectionMode.Instance => addInstancePrim s2 v.object_idx v.instance_idx
      updateType s3

/-- remove: deselect one volume by index; in Instance mode the whole
(object, instance) pair is removed. -/
def remove (s : Selection α) (volume_idx : Nat) : Selection α :=
  if s.m_valid ≠ true ∨ (volsD s).length ≤ volume_idx then s
  else
    let v := volAt (volsD s) volume_idx
    let s1 :=
      match s.m_mode with
      | SelectionMode.Volume => removeVolumePrim s volume_idx
      | SelectionMode.Instance => removeInstancePrim s v.object_idx v.instance_idx
    updateType s1

/-- add_object: select every volume of an object (Instance mode). -/
def add_object (s : Selection α) (object_idx : Nat) (as_single_selection : Bool) :
    Selection α :=
  if s.m_valid ≠ true then s
  else
    let s1 := if as_single_selection then clear s else s
    let s2 := { s1 with m_mode := SelectionMode.Instance }
    updateType (addObjectPrim s2 (Int.ofNat object_idx))

/-- remove_object: deselect every volume of an object. -/
def remove_object (s : Selection α) (object_idx : Nat) : Selection α :=
  if s.m_valid ≠ true then s
  else updateType (removeObjectPrim s (Int.ofNat object_idx))

/-- add_instance: select every volume of one instance (Instance mode). -/
def add_instance (s : Selection α) (object_idx instance_idx : Nat)
    (as_single_selection : Bool) : Selection α :=
  if s.m_valid ≠ true then s
  else
    let s1 := if as_single_selection then clear s else s
    let s2 := { s1 with m_mode := SelectionMode.Instance }
    updateType (addInstancePrim s2 (Int.ofNat object_idx) (Int.ofNat instance_idx))

/-- remove_instance: deselect every volume of one instance. -/
def remove_instance (s : Selection α) (object_idx instance_idx : Nat) : Selection α :=
  if s.m_valid ≠ true then s
  else updateType (removeInstancePrim s (Int.ofNat object_idx) (Int.ofNat instance_idx))

/-- add_volume: select one part, restricted to one instance when
instance_idx is not -1 (Volume mode). -/
def add_volume (s : Selection α) (object_idx volume_idx : Nat) (instance_idx : Int)
    (as_single_selection : Bool) : Selection α :=
  if s.m_valid ≠ true then s
  else
    let s1 := if as_single_selection then clear s else s
    let s2 := { s1 with m_mode := SelectionMode.Volume }
    let s3 := (List.range (volsD s2).length).foldl
      (fun st i =>
        let v := volAt (volsD st) i
        if v.object_idx = Int.ofNat object_idx ∧ v.volume_idx = Int.ofNat volume_idx then
          if instance_idx ≠ -1 ∧ v.instance_idx = instance_idx then addVolumePrim st i
          else st
        else st) s2
    updateType s3

/-- remove_volume: deselect every volume with the (object, part) key. -/
def remove_volume (s : Selection α) (object_idx volume_idx : Nat) : Selection α :=
  if s.m_valid ≠ true then s
  else
    let s1 := (List.range (volsD s).length).foldl
      (fun st i =>
        let v := volAt (volsD st) i
        if v.object_idx = Int.ofNat object_idx ∧ v.volume_idx = Int.ofNat volume_idx then
          removeVolumePrim st i
        else st) s
    updateType s1

/-- add_all: clear, then select every volume that is not the wipe-tower
pseudo-volume, in Instance mode. -/
def add_all (s : Selection α) : Selection α :=
  if s.m_valid ≠ true then s
  else
    let s1 := clear { s with m_mode := SelectionMode.Instance }
    let s2 := (List.range (volsD s1).length).foldl
      (fun st i =>
        if (volAt (volsD st) i).is_wipe_tower then st else addVolumePrim st i) s1
    updateType s2

/-- volumes_changed: remap the selected set through the old-to-new index
map after the external volume list was rebuilt (None entries are removed
volumes), and in Instance mode re-add all volumes of the previously
selected (object, instance) pairs.  The source only asserts validity
here; dereferencing the unbound list in a release build is undefined, so
the unbound case is modelled as None. -/
def volumes_changed (s : Selection α) (newVols : List (GLVolume α))
    (mp : List (Option Nat)) : Option (Selection α) :=
  if s.m_valid ≠ true then none
  else
    let step := s.m_list.foldl
      (fun (acc : List Nat × List (Int × Int)) idx =>
        match mp.getD idx none with
        | none => acc
        | some new_idx =>
            (slInsert acc.1 new_idx,
             if s.m_mode = SelectionMode.Instance then
               let v := volAt newVols new_idx
               acc.2 ++ [(v.object_idx, v.instance_idx)]
             else acc.2)) ([], [])
    let s1 := { s with m_volumes := some newVols, m_list := step.1 }
    let model_instances := step.2.dedup
    let s2 :=
      if model_instances ≠ [] then
        (List.range newVols.length).foldl
          (fun st i =>
            let v := volAt (volsD st) i
            if model_instances.any (fun p => v.object_idx = p.1 ∧ v.instance_idx = p.2) then
              addVolumePrim st i
            else st) s1
      else s1
    some (updateType s2)

/-- _set_caches: snapshot every volume's transform decompositions and the
drag pivot.  The pivot is the selection bounding-box center, computed by
the external convex-hull geometry, and is taken as an oracle input. -/
def setCaches (s : Selection α) (center : Vec3 α) : Selection α :=
  { s with
      m_cache_volumes_data := (volsD s).map (fun v =>
        ⟨⟨v.volume_offset, v.volume_rotation, v.volume_scaling_factor, v.volume_mirror⟩,
         ⟨v.instance_offset, v.instance_rotation, v.instance_scaling_factor,
          v.instance_mirror⟩⟩)
      m_dragging_center := center }

/-- start_dragging: snapshot the caches behind the validity guard. -/
def start_dragging (s : Selection α) (center : Vec3 α) : Selection α :=
  if s.m_valid ≠ true then s else setCaches s center

/-- Read the snapshot of volume i (the map subscript operator
default-constructs an absent entry). -/
def cacheAt (s : Selection α) (i : Nat) : VolumeCache α :=
  s.m_cache_volumes_data.getD i VolumeCache.init

/-- get_volume: the volume at an index, or null when the selection is
unbound or the index is out of range. -/
def get_volume (s : Selection α) (volume_idx : Nat) : Option (GLVolume α) :=
  if s.m_valid = true ∧ volume_idx < (volsD s).length then some (volAt (volsD s) volume_idx)
  else none

/-- _update_valid: the selection is valid exactly when both the volume
list and the model are bound. -/
def updateValid (s : Selection α) : Selection α :=
  { s with m_valid := s.m_volumes.isSome ∧ s.m_model.isSome }

/-- set_volumes: rebind the external volume list and revalidate. -/
def set_volumes (s : Selection α) (volumes : Option (List (GLVolume α))) : Selection α :=
  updateValid { s with m_volumes := volumes }

/-- set_model: rebind the external model and revalidate. -/
def set_model (s : Selection α) (model : Option (List ModelObject)) : Selection α :=
  updateValid { s with m_model := model }

/-- The freshly constructed selection: unbound, invalid, Instance mode,
Empty type, empty index set. -/
def initSelection : Selection α :=
  { m_volumes := none, m_model := none, m_mode := SelectionMode.Instance
    m_type := SelectionType.Empty, m_valid := false, m_list := []
    m_content := [], m_cache_volumes_data := [], m_dragging_center := Vec3.zero }

/-- Bind a selection to a concrete volume list and model. -/
def bindSelection (vols : List (GLVolume α)) (mdl : List ModelObject) : Selection α :=
  set_model (set_volumes initSelection (some vols)) (some mdl)

/-- A volume with given identity and flags and identity transforms, used
to build concrete volume lists. -/
def mkVol (oi ii vi : Int) (wipe modif : Bool) : GLVolume α :=
  { defVol with object_idx := oi, instance_idx := ii, volume_idx := vi
                is_wipe_tower := wipe, is_modifier := modif }

/-- The selected-flag invariant of the specification: the index set is
duplicate-free, every selected index refers to an existing volume, and a
volume's selected flag is raised exactly when its index is a member of
the set. -/
def SelInvP (s : Selection α) : Prop :=
  s.m_list.Sorted (· < ·) ∧ (∀ i ∈ s.m_list, i < (volsD s).length) ∧
  ∀ j, j < (volsD s).length → ((volAt (volsD s) j).selected = true ↔ j ∈ s.m_list)

instance decSelInvP (s : Selection α) : Decidable (SelInvP s) := by
  unfold SelInvP
  infer_instance

/-- States reachable from a given state through the single-volume and
whole-list selection mutators add, remove, clear and add_all. -/
inductive ReachBasic (s0 : Selection α) : Selection α → Prop
  | base : ReachBasic s0 s0
  | step_add (s : Selection α) (i : Nat) (b : Bool) :
      ReachBasic s0 s → ReachBasic s0 (add s i b)
  | step_remove (s : Selection α) (i : Nat) :
      ReachBasic s0 s → ReachBasic s0 (remove s i)
  | step_clear (s : Selection α) :
      ReachBasic s0 s → ReachBasic s0 (clear s)
  | step_add_all (s : Selection α) :
      ReachBasic s0 s → ReachBasic s0 (add_all s)

/-- Hypothesis bundle for the wipe-tower claims: the volume at index w
is the wipe tower, it is the only wipe-tower volume, and no other volume
shares its (object, instance) pair. -/
def WipeUnique (vols : List (GLVolume α)) (w : Nat) : Prop :=
  w < vols.length ∧ (volAt vols w).is_wipe_tower = true ∧
  ∀ k, k < vols.length → k ≠ w →
    (volAt vols k).is_wipe_tower = false ∧
    ¬((volAt vols k).object_idx = (volAt vols w).object_idx ∧
      (volAt vols k).instance_idx = (volAt vols w).instance_idx)


instance decWipeUnique (vols : List (GLVolume α)) (w : Nat) : Decidable (WipeUnique vols w) := by
  unfold WipeUnique
  infer_instance

/-- Cached-classification consistency: the stored selection type is the
one the classification engine computes from the current index set,
volume list and model (established by updateType after every mutation). -/
def TypeConsistent (s : Selection α) : Prop :=
  s.m_type = (classify s (computeContent (volsD s) s.m_list)).1


instance decTypeConsistent (s : Selection α) : Decidable (TypeConsistent s) := by
  unfold TypeConsistent
  infer_instance

/-- The wipe-tower exclusivity invariant: if a wipe-tower volume is
selected then it is the only selected volume. -/
def WipeAlone (s : Selection α) : Prop :=
  ∀ w ∈ s.m_list, (volAt (volsD s) w).is_wipe_tower = true → s.m_list = [w]


instance decWipeAlone (s : Selection α) : Decidable (WipeAlone s) := by
  unfold WipeAlone
  infer_instance

/-- Selected indices refer to existing volumes. -/
def ListInRange (s : Selection α) : Prop :=
  ∀ i ∈ s.m_list, i < (volsD s).length


instance decListInRange (s : Selection α) : Decidable (ListInRange s) := by
  unfold ListInRange
  infer_instance

/-- Pairwise distinctness of the (object, part) keys of the selected
volumes, the reachable-state shape under which the part-sibling
synchronization never rewrites a selected volume. -/
def SelDistinctParts (s : Selection α) : Prop :=
  ∀ i ∈ s.m_list, ∀ j ∈ s.m_list, i ≠ j →
    ¬((volAt (volsD s) i).object_idx = (volAt (volsD s) j).object_idx ∧
      (volAt (volsD s) i).volume_idx = (volAt (volsD s) j).volume_idx)

instance decSelDistinctParts (s : Selection α) : Decidable (SelDistinctParts s) := by
  unfold SelDistinctParts
  infer_instance

/-- The inner loop body of _synchronize_unselected_instances: skip when
the worklist covers every volume, when the target is already done, or
when it is not an unselected sibling instance volume; otherwise copy the
instance scale and mirror (and, per the sync kind, the rotation) of the
selected volume and mark the target done.  vi is the selected volume the
outer loop captured by reference, i its index. -/
def syncInstInner (zdiff : Vec3 α → Vec3 α → α) (s : Selection α) (sy : SyncRotationType)
    (vi : GLVolume α) (i : Nat) (acc2 : List (GLVolume α) × List Nat) (j : Nat) :
    List (GLVolume α) × List Nat :=
  if acc2.2.length = (volsD s).length then acc2
  else if j ∈ acc2.2 then acc2
  else
    let vj := volAt acc2.1 j
    if vj.object_idx ≠ vi.object_idx ∨ vj.instance_idx = vi.instance_idx then acc2
    else
      let rot :=
        match sy with
        | SyncRotationType.SYNC_ROTATION_NONE => vj.instance_rotation
        | SyncRotationType.SYNC_ROTATION_FULL =>
            ⟨vi.instance_rotation.x, vi.instance_rotation.y, vi.instance_rotation.z⟩
        | SyncRotationType.SYNC_ROTATION_GENERAL =>
            let z_diff := zdiff (cacheAt s i).m_instance.rotation
              (cacheAt s j).m_instance.rotation
            ⟨vi.instance_rotation.x, vi.instance_rotation.y,
             vi.instance_rotation.z + z_diff⟩
      (setVolAt acc2.1 j (fun v =>
         { v with instance_rotation := rot
                  instance_scaling_factor := vi.instance_scaling_factor
                  instance_mirror := vi.instance_mirror }),
       acc2.2 ++ [j])

/-- The outer loop body of _synchronize_unselected_instances: break when
the worklist is full, skip pseudo-objects, otherwise process every index
against the selected volume. -/
def syncInstOuter (zdiff : Vec3 α → Vec3 α → α) (s : Selection α) (sy : SyncRotationType)
    (acc : List (GLVolume α) × List Nat) (i : Nat) : List (GLVolume α) × List Nat :=
  if acc.2.length = (volsD s).length then acc
  else
    let vi := volAt acc.1 i
    if 1000 ≤ vi.object_idx then acc
    else (List.range (volsD s).length).foldl (syncInstInner zdiff s sy vi i) acc

/-- _synchronize_unselected_instances: propagate the instance-level
scale and mirror (and, depending on the sync kind, rotation) of each
selected volume to the unselected volumes of the same object in other
instances.  Volumes of pseudo-objects (object index at least 1000) are
skipped, and a worklist seeded with the selected set prevents processing
a volume twice.  The numeric z-delta helper (rotation_diff_z in the
source) is passed as a parameter and instantiated with the real-valued
definition where trigonometry is available. -/
def syncUnselectedInstances (zdiff : Vec3 α → Vec3 α → α) (s : Selection α)
    (sync_rotation_type : SyncRotationType) : Selection α :=
  let out := s.m_list.foldl (syncInstOuter zdiff s sync_rotation_type)
    (volsD s, s.m_list.foldl dInsert [])
  { s with m_volumes := some out.1 }

/-- The inner loop body of _synchronize_unselected_volumes: copy the
volume-level transform of the selected volume vi verbatim to every other
volume with the same (object, part) key. -/
def syncVolInner (vi : GLVolume α) (i : Nat) (vs2 : List (GLVolume α)) (j : Nat) :
    List (GLVolume α) :=
  if j = i then vs2
  else
    let vj := volAt vs2 j
    if vj.object_idx ≠ vi.object_idx ∨ vj.volume_idx ≠ vi.volume_idx then vs2
    else
      setVolAt vs2 j (fun v =>
        { v with volume_offset := vi.volume_offset
                 volume_rotation := vi.volume_rotation
                 volume_scaling_factor := vi.volume_scaling_factor
                 volume_mirror := vi.volume_mirror })

/-- The outer loop body of _synchronize_unselected_volumes: skip
pseudo-objects, otherwise process every index against the selected
volume. -/
def syncVolOuter (n : Nat) (vs : List (GLVolume α)) (i : Nat) : List (GLVolume α) :=
  let vi := volAt vs i
  if 1000 ≤ vi.object_idx then vs
  else (List.range n).foldl (syncVolInner vi i) vs

/-- _synchronize_unselected_volumes: copy the volume-level transform of
each selected volume verbatim to every other volume with the same
(object, part) key.  Pseudo-objects are skipped. -/
def syncUnselectedVolumes (s : Selection α) : Selection α :=
  let out := s.m_list.foldl (syncVolOuter (volsD s).length) (volsD s)
  { s with m_volumes := some out }

/-- mirror: flip the mirror sign of the selection along an axis, either
at the instance level (single full instance) or per selected volume in
Volume mode, then run the mode-matching synchronization. -/
def mirror (zdiff : Vec3 α → Vec3 α → α) (s : Selection α) (axis : Axis) : Selection α :=
  if s.m_valid ≠ true then s
  else
    let single_full_instance := isSingleFullInstance s
    let vols' := s.m_list.foldl
      (fun (vs : List (GLVolume α)) i =>
        if single_full_instance then
          setVolAt vs i (fun v =>
            { v with instance_mirror :=
                v.instance_mirror.setComp axis (-(v.instance_mirror.comp axis)) })
        else if s.m_mode = SelectionMode.Volume then
          setVolAt vs i (fun v =>
            { v with volume_mirror :=
                v.volume_mirror.setComp axis (-(v.volume_mirror.comp axis)) })
        else vs)
      (volsD s)
    let s1 := { s with m_volumes := some vols' }
    match s.m_mode with
    | SelectionMode.Instance =>
        syncUnselectedInstances zdiff s1 SyncRotationType.SYNC_ROTATION_NONE
    | SelectionMode.Volume => syncUnselectedVolumes s1

/-- translate(object_idx, displacement): shift the instance offset of
every selected volume of the object, then of every unselected volume
sharing an object with some selected volume (the inner loop of the source
shadows the parameter with the selected volume's object index). -/
def translate_object (s : Selection α) (object_idx : Nat) (displacement : Vec3 α) :
    Selection α :=
  if s.m_valid ≠ true then s
  else
    let n := (volsD s).length
    let vols1 := s.m_list.foldl
      (fun vs i =>
        if (volAt vs i).object_idx = Int.ofNat object_idx then
          setVolAt vs i (fun v =>
            { v with instance_offset := v.instance_offset + displacement })
        else vs)
      (volsD s)
    let init : List (GLVolume α) × List Nat := (vols1, s.m_list.foldl dInsert [])
    let out := s.m_list.foldl
      (fun (acc : List (GLVolume α) × List Nat) i =>
        if acc.2.length = n then acc
        else
          let oi := (volAt acc.1 i).object_idx
          if 1000 ≤ oi then acc
          else
            (List.range n).foldl
              (fun (acc2 : List (GLVolume α) × List Nat) j =>
                if acc2.2.length = n then acc2
                else if j ∈ acc2.2 then acc2
                else if (volAt acc2.1 j).object_idx ≠ oi then acc2
                else
                  (setVolAt acc2.1 j (fun v =>
                     { v with instance_offset := v.instance_offset + displacement }),
                   acc2.2 ++ [j]))
              acc)
      init
    { s with m_volumes := some out.1 }

/-- translate(object_idx, instance_idx, displacement): as
translate_object but restricted to one instance index; the inner loop
keeps the instance parameter while shadowing the object parameter. -/
def translate_object_instance (s : Selection α) (object_idx instance_idx : Nat)
    (displacement : Vec3 α) : Selection α :=
  if s.m_valid ≠ true then s
  else
    let n := (volsD s).length
    let vols1 := s.m_list.foldl
      (fun vs i =>
        let v := volAt vs i
        if v.object_idx = Int.ofNat object_idx ∧ v.instance_idx = Int.ofNat instance_idx then
          setVolAt vs i (fun w =>
            { w with instance_offset := w.instance_offset + displacement })
        else vs)
      (volsD s)
    let init : List (GLVolume α) × List Nat := (vols1, s.m_list.foldl dInsert [])
    let out := s.m_list.foldl
      (fun (acc : List (GLVolume α) × List Nat) i =>
        if acc.2.length = n then acc
        else
          let oi := (volAt acc.1 i).object_idx
          if 1000 ≤ oi then acc
          else
            (List.range n).foldl
              (fun (acc2 : List (GLVolume α) × List Nat) j =>
                if acc2.2.length = n then acc2
                else if j ∈ acc2.2 then acc2
                else
                  let vj := volAt acc2.1 j
                  if vj.object_idx ≠ oi ∨ vj.instance_idx ≠ Int.ofNat instance_idx then acc2
                  else
                    (setVolAt acc2.1 j (fun v =>
                       { v with instance_offset := v.instance_offset + displacement }),
                     acc2.2 ++ [j]))
              acc)
      init
    { s with m_volumes := some out.1 }

/-- Modelled from the spec: the strict ordering of deletion requests used
by the de-duplicating request set (the comparison operator of
ItemForDelete lives outside this repository snapshot); requests are
ordered by kind, then object, then sub-index. -/
def itemRank : ItemType → Nat
  | ItemType.itObject => 0
  | ItemType.itVolume => 1
  | ItemType.itInstance => 2

/-- The modelled strict order on deletion requests. -/
def itemLt (a b : ItemForDelete) : Bool :=
  itemRank a.type < itemRank b.type ∨
    (itemRank a.type = itemRank b.type ∧
      (a.obj_idx < b.obj_idx ∨ (a.obj_idx = b.obj_idx ∧ a.sub_obj_idx < b.sub_obj_idx)))

/-- Ordered duplicate-free insertion into the deletion-request set. -/
def itemInsert : List ItemForDelete → ItemForDelete → List ItemForDelete
  | [], a => [a]
  | b :: t, a =>
      if a = b then b :: t
      else if itemLt a b then a :: b :: t
      else b :: itemInsert t a

/-- Update-or-insert into an association list keyed by object index
(std::map of int to int). -/
def assocBump (l : List (Int × Int)) (o : Int) (v : Int) : List (Int × Int) :=
  match l with
  | [] => [(o, v)]
  | (o', w) :: t => if o' = o then (o', v) :: t else (o', w) :: assocBump t o v

/-- Lookup in the association list with a default. -/
def assocFindD (l : List (Int × Int)) (o : Int) (d : Int) : Int :=
  match l.find? (fun p => p.1 = o) with
  | none => d
  | some p => p.2

/-- erase: map the current classification to the list of deletion
requests emitted to the external object list.  The call into the object
list collaborator is modelled as the returned request list; an unbound
selection emits nothing. -/
def erase (s : Selection α) : List ItemForDelete :=
  if s.m_valid ≠ true then []
  else
    let vols := volsD s
    let mdl := mdlD s
    if isSingleFullObjectSel s then [⟨ItemType.itObject, getObjectIdx s, 0⟩]
    else if isMultipleFullObjectSel s then
      s.m_content.map (fun p => ⟨ItemType.itObject, p.1, 0⟩)
    else if isMultipleFullInstanceSel s then
      let pairs := (s.m_content.foldl
        (fun acc p => acc ++ p.2.map (fun ii => (p.1, ii))) ([] : List (Int × Int))).dedup
      pairs.map (fun q => ⟨ItemType.itInstance, q.1, q.2⟩)
    else if isSingleFullInstance s then
      [⟨ItemType.itInstance, getObjectIdx s, getInstanceIdx s⟩]
    else if isMixedSel s then
      let step := s.m_list.foldl
        (fun (acc : List ItemForDelete × List (Int × Int)) i =>
          let gv := volAt vols i
          let oi := gv.object_idx
          let mo := modelGetObj mdl oi
          if mo.instances_count = 1 then
            if mo.volumes_count = 1 then
              (itemInsert acc.1 ⟨ItemType.itObject, oi, -1⟩, acc.2)
            else
              let idx := assocFindD acc.2 oi 0
              (itemInsert acc.1 ⟨ItemType.itVolume, oi, gv.volume_idx⟩,
               assocBump acc.2 oi (idx + 1))
          else
            match contentFind s.m_content oi with
            | none => acc
            | some insts =>
                if gv.instance_idx ∈ insts then
                  if insts.length = mo.instances_count then
                    (itemInsert acc.1 ⟨ItemType.itVolume, oi, gv.volume_idx⟩, acc.2)
                  else
                    (itemInsert acc.1 ⟨ItemType.itInstance, oi, gv.instance_idx⟩, acc.2)
                else acc)
        ([], [])
      step.1.foldl
        (fun out it =>
          if it.type = ItemType.itVolume then
            let cnt := assocFindD step.2 it.obj_idx 0
            if cnt = Int.ofNat (modelGetObj mdl it.obj_idx).volumes_count then
              if it.sub_obj_idx = cnt - 1 then out ++ [⟨ItemType.itObject, it.obj_idx, 0⟩]
              else out
            else out ++ [it]
          else out ++ [it])
        []
    else
      let pairs := s.m_list.foldl
        (fun (acc : List (Int × Int)) i =>
          let v := volAt vols i
          if 0 ≤ v.volume_idx then
            if (v.object_idx, v.volume_idx) ∈ acc then acc
            else acc ++ [(v.object_idx, v.volume_idx)]
          else acc)
        []
      pairs.map (fun q => ⟨ItemType.itVolume, q.1, q.2⟩)

end Selection

namespace Selection

/-- 3-by-3 real matrices, the linear parts of the Transform3d values of
the source (the claims never depend on the affine translation column
except where it is handled explicitly). -/
abbrev Mat3 := Matrix (Fin 3) (Fin 3) ℝ

/-- Rotation about the X axis (Eigen AngleAxisd on UnitX). -/
noncomputable def RotX (a : ℝ) : Mat3 :=
  !![1, 0, 0; 0, Real.cos a, -Real.sin a; 0, Real.sin a, Real.cos a]

/-- Rotation about the Y axis (Eigen AngleAxisd on UnitY). -/
noncomputable def RotY (a : ℝ) : Mat3 :=
  !![Real.cos a, 0, Real.sin a; 0, 1, 0; -Real.sin a, 0, Real.cos a]

/-- Rotation about the Z axis (Eigen AngleAxisd on UnitZ). -/
noncomputable def RotZ (a : ℝ) : Mat3 :=
  !![Real.cos a, -Real.sin a, 0; Real.sin a, Real.cos a, 0; 0, 0, 1]

/-- The rotation block assembled from an Euler-angle triple.  The
composition convention (Z, then Y, then X, left to right) is the one the
source itself spells out in rotation_xyz_diff; the helper
Geometry::assemble_transform lives outside this repository snapshot and
is modelled from the specification with this same convention. -/
noncomputable def eulerMat (v : Vec3 ℝ) : Mat3 := RotZ v.z * RotY v.y * RotX v.x

/-- The explicit inverse product of an assembled rotation, as it appears
verbatim in rotation_xyz_diff. -/
noncomputable def eulerMatInv (v : Vec3 ℝ) : Mat3 := RotX (-v.x) * RotY (-v.y) * RotZ (-v.z)

/-- rotation_xyz_diff: the relative rotation carrying the orientation
described by the first Euler triple to the one described by the second,
composed in world coordinates exactly as in the source. -/
noncomputable def rotation_xyz_diff (rot_xyz_from rot_xyz_to : Vec3 ℝ) : Mat3 :=
  eulerMat rot_xyz_to * eulerMatInv rot_xyz_from

/-- The rotation angle of the angle-axis decomposition of a rotation
matrix (Eigen AngleAxisd): the arc cosine of (trace minus one) over
two. -/
noncomputable def aaAngle (m : Mat3) : ℝ := Real.arccos ((m.trace - 1) / 2)

/-- The rotation axis of the angle-axis decomposition, read off the
antisymmetric part; its value at the degenerate angles zero and pi is
irrelevant to every use in this development. -/
noncomputable def aaAxis (m : Mat3) : Vec3 ℝ :=
  let d := 2 * Real.sin (aaAngle m)
  ⟨(m 2 1 - m 1 2) / d, (m 0 2 - m 2 0) / d, (m 1 0 - m 0 1) / d⟩

/-- rotation_diff_z: the signed z-angle between two Euler orientations
that are known to differ only by a rotation about the Z axis. -/
noncomputable def rotation_diff_z (rot_xyz_from rot_xyz_to : Vec3 ℝ) : ℝ :=
  let m := rotation_xyz_diff rot_xyz_from rot_xyz_to
  if (aaAxis m).z < 0 then -aaAngle m else aaAngle m

open Classical in
/-- Modelled from the spec: Geometry::extract_euler_angles (outside this
repository snapshot) decomposes a rotation matrix back into an
Euler-angle triple; it is modelled as a choice of any triple whose
assembled rotation is the given matrix, which is the defining property
the specification states for it. -/
noncomputable def extract_euler_angles (m : Mat3) : Vec3 ℝ :=
  if h : ∃ v : Vec3 ℝ, eulerMat v = m then h.choose else Vec3.zero

/-- Diagonal matrix with the components of a vector, the linear part of
a pure scale or mirror transform. -/
noncomputable def diagM (v : Vec3 ℝ) : Mat3 := Matrix.diagonal ![v.x, v.y, v.z]

/-- Apply a matrix to a vector. -/
noncomputable def appM (m : Mat3) (v : Vec3 ℝ) : Vec3 ℝ :=
  let w := m.mulVec ![v.x, v.y, v.z]
  ⟨w 0, w 1, w 2⟩

/-- The per-column Euclidean norms of a matrix, used by scale to extract
scaling factors from a composed transform. -/
noncomputable def colNorms (m : Mat3) : Vec3 ℝ :=
  ⟨Real.sqrt ((m 0 0) ^ 2 + (m 1 0) ^ 2 + (m 2 0) ^ 2),
   Real.sqrt ((m 0 1) ^ 2 + (m 1 1) ^ 2 + (m 2 1) ^ 2),
   Real.sqrt ((m 0 2) ^ 2 + (m 1 2) ^ 2 + (m 2 2) ^ 2)⟩

/-- The index of the dominant (largest absolute) component of a rotation
request, as computed by cwiseAbs().maxCoeff(&axis): the first index of
the maximum. -/
noncomputable def maxAbsIdx (v : Vec3 ℝ) : Nat :=
  if |v.y| > |v.x| then (if |v.z| > |v.y| then 2 else 1)
  else (if |v.z| > |v.x| then 2 else 0)

/-- The instance full matrix of a snapshot, inverted and applied to a
point: mirror, scale and rotation undone after subtracting the offset
(Transformation::get_matrix composes offset, rotation, scale, mirror in
this order). -/
noncomputable def instFullInvApply (c : TransformCache ℝ) (p : Vec3 ℝ) : Vec3 ℝ :=
  appM (eulerMat c.rotation * diagM c.scaling_factor * diagM c.mirror)⁻¹ (p - c.position)

/-- The sibling synchronization run at the end of rotate, keyed on the
mode and on whether the dominant rotation axis was Z. -/
noncomputable def rotateSync (s : Selection ℝ) (rot_axis_max : Nat) : Selection ℝ :=
  match s.m_mode with
  | SelectionMode.Instance =>
      syncUnselectedInstances rotation_diff_z s
        (if rot_axis_max = 2 then SyncRotationType.SYNC_ROTATION_NONE
         else SyncRotationType.SYNC_ROTATION_GENERAL)
  | SelectionMode.Volume => syncUnselectedVolumes s

/-- Update-or-insert into the per-object first-rotated-volume table
(object_instance_first in the source, a vector indexed by object holding
-1 for absent entries; out-of-range object indices are undefined
behaviour there and an association list keyed by the object index is
used here). -/
def tableSet (t : List (Int × Nat)) (o : Int) (i : Nat) : List (Int × Nat) :=
  match t with
  | [] => [(o, i)]
  | (o', j) :: r => if o' = o then (o', i) :: r else (o', j) :: tableSet r o i

/-- Lookup in the first-rotated-volume table. -/
def tableFind (t : List (Int × Nat)) (o : Int) : Option Nat :=
  (t.find? (fun p => p.1 = o)).map Prod.snd

/-- The rotate_instance helper of rotate: either derive the rotation
from the first already-rotated volume of the same object (non-Z dominant
axis), or compose the new rotation from the request and the snapshot
(world, absolute or relative) and record this volume as the object's
first, additionally re-pivoting the instance offset for joint Z
rotations. -/
noncomputable def rotateInstanceStep (s : Selection ℝ) (rotation : Vec3 ℝ)
    (tt : TransformationType) (rot_axis_max : Nat)
    (acc : List (GLVolume ℝ) × List (Int × Nat)) (i : Nat) :
    List (GLVolume ℝ) × List (Int × Nat) :=
  let vols := acc.1
  let table := acc.2
  let v := volAt vols i
  match (if rot_axis_max ≠ 2 then tableFind table v.object_idx else none) with
  | some first_volume_idx =>
      let first_volume := volAt vols first_volume_idx
      let rot1 := first_volume.instance_rotation
      let z_diff := rotation_diff_z (cacheAt s first_volume_idx).m_instance.rotation
        (cacheAt s i).m_instance.rotation
      (setVolAt vols i (fun w =>
         { w with instance_rotation := ⟨rot1.x, rot1.y, rot1.z + z_diff⟩ }),
       table)
  | none =>
      let new_rotation :=
        if tt.world then
          extract_euler_angles (eulerMat rotation * eulerMat (cacheAt s i).m_instance.rotation)
        else if tt.absolute then rotation
        else rotation + (cacheAt s i).m_instance.rotation
      let joint_offset :=
        s.m_dragging_center +
          appM (eulerMat ⟨0, 0, new_rotation.z - (cacheAt s i).m_instance.rotation.z⟩)
            ((cacheAt s i).m_instance.position - s.m_dragging_center)
      let vols1 :=
        if rot_axis_max = 2 ∧ tt.joint then
          setVolAt vols i (fun w => { w with instance_offset := joint_offset })
        else vols
      (setVolAt vols1 i (fun w => { w with instance_rotation := new_rotation }),
       tableSet table v.object_idx i)

/-- The per-selected-volume body of rotate in the nonzero case.  The
classification predicates are loop-invariant in the source (the loop
writes only rotations and offsets, which none of them read) and are
passed in evaluated once. -/
noncomputable def rotateStep (s : Selection ℝ) (rotation : Vec3 ℝ)
    (tt : TransformationType) (rot_axis_max : Nat) (sfi sv sm : Bool)
    (acc : List (GLVolume ℝ) × List (Int × Nat)) (i : Nat) :
    List (GLVolume ℝ) × List (Int × Nat) :=
  if sfi then rotateInstanceStep s rotation tt rot_axis_max acc i
  else if sv ∨ sm then
    if tt.independent then
      (setVolAt acc.1 i (fun w =>
         { w with volume_rotation := w.volume_rotation + rotation }), acc.2)
    else
      let new_rotation := extract_euler_angles
        (eulerMat rotation * eulerMat (cacheAt s i).m_volume.rotation)
      (setVolAt acc.1 i (fun w => { w with volume_rotation := new_rotation }), acc.2)
  else
    match s.m_mode with
    | SelectionMode.Instance => rotateInstanceStep s rotation tt rot_axis_max acc i
    | SelectionMode.Volume =>
        let new_rotation := extract_euler_angles
          (eulerMat rotation * eulerMat (cacheAt s i).m_volume.rotation)
        let vols1 :=
          if tt.joint then
            let local_pivot := instFullInvApply (cacheAt s i).m_instance s.m_dragging_center
            let new_offset := local_pivot +
              appM (eulerMat rotation) ((cacheAt s i).m_volume.position - local_pivot)
            setVolAt acc.1 i (fun w => { w with volume_offset := new_offset })
          else acc.1
        (setVolAt vols1 i (fun w => { w with volume_rotation := new_rotation }), acc.2)

/-- The snapshot-restoring volume rewrite of rotate's zero branch: every
selected volume's rotation and offset (instance- or volume-level per the
mode) are reset to the drag-start cache. -/
noncomputable def rotateZeroVols (s : Selection ℝ) : List (GLVolume ℝ) :=
  s.m_list.foldl
    (fun (vs : List (GLVolume ℝ)) i =>
      match s.m_mode with
      | SelectionMode.Instance =>
          setVolAt vs i (fun v =>
            { v with instance_rotation := (cacheAt s i).m_instance.rotation
                     instance_offset := (cacheAt s i).m_instance.position })
      | SelectionMode.Volume =>
          setVolAt vs i (fun v =>
            { v with volume_rotation := (cacheAt s i).m_volume.rotation
                     volume_offset := (cacheAt s i).m_volume.position }))
    (volsD s)

/-- rotate: restore the drag-start snapshot on a zero request, otherwise
rotate every selected volume according to the policy table, then run the
mode-matching sibling synchronization. -/
noncomputable def rotate (s : Selection ℝ) (rotation : Vec3 ℝ) (tt : TransformationType) :
    Selection ℝ :=
  if s.m_valid ≠ true then s
  else if rotation = Vec3.zero then
    rotateSync { s with m_volumes := some (rotateZeroVols s) } 0
  else
    let rot_axis_max := maxAbsIdx rotation
    let sfi := isSingleFullInstance s
    let sv := isSingleVolumeSel s
    let sm := isSingleModifierSel s
    let out := s.m_list.foldl (rotateStep s rotation tt rot_axis_max sfi sv sm)
      (volsD s, ([] : List (Int × Nat)))
    rotateSync { s with m_volumes := some out.1 } rot_axis_max

/-- translate: shift every selected volume, at the volume level (locally
or through the inverse of the snapshot instance frame) in Volume mode or
for the wipe tower, or at the instance level in Instance mode, then run
the mode-matching synchronization. -/
noncomputable def translate (s : Selection ℝ) (displacement : Vec3 ℝ) (lcl : Bool) :
    Selection ℝ :=
  if s.m_valid ≠ true then s
  else
    let vols' := s.m_list.foldl
      (fun (vs : List (GLVolume ℝ)) i =>
        if s.m_mode = SelectionMode.Volume ∨ (volAt vs i).is_wipe_tower then
          if lcl then
            setVolAt vs i (fun v =>
              { v with volume_offset := (cacheAt s i).m_volume.position + displacement })
          else
            let c := (cacheAt s i).m_instance
            let local_displacement :=
              appM (eulerMat c.rotation * diagM c.scaling_factor * diagM c.mirror)⁻¹
                displacement
            setVolAt vs i (fun v =>
              { v with volume_offset := (cacheAt s i).m_volume.position + local_displacement })
        else if s.m_mode = SelectionMode.Instance then
          setVolAt vs i (fun v =>
            { v with instance_offset := (cacheAt s i).m_instance.position + displacement })
        else vs)
      (volsD s)
    let s1 := { s with m_volumes := some vols' }
    match s.m_mode with
    | SelectionMode.Instance =>
        syncUnselectedInstances rotation_diff_z s1 SyncRotationType.SYNC_ROTATION_NONE
    | SelectionMode.Volume => syncUnselectedVolumes s1

/-- _ensure_on_bed: drop every instance by the minimum z of the
transformed hulls of its non-wipe-tower non-modifier volumes.  The hull
minimum is external convex-hull geometry and is an oracle input. -/
noncomputable def ensureOnBed (minZof : GLVolume ℝ → ℝ) (s : Selection ℝ) : Selection ℝ :=
  let instances_min_z := (volsD s).foldl
    (fun (mz : List ((Int × Int) × ℝ)) v =>
      if ¬v.is_wipe_tower ∧ ¬v.is_modifier then
        let key := (v.object_idx, v.instance_idx)
        match mz.find? (fun p => p.1 = key) with
        | none => mz ++ [(key, minZof v)]
        | some p => mz.map (fun q => if q.1 = key then (key, min p.2 (minZof v)) else q)
      else mz)
    []
  let vols' := (volsD s).map (fun v =>
    match instances_min_z.find? (fun p => p.1 = (v.object_idx, v.instance_idx)) with
    | none => v
    | some p =>
        let dropped := v.instance_offset.setComp Axis.Z (v.instance_offset.comp Axis.Z - p.2)
        { v with instance_offset := dropped })
  { s with m_volumes := some vols' }

/-- scale: set or compose the scaling factors of the selection per the
policy table, re-pivoting offsets around the dragging center when not
local, then synchronize and re-seat every instance on the bed. -/
noncomputable def scale (minZof : GLVolume ℝ → ℝ) (s : Selection ℝ) (sc : Vec3 ℝ)
    (lcl : Bool) : Selection ℝ :=
  if s.m_valid ≠ true then s
  else
    let sfi := isSingleFullInstance s
    let sv := isSingleVolumeSel s
    let sm := isSingleModifierSel s
    let m := diagM sc
    let vols' := s.m_list.foldl
      (fun (vs : List (GLVolume ℝ)) i =>
        if sfi then
          setVolAt vs i (fun v => { v with instance_scaling_factor := sc })
        else if sv ∨ sm then
          setVolAt vs i (fun v => { v with volume_scaling_factor := sc })
        else
          match s.m_mode with
          | SelectionMode.Instance =>
              let c := (cacheAt s i).m_instance
              let new_scale := colNorms (m * diagM c.scaling_factor)
              let pivoted := s.m_dragging_center + appM m (c.position - s.m_dragging_center)
              let vs1 :=
                if ¬lcl then
                  setVolAt vs i (fun v => { v with instance_offset := pivoted })
                else vs
              setVolAt vs1 i (fun v => { v with instance_scaling_factor := new_scale })
          | SelectionMode.Volume =>
              let cv := (cacheAt s i).m_volume
              let ci := (cacheAt s i).m_instance
              let new_scale := colNorms (m * diagM cv.scaling_factor)
              let pivoted := s.m_dragging_center - ci.position +
                appM m (cv.position + ci.position - s.m_dragging_center)
              let vs1 :=
                if ¬lcl then
                  setVolAt vs i (fun v => { v with volume_offset := pivoted })
                else vs
              setVolAt vs1 i (fun v => { v with volume_scaling_factor := new_scale }))
      (volsD s)
    let s1 := { s with m_volumes := some vols' }
    let s2 :=
      match s.m_mode with
      | SelectionMode.Instance =>
          syncUnselectedInstances rotation_diff_z s1 SyncRotationType.SYNC_ROTATION_NONE
      | SelectionMode.Volume => syncUnselectedVolumes s1
    ensureOnBed minZof s2

/-- The cross product of two vectors. -/
noncomputable def cross (a b : Vec3 ℝ) : Vec3 ℝ :=
  ⟨a.y * b.z - a.z * b.y, a.z * b.x - a.x * b.z, a.x * b.y - a.y * b.x⟩

/-- Normalization of a vector (the value on the zero vector is never
read by the embedded operations on meaningful inputs). -/
noncomputable def normalize (v : Vec3 ℝ) : Vec3 ℝ :=
  let n := Real.sqrt (v.x ^ 2 + v.y ^ 2 + v.z ^ 2)
  ⟨v.x / n, v.y / n, v.z / n⟩

/-- The rotation matrix of an angle-axis pair (Rodrigues formula, as
built by Transform3d::rotate on an Eigen AngleAxisd). -/
noncomputable def rodrigues (θ : ℝ) (u : Vec3 ℝ) : Mat3 :=
  let c := Real.cos θ
  let si := Real.sin θ
  let cc := 1 - c
  !![c + u.x ^ 2 * cc, u.x * u.y * cc - u.z * si, u.x * u.z * cc + u.y * si;
     u.y * u.x * cc + u.z * si, c + u.y ^ 2 * cc, u.y * u.z * cc - u.x * si;
     u.z * u.x * cc - u.y * si, u.z * u.y * cc + u.x * si, c + u.z ^ 2 * cc]

/-- flattening_rotate: rotate every selected instance so that the given
untransformed face normal points downward, then force full rotation
synchronization of the unselected instances. -/
noncomputable def flattening_rotate (s : Selection ℝ) (normal : Vec3 ℝ) : Selection ℝ :=
  if s.m_valid ≠ true then s
  else
    let vols' := s.m_list.foldl
      (fun (vs : List (GLVolume ℝ)) i =>
        let c := (cacheAt s i).m_instance
        let scaling_factor : Vec3 ℝ :=
          ⟨1 / c.scaling_factor.x, 1 / c.scaling_factor.y, 1 / c.scaling_factor.z⟩
        let mir := c.mirror
        let rot := extract_euler_angles (eulerMat c.rotation)
        let tn := normalize
          (appM (eulerMat rot * diagM scaling_factor * diagM mir) normal)
        let axis := normalize
          (if tn.z > (999 : ℝ) / 1000 then ⟨1, 0, 0⟩ else cross tn ⟨0, 0, -1⟩)
        let extra := rodrigues (Real.arccos (-tn.z)) axis
        let new_rotation := extract_euler_angles (extra * eulerMat c.rotation)
        setVolAt vs i (fun v => { v with instance_rotation := new_rotation }))
      (volsD s)
    let s1 := { s with m_volumes := some vols' }
    match s.m_mode with
    | SelectionMode.Instance =>
        syncUnselectedInstances rotation_diff_z s1 SyncRotationType.SYNC_ROTATION_FULL
    | SelectionMode.Volume => s1

/-- The formal rendering of "the two orientations differ only by a
rotation about the Z axis": their relative rotation, as computed by
rotation_xyz_diff, is a rotation about Z (whose axis is purely plus or
minus Z, or which is the identity). -/
def aboutZ (f t : Vec3 ℝ) : Prop := ∃ θ : ℝ, rotation_xyz_diff f t = RotZ θ

/-- The instance rotations of all volumes of one object differ pairwise
only by rotations about the Z axis. -/
def pairwiseAboutZ (o : Int) (vols : List (GLVolume ℝ)) : Prop :=
  ∀ i j, i < vols.length → j < vols.length →
    (volAt vols i).object_idx = o → (volAt vols j).object_idx = o →
    aboutZ (volAt vols i).instance_rotation (volAt vols j).instance_rotation

/-- A rotation request with at most one nonzero component, the caller
convention the source documents for rotate. -/
def singleAxisVec (r : Vec3 ℝ) : Prop :=
  (r.x = 0 ∧ r.y = 0) ∨ (r.x = 0 ∧ r.z = 0) ∨ (r.y = 0 ∧ r.z = 0)

/-- The observation of a volume the instance-rotation invariant tracks:
the X and Y rotation components together with the object identity. -/
def xyObs (v : GLVolume ℝ) : ℝ × ℝ × Int :=
  (v.instance_rotation.x, v.instance_rotation.y, v.object_idx)

/-- The volume list produced by the per-selected-volume pass of rotate in
a Volume-free classification with dominant axis Z. -/
noncomputable def rotFold (s : Selection ℝ) (r : Vec3 ℝ) (tt : TransformationType) :
    List (GLVolume ℝ) :=
  (s.m_list.foldl (rotateInstanceStep s r tt 2) ((volsD s), ([] : List (Int × Nat)))).1

end Selection

namespace SelExamples

open Selection

/-- Two objects (two parts with one instance; one part with two
instances) and their four volumes plus a wipe-tower pseudo-volume. -/
def exVolsA : List (GLVolume ℚ) :=
  [mkVol 0 0 0 false false, mkVol 0 0 1 false false,
   mkVol 1 0 0 false false, mkVol 1 1 0 false false,
   mkVol 1000 0 0 true false]

/-- The model of exVolsA. -/
def exMdlA : List ModelObject := [⟨2, 1⟩, ⟨1, 2⟩]

/-- exVolsA and exMdlA, bound. -/
def exSelA : Selection ℚ := bindSelection exVolsA exMdlA

/-- One object with three parts and one instance. -/
def exVolsB : List (GLVolume ℚ) :=
  [mkVol 0 0 0 false false, mkVol 0 0 1 false false, mkVol 0 0 2 false false]

/-- The model of exVolsB. -/
def exMdlB : List ModelObject := [⟨3, 1⟩]

/-- Two of the three parts of the object selected through add_volume: a
MultipleVolume selection in Volume mode. -/
def exSelC3 : Selection ℚ :=
  add_volume (add_volume (bindSelection exVolsB exMdlB) 0 0 0 true) 0 1 0 false

/-- A trivial z-delta helper for instantiating the synchronization at
rational scalars (its value is irrelevant to the mirror claims). -/
def zdiff0 : Vec3 ℚ → Vec3 ℚ → ℚ := fun _ _ => 0

/-- Two objects and four volumes: both parts of the first
(single-instance, two-part) object and one instance of the second
(two-instance, one-part) object selected: a Mixed selection. -/
def exVolsD : List (GLVolume ℚ) :=
  [mkVol 0 0 0 false false, mkVol 0 0 1 false false,
   mkVol 1 0 0 false false, mkVol 1 1 0 false false]

/-- The model of exVolsD. -/
def exMdlD : List ModelObject := [⟨2, 1⟩, ⟨1, 2⟩]

/-- The Mixed selection built by two instance-mode adds. -/
def exSelD : Selection ℚ := add (add (bindSelection exVolsD exMdlD) 0 false) 2 false

/-- One ordinary volume and the wipe-tower pseudo-volume. -/
def exVolsW : List (GLVolume ℚ) :=
  [mkVol 0 0 0 false false, mkVol 1000 0 0 true false]

/-- The model of exVolsW. -/
def exMdlW : List ModelObject := [⟨1, 1⟩]

/-- An ordinary volume selected, then add_object called with the
wipe-tower pseudo-object index: the wipe tower joins the selection. -/
def exSelW2 : Selection ℚ :=
  add_object (add (bindSelection exVolsW exMdlW) 0 false) 1000 false

/-- A modifier part and an auxiliary (negative part index) volume of the
same instance. -/
def exVols10 : List (GLVolume ℚ) :=
  [mkVol 0 0 0 false true, mkVol 0 0 (-1) false false]

/-- The model of exVols10. -/
def exMdl10 : List ModelObject := [⟨1, 1⟩]

/-- Volume mode with an empty selection, reached by selecting the
modifier and removing it again. -/
def exSel10 : Selection ℚ := remove (add (bindSelection exVols10 exMdl10) 0 false) 0

/-- Adding the auxiliary volume from Volume mode: the mode flips to
Instance and the auxiliary volume is inserted. -/
def exSel10' : Selection ℚ := add exSel10 1 false

/-- A single bound volume with identity transforms over the reals, with
a populated drag snapshot, used to witness the transform claims. -/
noncomputable def exVolsR : List (GLVolume ℝ) := [mkVol 0 0 0 false false]

/-- The model of exVolsR. -/
def exMdlR : List ModelObject := [⟨1, 1⟩]

/-- The witness selection state over the reals: valid, Instance mode,
the single volume selected, the snapshot taken at the current values. -/
noncomputable def exSelR : Selection ℝ :=
  { m_volumes := some exVolsR, m_model := some exMdlR
    m_mode := SelectionMode.Instance, m_type := SelectionType.SingleFullObject
    m_valid := true, m_list := [0], m_content := [(0, [0])]
    m_cache_volumes_data := [VolumeCache.init], m_dragging_center := Vec3.zero }

/-- One object with one part and two instances, both instances rotated
by 1 about the X axis; the first instance's volume is selected and the
drag snapshot matches the current values. -/
noncomputable def exVolsC2 : List (GLVolume ℝ) :=
  [{ (mkVol 0 0 0 false false : GLVolume ℝ) with instance_rotation := ⟨1, 0, 0⟩ },
   { (mkVol 0 1 0 false false : GLVolume ℝ) with instance_rotation := ⟨1, 0, 0⟩ }]

/-- The drag snapshot matching exVolsC2. -/
noncomputable def exCacheC2 : List (VolumeCache ℝ) :=
  [⟨TransformCache.init, ⟨Vec3.zero, ⟨1, 0, 0⟩, Vec3.ones, Vec3.ones⟩⟩,
   ⟨TransformCache.init, ⟨Vec3.zero, ⟨1, 0, 0⟩, Vec3.ones, Vec3.ones⟩⟩]

/-- The counterexample selection state for the rotation-synchronization
claim: valid, Instance mode, type SingleFullInstance, first instance
selected. -/
noncomputable def exSelC2c : Selection ℝ :=
  { m_volumes := some exVolsC2, m_model := some [⟨1, 2⟩]
    m_mode := SelectionMode.Instance, m_type := SelectionType.SingleFullInstance
    m_valid := true, m_list := [0], m_content := [(0, [0])]
    m_cache_volumes_data := exCacheC2, m_dragging_center := Vec3.zero }

/-- The absolute rotation request about Z used by the counterexample. -/
def ttAbsolute : TransformationType := ⟨false, true, false⟩

/-- The plain relative local independent transformation kind. -/
def ttRelative : TransformationType := ⟨false, false, false⟩

/-- The selection state rotate produces on the counterexample input: the
request is written into the selected volume and the dominant-Z
synchronization (SYNC_ROTATION_NONE) copies no rotation to the sibling
instance. -/
noncomputable def exC2out : Selection ℝ :=
  syncUnselectedInstances rotation_diff_z
    { exSelC2c with m_volumes := some (setVolAt exVolsC2 0
        (fun w => { w with instance_rotation := (⟨0, 0, 1⟩ : Vec3 ℝ) })) }
    SyncRotationType.SYNC_ROTATION_NONE

end SelExamples

/-! Shared lemma library about the embedded operations. -/

namespace Selection

variable {α : Type} [Field α] [DecidableEq α]

theorem length_setVolAt (vols : List (GLVolume α)) (i : Nat) (f : GLVolume α → GLVolume α) :
    (setVolAt vols i f).length = vols.length := by
  simp [setVolAt]

theorem volAt_setVolAt_self (vols : List (GLVolume α)) (i : Nat)
    (f : GLVolume α → GLVolume α) (h : i < vols.length) :
    volAt (setVolAt vols i f) i = f (volAt vols i) := by
  simp [volAt, setVolAt, List.getD, List.getElem?_set_self', List.getElem?_eq_getElem h]

theorem volAt_setVolAt_ne (vols : List (GLVolume α)) (i k : Nat)
    (f : GLVolume α → GLVolume α) (h : k ≠ i) :
    volAt (setVolAt vols i f) k = volAt vols k := by
  simp [volAt, setVolAt, List.getD, List.getElem?_set_ne (Ne.symm h)]

theorem volAt_setVolAt_oob (vols : List (GLVolume α)) (i k : Nat)
    (f : GLVolume α → GLVolume α) (h : vols.length ≤ i) :
    volAt (setVolAt vols i f) k = volAt vols k := by
  simp [setVolAt, List.set_eq_of_length_le h]

theorem slInsert_mem (l : List Nat) (i k : Nat) :
    k ∈ slInsert l i ↔ k = i ∨ k ∈ l := by
  induction l with
  | nil => simp [slInsert]
  | cons j t ih =>
      by_cases h1 : i < j
      · simp [slInsert, h1]
      · by_cases h2 : i = j
        · subst h2
          have heq : slInsert (i :: t) i = i :: t := by
            simp [slInsert, h1]
          rw [heq, List.mem_cons]
          tauto
        · simp only [slInsert, if_neg h1, if_neg h2, List.mem_cons, ih]
          tauto

theorem slInsert_sorted (l : List Nat) (i : Nat) (h : l.Sorted (· < ·)) :
    (slInsert l i).Sorted (· < ·) := by
  induction l with
  | nil => simp [slInsert]
  | cons j t ih =>
      rcases List.sorted_cons.mp h with ⟨hj, ht⟩
      by_cases h1 : i < j
      · simp only [slInsert, if_pos h1, List.sorted_cons]
        refine ⟨?_, hj, ht⟩
        intro b hb
        rcases List.mem_cons.mp hb with rfl | hb
        · exact h1
        · exact lt_trans h1 (hj b hb)
      · by_cases h2 : i = j
        · have heq : slInsert (j :: t) i = j :: t := by
            simp [slInsert, h1, h2]
          rw [heq]
          exact h
        · simp only [slInsert, if_neg h1, if_neg h2, List.sorted_cons]
          refine ⟨?_, ih ht⟩
          intro b hb
          rcases (slInsert_mem t i b).mp hb with rfl | hb
          · omega
          · exact hj b hb

theorem dInsert_mem (l : List Nat) (i k : Nat) :
    k ∈ dInsert l i ↔ k = i ∨ k ∈ l := by
  by_cases h : i ∈ l
  · simp only [dInsert, if_pos h]
    constructor
    · exact Or.inr
    · rintro (rfl | hk)
      · exact h
      · exact hk
  · simp [dInsert, if_neg h]
    tauto

end Selection

/-! Claim C9: totality of get_volume. -/

open Selection in
/-- Claim C9: get_volume is total at the public interface: it returns
null exactly when the selection is invalid or the index is at least the
volume-list size, it otherwise returns the volume stored at that index,
and (being a pure function of the state in this embedding) it changes no
state. -/
theorem claim_C9 {α : Type} [Field α] [DecidableEq α] (s : Selection α) (i : Nat) :
    (get_volume s i = none ↔ ¬(s.m_valid = true ∧ i < (volsD s).length)) ∧
    ∀ v, get_volume s i = some v ↔
      ((s.m_valid = true ∧ i < (volsD s).length) ∧ v = volAt (volsD s) i) := by
  constructor
  · unfold get_volume
    split <;> simp_all
  · intro v
    unfold get_volume
    split
    next h => simp [h, eq_comm]
    next h => simp [h]

/-- Generic preservation of a predicate along a left fold. -/
theorem foldlInvariant {σ β : Type _} (P : σ → Prop) (step : σ → β → σ) (l : List β)
    (s : σ) (hs : P s) (h : ∀ st x, P st → P (step st x)) : P (l.foldl step s) := by
  induction l generalizing s with
  | nil => exact hs
  | cons a t ih => exact ih _ (h s a hs)

namespace Selection

variable {α : Type} [Field α] [DecidableEq α]

@[simp]
theorem updateType_m_list (s : Selection α) : (updateType s).m_list = s.m_list := rfl

theorem classify_mode_or (s : Selection α) (c : List (Int × List Int)) :
    (classify s c).2.1 = s.m_mode ∨ (classify s c).2.1 = SelectionMode.Instance := by
  simp only [classify]
  repeat' split
  all_goals simp

theorem updateType_m_mode_or (s : Selection α) :
    (updateType s).m_mode = s.m_mode ∨ (updateType s).m_mode = SelectionMode.Instance := by
  have h := classify_mode_or s (computeContent (volsD s) s.m_list)
  unfold updateType
  rcases h with h | h <;> simp [h]

theorem updateType_m_mode_volume (s : Selection α)
    (h : (updateType s).m_mode = SelectionMode.Volume) : s.m_mode = SelectionMode.Volume := by
  rcases updateType_m_mode_or s with h' | h'
  · rw [← h', h]
  · rw [h'] at h
    exact absurd h (by simp)

@[simp]
theorem addVolumePrim_m_mode (s : Selection α) (i : Nat) :
    (addVolumePrim s i).m_mode = s.m_mode := rfl

@[simp]
theorem addVolumePrim_m_list (s : Selection α) (i : Nat) :
    (addVolumePrim s i).m_list = slInsert s.m_list i := rfl

@[simp]
theorem addInstancePrim_m_mode (s : Selection α) (oi ii : Int) :
    (addInstancePrim s oi ii).m_mode = s.m_mode := by
  unfold addInstancePrim
  refine foldlInvariant (fun (st : Selection α) => st.m_mode = s.m_mode) _ _ _ rfl ?_
  intro st x hst
  dsimp only
  split <;> simp [addVolumePrim_m_mode, hst]

theorem clear_m_list (s : Selection α) (h : s.m_valid = true) : (clear s).m_list = [] := by
  unfold clear
  rw [if_neg (by simp [h])]
  exact updateType_m_list _

end Selection

open Selection SelExamples in
/-- Claim C10 counterexample: with the selection in Volume mode and
empty, adding the auxiliary volume (model volume index -1) flips the
mode to Instance and does insert it, so the index set is not unchanged
as the claim states. -/
theorem claim_C10_counterexample :
    exSel10.m_mode = SelectionMode.Volume ∧ exSel10.m_list = [] ∧
    (volAt (volsD exSel10) 1).volume_idx < 0 ∧
    (1 : Nat) ∈ (add exSel10 1 false).m_list := by
  decide

open Selection in
/-- Claim C10 (amended): when add leaves the selection in Volume mode,
every newly selected index refers to a volume with a non-negative model
volume index; a non-modifier auxiliary volume instead switches the
selection to Instance mode and is inserted with its whole instance. -/
theorem claim_C10_amended {α : Type} [Field α] [DecidableEq α]
    (s : Selection α) (i : Nat) (b : Bool) (k : Nat)
    (hk : k ∈ (add s i b).m_list) (hnew : k ∉ s.m_list)
    (hmode : (add s i b).m_mode = SelectionMode.Volume) :
    0 ≤ (volAt (volsD s) k).volume_idx := by
  by_cases hg : s.m_valid ≠ true ∨ (volsD s).length ≤ i
  · have he : add s i b = s := by
      simp only [add, if_pos hg]
    rw [he] at hk
    exact absurd hk hnew
  · have hval : s.m_valid = true := by
      rcases not_or.mp hg with ⟨h1, _⟩
      simpa using h1
    by_cases hw : isWipeTowerSel s = true ∧ (volAt (volsD s) i).is_wipe_tower = true
    · have he : add s i b = s := by
        simp only [add, if_neg hg, if_pos hw]
      rw [he] at hk
      exact absurd hk hnew
    · by_cases hnr : b = true ∨ (volAt (volsD s) i).is_wipe_tower = true ∨
        (isWipeTowerSel s = true ∧ ¬(volAt (volsD s) i).is_wipe_tower = true) ∨
        (¬isModifierSel s = true ∧ (volAt (volsD s) i).is_modifier = true) ∨
        (isModifierSel s = true ∧ ¬(volAt (volsD s) i).is_modifier = true)
      · -- the selection is cleared first
        by_cases hmod : (volAt (volsD s) i).is_modifier = true
        · have hlist : (add s i b).m_list =
              (if 0 ≤ (volAt (volsD s) i).volume_idx ∧
                  (isEmptySel { clear s with m_mode := SelectionMode.Volume } = true ∨
                    (volAt (volsD s) i).instance_idx =
                      getInstanceIdx { clear s with m_mode := SelectionMode.Volume }) then
                slInsert (clear s).m_list i
              else (clear s).m_list) := by
            simp only [add, if_neg hg, if_neg hw, if_pos hnr, if_pos hmod]
            split <;> simp
          rw [hlist] at hk
          revert hk
          split
          next hcond =>
            intro hk
            rcases (slInsert_mem _ _ _).mp hk with rfl | hk2
            · exact hcond.1
            · rw [clear_m_list s hval] at hk2
              exact absurd hk2 (List.not_mem_nil k)
          · intro hk
            rw [clear_m_list s hval] at hk
            exact absurd hk (List.not_mem_nil k)
        · -- not a modifier: after the clear the mode is forced to Instance
          have hcont : containsVolume (clear s) i = false := by
            simp [containsVolume, clear_m_list s hval]
          have hmode' : (add s i b).m_mode = SelectionMode.Instance := by
            simp only [add, if_neg hg, if_neg hw, if_pos hnr, if_neg hmod, hcont]
            have h2 := updateType_m_mode_or
              (addInstancePrim { clear s with m_mode := SelectionMode.Instance }
                (volAt (volsD s) i).object_idx (volAt (volsD s) i).instance_idx)
            rcases h2 with h2 | h2 <;> simp_all
          rw [hmode'] at hmode
          exact absurd hmode (by simp)
      · -- no reset
        by_cases hmod : (volAt (volsD s) i).is_modifier = true
        · have hlist : (add s i b).m_list =
              (if 0 ≤ (volAt (volsD s) i).volume_idx ∧
                  (isEmptySel { s with m_mode := SelectionMode.Volume } = true ∨
                    (volAt (volsD s) i).instance_idx =
                      getInstanceIdx { s with m_mode := SelectionMode.Volume }) then
                slInsert s.m_list i
              else s.m_list) := by
            simp only [add, if_neg hg, if_neg hw, if_neg hnr, if_pos hmod]
            split <;> simp
          rw [hlist] at hk
          revert hk
          split
          next hcond =>
            intro hk
            rcases (slInsert_mem _ _ _).mp hk with rfl | hk2
            · exact hcond.1
            · exact absurd hk2 hnew
          · intro hk
            exact absurd hk hnew
        · by_cases hcont : containsVolume s i = true
          · cases hmm : s.m_mode with
            | Volume =>
                have hlist : (add s i b).m_list =
                    (if 0 ≤ (volAt (volsD s) i).volume_idx ∧
                        (isEmptySel s = true ∨
                          (volAt (volsD s) i).instance_idx = getInstanceIdx s) then
                      slInsert s.m_list i
                    else s.m_list) := by
                  simp only [add, if_neg hg, if_neg hw, if_neg hnr, if_neg hmod, hcont,
                    not_true, ite_false]
                  rw [hmm]
                  repeat' split
                  all_goals simp_all
                rw [hlist] at hk
                revert hk
                split
                next hcond =>
                  intro hk
                  rcases (slInsert_mem _ _ _).mp hk with rfl | hk2
                  · exact hcond.1
                  · exact absurd hk2 hnew
                · intro hk
                  exact absurd hk hnew
            | Instance =>
                have hmo : (add s i b).m_mode = SelectionMode.Instance := by
                  simp only [add, if_neg hg, if_neg hw, if_neg hnr, if_neg hmod, hcont,
                    not_true, ite_false]
                  rw [hmm]
                  have h2 := updateType_m_mode_or
                    (addInstancePrim s (volAt (volsD s) i).object_idx
                      (volAt (volsD s) i).instance_idx)
                  rcases h2 with h2 | h2 <;> simp_all
                rw [hmo] at hmode
                exact absurd hmode (by simp)
          · have hcont' : containsVolume s i = false := by
              simpa using hcont
            have hmo : (add s i b).m_mode = SelectionMode.Instance := by
              simp only [add, if_neg hg, if_neg hw, if_neg hnr, if_neg hmod, hcont']
              simp only [Bool.false_eq_true, not_false_eq_true, ite_true]
              have h2 := updateType_m_mode_or
                (addInstancePrim { s with m_mode := SelectionMode.Instance }
                  (volAt (volsD s) i).object_idx (volAt (volsD s) i).instance_idx)
              rcases h2 with h2 | h2 <;> simp_all
            rw [hmo] at hmode
            exact absurd hmode (by simp)

open Selection SelExamples in
/-- Witness for the amended C10 claim: adding the modifier part at a
concrete bound selection keeps Volume mode and the added index indeed
has a non-negative model volume index. -/
theorem claim_C10_amended_witness :
    (0 : Nat) ∈ (add (bindSelection exVols10 exMdl10) 0 false).m_list ∧
    (0 : Nat) ∉ (bindSelection exVols10 exMdl10).m_list ∧
    (add (bindSelection exVols10 exMdl10) 0 false).m_mode = SelectionMode.Volume ∧
    0 ≤ (volAt (volsD (bindSelection exVols10 exMdl10)) 0).volume_idx :=
  ⟨by decide, by decide, by decide,
   claim_C10_amended (bindSelection exVols10 exMdl10) 0 false 0
     (by decide) (by decide) (by decide)⟩

namespace Selection

variable {α : Type} [Field α] [DecidableEq α]

/-- A projection of a volume that a rewrite function leaves unchanged is
unchanged at every index of the updated list. -/
theorem proj_setVolAt {γ : Type _} (g : GLVolume α → γ) (vs : List (GLVolume α)) (j : Nat)
    (f : GLVolume α → GLVolume α) (hf : ∀ v, g (f v) = g v) (k : Nat) :
    g (volAt (setVolAt vs j f) k) = g (volAt vs k) := by
  by_cases hlen : j < vs.length
  · by_cases hk : k = j
    · subst hk
      rw [volAt_setVolAt_self _ _ _ hlen, hf]
    · rw [volAt_setVolAt_ne _ _ _ _ hk]
  · rw [volAt_setVolAt_oob _ _ _ _ (le_of_not_lt hlen)]

/-- A projection of every volume is unchanged by a fold whose steps
leave it unchanged. -/
theorem foldl_proj_const {σ γ β : Type _} (V : σ → List (GLVolume α)) (g : GLVolume α → γ)
    (step : σ → β → σ) (l : List β) (s0 : σ)
    (h : ∀ st x k, g (volAt (V (step st x)) k) = g (volAt (V st) k)) :
    ∀ k, g (volAt (V (l.foldl step s0)) k) = g (volAt (V s0) k) := by
  induction l generalizing s0 with
  | nil => intro k; rfl
  | cons a t ih =>
      intro k
      rw [List.foldl_cons, ih (step s0 a) k, h s0 a k]

/-- The list length is unchanged by a fold of conditional single-index
rewrites. -/
theorem foldl_setVolAt_length {β : Type _} (step : List (GLVolume α) → β → List (GLVolume α))
    (l : List β) (vols : List (GLVolume α))
    (h : ∀ vs x, (step vs x).length = vs.length) :
    (l.foldl step vols).length = vols.length := by
  induction l generalizing vols with
  | nil => rfl
  | cons a t ih => rw [List.foldl_cons, ih (step vols a), h vols a]

/-- A fold of per-index rewrites leaves non-member indices unchanged. -/
theorem foldl_setVolAt_not_mem (l : List Nat) (vols : List (GLVolume α))
    (f : Nat → GLVolume α → GLVolume α) (k : Nat) :
    k ∉ l → volAt (l.foldl (fun vs i => setVolAt vs i (f i)) vols) k = volAt vols k := by
  induction l generalizing vols with
  | nil => intro _; rfl
  | cons a t ih =>
      intro hk
      have hka : k ≠ a := by
        intro h
        exact hk (by rw [h]; exact List.mem_cons_self a t)
      rw [List.foldl_cons, ih _ (fun h => hk (List.mem_cons_of_mem a h)),
        volAt_setVolAt_ne _ _ _ _ hka]

/-- Characterization of an unconditional per-selected-index rewrite fold
at a member index, for a duplicate-free index list. -/
theorem foldl_setVolAt_char (l : List Nat) (vols : List (GLVolume α))
    (f : Nat → GLVolume α → GLVolume α) (k : Nat) :
    l.Nodup → k < vols.length → k ∈ l →
    volAt (l.foldl (fun vs i => setVolAt vs i (f i)) vols) k = f k (volAt vols k) := by
  induction l generalizing vols with
  | nil =>
      intro _ _ hmem
      exact absurd hmem (List.not_mem_nil k)
  | cons a t ih =>
      intro hnd hk hmem
      rcases List.nodup_cons.mp hnd with ⟨ha, ht⟩
      rw [List.foldl_cons]
      rcases List.mem_cons.mp hmem with rfl | hmem'
      · rw [foldl_setVolAt_not_mem t _ f k ha, volAt_setVolAt_self _ _ _ hk]
      · have hka : k ≠ a := fun h => ha (by rw [← h]; exact hmem')
        have hlen : k < (setVolAt vols a (f a)).length := by
          rw [length_setVolAt]
          exact hk
        rw [ih _ ht hlen hmem', volAt_setVolAt_ne _ _ _ _ hka]

/-- Membership in the duplicate-free worklist built by folding dInsert. -/
theorem mem_foldl_dInsert (l : List Nat) (d0 : List Nat) (k : Nat) :
    k ∈ l.foldl dInsert d0 ↔ k ∈ d0 ∨ k ∈ l := by
  induction l generalizing d0 with
  | nil => simp
  | cons a t ih =>
      rw [List.foldl_cons, ih, dInsert_mem]
      simp only [List.mem_cons]
      tauto

end Selection

/-- Generic preservation of a predicate along a left fold, with
membership of the element available. -/
theorem foldlInvariantMem {σ β : Type _} (P : σ → Prop) (step : σ → β → σ) (l : List β)
    (s : σ) (hs : P s) (h : ∀ st x, x ∈ l → P st → P (step st x)) : P (l.foldl step s) := by
  induction l generalizing s with
  | nil => exact hs
  | cons a t ih =>
      exact ih (step s a) (h s a (List.mem_cons_self a t) hs)
        (fun st x hx hp => h st x (List.mem_cons_of_mem a hx) hp)

namespace Selection

variable {α : Type} [Field α] [DecidableEq α]

/-- The part-sibling synchronization leaves every selected volume
untouched when the selected volumes have pairwise distinct
(object, part) keys. -/
theorem syncUnselectedVolumes_selected_pres (s : Selection α)
    (hdist : SelDistinctParts s) :
    ∀ i ∈ s.m_list, volAt (volsD (syncUnselectedVolumes s)) i = volAt (volsD s) i := by
  have main :
      (∀ k, (volAt (volsD (syncUnselectedVolumes s)) k).object_idx =
          (volAt (volsD s) k).object_idx) ∧
      (∀ k, (volAt (volsD (syncUnselectedVolumes s)) k).volume_idx =
          (volAt (volsD s) k).volume_idx) ∧
      ∀ i ∈ s.m_list, volAt (volsD (syncUnselectedVolumes s)) i = volAt (volsD s) i := by
    refine foldlInvariantMem
      (fun vs => (∀ k, (volAt vs k).object_idx = (volAt (volsD s) k).object_idx) ∧
        (∀ k, (volAt vs k).volume_idx = (volAt (volsD s) k).volume_idx) ∧
        ∀ i ∈ s.m_list, volAt vs i = volAt (volsD s) i)
      _ _ _ ⟨fun _ => rfl, fun _ => rfl, fun _ _ => rfl⟩ ?_
    intro vs iout hio hQ
    unfold syncVolOuter
    dsimp only
    split
    · exact hQ
    · refine foldlInvariant
        (fun vs2 => (∀ k, (volAt vs2 k).object_idx = (volAt (volsD s) k).object_idx) ∧
          (∀ k, (volAt vs2 k).volume_idx = (volAt (volsD s) k).volume_idx) ∧
          ∀ i ∈ s.m_list, volAt vs2 i = volAt (volsD s) i)
        _ _ _ hQ ?_
      intro vs2 j hQ2
      unfold syncVolInner
      dsimp only
      split
      · exact hQ2
      · split
        · exact hQ2
        next hji hkey =>
          push_neg at hkey
          refine ⟨?_, ?_, ?_⟩
          · intro k
            refine (proj_setVolAt (fun v => v.object_idx) _ _ _ ?_ k).trans (hQ2.1 k)
            intro v
            rfl
          · intro k
            refine (proj_setVolAt (fun v => v.volume_idx) _ _ _ ?_ k).trans (hQ2.2.1 k)
            intro v
            rfl
          · intro i' hi'
            have hjm : j ∉ s.m_list := by
              intro hjmem
              refine hdist j hjmem iout hio hji ⟨?_, ?_⟩
              · rw [← hQ2.1 j, ← hQ.1 iout]
                exact hkey.1
              · rw [← hQ2.2.1 j, ← hQ.2.1 iout]
                exact hkey.2
            have hij : i' ≠ j := fun h => hjm (h ▸ hi')
            rw [volAt_setVolAt_ne _ _ _ _ hij]
            exact hQ2.2.2 i' hi'
  exact main.2.2

/-- The unselected-instance synchronization leaves every selected volume
untouched: the worklist is seeded with the selected set and only volumes
outside it are ever rewritten. -/
theorem syncUnselectedInstances_selected_pres (zdiff : Vec3 α → Vec3 α → α)
    (s : Selection α) (sy : SyncRotationType) :
    ∀ i ∈ s.m_list,
      volAt (volsD (syncUnselectedInstances zdiff s sy)) i = volAt (volsD s) i := by
  have base2 : ∀ i ∈ s.m_list, i ∈ s.m_list.foldl dInsert ([] : List Nat) := by
    intro i hi
    exact (mem_foldl_dInsert _ _ _).mpr (Or.inr hi)
  have main :
      (∀ i ∈ s.m_list,
        volAt (s.m_list.foldl (syncInstOuter zdiff s sy)
          (volsD s, s.m_list.foldl dInsert [])).1 i = volAt (volsD s) i) ∧
      ∀ i ∈ s.m_list, i ∈ (s.m_list.foldl (syncInstOuter zdiff s sy)
          (volsD s, s.m_list.foldl dInsert [])).2 := by
    refine foldlInvariant
      (fun (acc : List (GLVolume α) × List Nat) =>
        (∀ i ∈ s.m_list, volAt acc.1 i = volAt (volsD s) i) ∧
        ∀ i ∈ s.m_list, i ∈ acc.2)
      _ _ _ ⟨fun _ _ => rfl, base2⟩ ?_
    intro acc iout hR
    unfold syncInstOuter
    dsimp only
    split
    · exact hR
    · split
      · exact hR
      · refine foldlInvariant
          (fun (acc2 : List (GLVolume α) × List Nat) =>
            (∀ i ∈ s.m_list, volAt acc2.1 i = volAt (volsD s) i) ∧
            ∀ i ∈ s.m_list, i ∈ acc2.2)
          _ _ _ hR ?_
        intro acc2 j hR2
        unfold syncInstInner
        dsimp only
        split
        · exact hR2
        · split
          · exact hR2
          · split
            · exact hR2
            next hdone _ =>
              constructor
              · intro i' hi'
                have hij : i' ≠ j := by
                  intro h
                  exact hdone (h ▸ hR2.2 i' hi')
                rw [volAt_setVolAt_ne _ _ _ _ hij]
                exact hR2.1 i' hi'
              · intro i' hi'
                exact List.mem_append_left _ (hR2.2 i' hi')
  intro i hi
  exact main.1 i hi

/-- Any volume projection untouched by volume-transform writes is
preserved by the part-sibling synchronization. -/
theorem syncUnselectedVolumes_proj {γ : Type _} (s : Selection α) (g : GLVolume α → γ)
    (hg : ∀ (v w : GLVolume α),
      g { v with volume_offset := w.volume_offset
                 volume_rotation := w.volume_rotation
                 volume_scaling_factor := w.volume_scaling_factor
                 volume_mirror := w.volume_mirror } = g v) :
    ∀ k, g (volAt (volsD (syncUnselectedVolumes s)) k) = g (volAt (volsD s) k) := by
  refine foldl_proj_const (fun vs => vs) g (syncVolOuter (volsD s).length) s.m_list
    (volsD s) ?_
  intro vs x k
  unfold syncVolOuter
  dsimp only
  split
  · rfl
  · refine foldl_proj_const (fun vs2 => vs2) g _ _ vs ?_ k
    intro vs2 j k'
    unfold syncVolInner
    dsimp only
    split
    · rfl
    · split
      · rfl
      · refine proj_setVolAt g _ _ _ ?_ k'
        intro v
        exact hg v (volAt vs x)

/-- Any volume projection untouched by instance rotation, scale and
mirror writes is preserved by the unselected-instance synchronization. -/
theorem syncUnselectedInstances_proj {γ : Type _} (zdiff : Vec3 α → Vec3 α → α)
    (s : Selection α) (sy : SyncRotationType) (g : GLVolume α → γ)
    (hg : ∀ (v : GLVolume α) (rot sc mir : Vec3 α),
      g { v with instance_rotation := rot
                 instance_scaling_factor := sc
                 instance_mirror := mir } = g v) :
    ∀ k, g (volAt (volsD (syncUnselectedInstances zdiff s sy)) k) =
      g (volAt (volsD s) k) := by
  refine foldl_proj_const Prod.fst g (syncInstOuter zdiff s sy) s.m_list
    (volsD s, s.m_list.foldl dInsert []) ?_
  intro acc x k
  unfold syncInstOuter
  dsimp only
  split
  · rfl
  · split
    · rfl
    · refine foldl_proj_const Prod.fst g _ _ acc ?_ k
      intro acc2 j k'
      unfold syncInstInner
      dsimp only
      split
      · rfl
      · split
        · rfl
        · split
          · rfl
          · have h2 : ∀ (F : GLVolume α → GLVolume α) (dn : List Nat),
                (∀ v, g (F v) = g v) →
                g (volAt ((setVolAt acc2.1 j F, dn) :
                    List (GLVolume α) × List Nat).1 k') = g (volAt acc2.1 k') := by
              intro F dn hF
              exact proj_setVolAt g _ _ _ hF k'
            refine h2 _ _ ?_
            intro v
            exact hg v _ _ _

end Selection

namespace Selection

variable {α : Type} [Field α] [DecidableEq α]

/-- In Volume mode with a non-full-instance selection, mirror reduces to
the per-selected-volume mirror flip followed by the part-sibling
synchronization. -/
theorem mirror_volume_mode_eq (zd : Vec3 α → Vec3 α → α) (s : Selection α) (ax : Axis)
    (hval : s.m_valid = true) (hsfi : isSingleFullInstance s = false)
    (hmode : s.m_mode = SelectionMode.Volume) :
    mirror zd s ax = syncUnselectedVolumes
      { s with m_volumes := some (s.m_list.foldl
          (fun (vs : List (GLVolume α)) i => setVolAt vs i (fun v =>
            { v with volume_mirror :=
                v.volume_mirror.setComp ax (-(v.volume_mirror.comp ax)) }))
          (volsD s)) } := by
  unfold mirror
  rw [if_neg (by simp [hval])]
  simp only [hsfi, hmode]
  simp

end Selection

open Selection SelExamples in
/-- Claim C3 counterexample: a concrete MultipleVolume selection (two of
three parts of a one-instance object, selected through add_volume) on
which mirror is not a no-op: the first selected volume's volume-level
mirror component flips. -/
theorem claim_C3_counterexample :
    exSelC3.m_type = SelectionType.MultipleVolume ∧
    (volAt (volsD (mirror zdiff0 exSelC3 Axis.X)) 0).volume_mirror ≠
      (volAt (volsD exSelC3) 0).volume_mirror := by
  decide

open Selection in
/-- Claim C3 (amended): mirror on a MultipleVolume (non-full-instance,
Volume-mode) selection is not rejected: it never changes any volume's
instance-level mirror, but it flips the volume-level mirror component of
every selected volume along the given axis. -/
theorem claim_C3_amended {α : Type} [Field α] [DecidableEq α]
    (zd : Vec3 α → Vec3 α → α) (s : Selection α) (ax : Axis)
    (hty : s.m_type = SelectionType.MultipleVolume)
    (hmode : s.m_mode = SelectionMode.Volume)
    (hval : s.m_valid = true)
    (hsfi : isSingleFullInstance s = false)
    (hnd : s.m_list.Nodup)
    (hrange : ListInRange s)
    (hdist : SelDistinctParts s) :
    (∀ k, (volAt (volsD (mirror zd s ax)) k).instance_mirror =
      (volAt (volsD s) k).instance_mirror) ∧
    ∀ i ∈ s.m_list, (volAt (volsD (mirror zd s ax)) i).volume_mirror =
      (volAt (volsD s) i).volume_mirror.setComp ax
        (-((volAt (volsD s) i).volume_mirror.comp ax)) := by
  rw [mirror_volume_mode_eq zd s ax hval hsfi hmode]
  set s1 : Selection α :=
    { s with m_volumes := some (s.m_list.foldl
        (fun (vs : List (GLVolume α)) i => setVolAt vs i (fun v =>
          { v with volume_mirror :=
              v.volume_mirror.setComp ax (-(v.volume_mirror.comp ax)) }))
        (volsD s)) } with hs1
  have hs1vols : volsD s1 = s.m_list.foldl
      (fun (vs : List (GLVolume α)) i => setVolAt vs i (fun v =>
        { v with volume_mirror :=
            v.volume_mirror.setComp ax (-(v.volume_mirror.comp ax)) }))
      (volsD s) := rfl
  have hs1list : s1.m_list = s.m_list := rfl
  have hfold_obj : ∀ k, (volAt (volsD s1) k).object_idx = (volAt (volsD s) k).object_idx := by
    intro k
    rw [hs1vols]
    refine foldl_proj_const (fun vs => vs) (fun v => v.object_idx) _ _ _ ?_ k
    intro vs x k'
    refine proj_setVolAt _ _ _ _ ?_ k'
    intro v
    rfl
  have hfold_vidx : ∀ k, (volAt (volsD s1) k).volume_idx = (volAt (volsD s) k).volume_idx := by
    intro k
    rw [hs1vols]
    refine foldl_proj_const (fun vs => vs) (fun v => v.volume_idx) _ _ _ ?_ k
    intro vs x k'
    refine proj_setVolAt _ _ _ _ ?_ k'
    intro v
    rfl
  have hdist1 : SelDistinctParts s1 := by
    intro i hi j hj hij hkeys
    rw [hs1list] at hi hj
    refine hdist i hi j hj hij ?_
    rw [← hfold_obj i, ← hfold_obj j, ← hfold_vidx i, ← hfold_vidx j]
    exact hkeys
  constructor
  · intro k
    have h1 := syncUnselectedVolumes_proj s1 (fun v => v.instance_mirror)
      (fun v w => rfl) k
    rw [h1, hs1vols]
    refine (foldl_proj_const (fun vs => vs) (fun v => v.instance_mirror) _ _ _ ?_ k)
    intro vs x k'
    refine proj_setVolAt _ _ _ _ ?_ k'
    intro v
    rfl
  · intro i hi
    have h1 := syncUnselectedVolumes_selected_pres s1 hdist1 i (by rw [hs1list]; exact hi)
    rw [h1, hs1vols]
    have h2 := foldl_setVolAt_char s.m_list (volsD s)
      (fun _ v => { v with volume_mirror :=
        v.volume_mirror.setComp ax (-(v.volume_mirror.comp ax)) }) i hnd
      (hrange i hi) hi
    rw [h2]

open Selection SelExamples in
/-- Witness for the amended C3 claim at the concrete MultipleVolume
selection: instance mirrors survive, selected volume mirrors flip. -/
theorem claim_C3_amended_witness :
    exSelC3.m_type = SelectionType.MultipleVolume ∧
    ((∀ k, (volAt (volsD (mirror zdiff0 exSelC3 Axis.X)) k).instance_mirror =
        (volAt (volsD exSelC3) k).instance_mirror) ∧
      ∀ i ∈ exSelC3.m_list,
        (volAt (volsD (mirror zdiff0 exSelC3 Axis.X)) i).volume_mirror =
          (volAt (volsD exSelC3) i).volume_mirror.setComp Axis.X
            (-((volAt (volsD exSelC3) i).volume_mirror.comp Axis.X))) :=
  ⟨by decide,
   claim_C3_amended zdiff0 exSelC3 Axis.X (by decide) (by decide) (by decide) (by decide)
     (by decide) (by decide) (by decide)⟩

open Selection SelExamples in
/-- Claim C4 counterexample: volumes_changed is not a defensive no-op on
an unbound selection: the source only debug-asserts validity and then
dereferences the unbound volume list, modelled as an undefined (None)
outcome rather than an unchanged state. -/
theorem claim_C4_counterexample :
    (initSelection : Selection ℚ).m_valid = false ∧
    volumes_changed (initSelection : Selection ℚ) [] [] = none ∧
    volumes_changed (initSelection : Selection ℚ) [] [] ≠
      some (initSelection : Selection ℚ) := by
  decide

open Selection in
/-- Claim C4 (amended): every public operation of the selection except
volumes_changed is a defensive no-op when the selection is not bound to
both a live volume list and a live model, and add and remove are also
no-ops on an out-of-range volume index; volumes_changed instead merely
asserts validity and is undefined on an unbound selection. -/
theorem claim_C4_amended (s s' : Selection ℝ) (hinv : s.m_valid = false)
    (i' : Nat) (hoob : (volsD s').length ≤ i') :
    clear s = s ∧
    (∀ i b, add s i b = s) ∧
    (∀ i, remove s i = s) ∧
    (∀ o b, add_object s o b = s) ∧
    (∀ o, remove_object s o = s) ∧
    (∀ o ii b, add_instance s o ii b = s) ∧
    (∀ o ii, remove_instance s o ii = s) ∧
    (∀ o vi ii b, add_volume s o vi ii b = s) ∧
    (∀ o vi, remove_volume s o vi = s) ∧
    add_all s = s ∧
    (∀ c, start_dragging s c = s) ∧
    (∀ d lc, Selection.translate s d lc = s) ∧
    (∀ r t, Selection.rotate s r t = s) ∧
    (∀ m sc lc, Selection.scale m s sc lc = s) ∧
    (∀ n, flattening_rotate s n = s) ∧
    (∀ zd ax, mirror zd s ax = s) ∧
    (∀ o d, translate_object s o d = s) ∧
    (∀ o ii d, translate_object_instance s o ii d = s) ∧
    Selection.erase s = [] ∧
    (∀ nv mp, volumes_changed s nv mp = none) ∧
    (∀ b, add s' i' b = s') ∧
    remove s' i' = s' := by
  have hne : s.m_valid ≠ true := by
    rw [hinv]
    exact Bool.false_ne_true
  refine ⟨?_, ?_, ?_, ?_, ?_, ?_, ?_, ?_, ?_, ?_, ?_, ?_, ?_, ?_, ?_, ?_, ?_, ?_, ?_, ?_,
    ?_, ?_⟩
  · unfold clear
    rw [if_pos hne]
  · intro i b
    unfold add
    rw [if_pos (Or.inl hne)]
  · intro i
    unfold remove
    rw [if_pos (Or.inl hne)]
  · intro o b
    unfold add_object
    rw [if_pos hne]
  · intro o
    unfold remove_object
    rw [if_pos hne]
  · intro o ii b
    unfold add_instance
    rw [if_pos hne]
  · intro o ii
    unfold remove_instance
    rw [if_pos hne]
  · intro o vi ii b
    unfold add_volume
    rw [if_pos hne]
  · intro o vi
    unfold remove_volume
    rw [if_pos hne]
  · unfold add_all
    rw [if_pos hne]
  · intro c
    unfold start_dragging
    rw [if_pos hne]
  · intro d lc
    unfold Selection.translate
    rw [if_pos hne]
  · intro r t
    unfold Selection.rotate
    rw [if_pos hne]
  · intro m sc lc
    unfold Selection.scale
    rw [if_pos hne]
  · intro n
    unfold flattening_rotate
    rw [if_pos hne]
  · intro zd ax
    unfold mirror
    rw [if_pos hne]
  · intro o d
    unfold translate_object
    rw [if_pos hne]
  · intro o ii d
    unfold translate_object_instance
    rw [if_pos hne]
  · unfold Selection.erase
    rw [if_pos hne]
  · intro nv mp
    unfold volumes_changed
    rw [if_pos hne]
  · intro b
    unfold add
    rw [if_pos (Or.inr hoob)]
  · unfold remove
    rw [if_pos (Or.inr hoob)]

open Selection in
/-- Witness for the amended C4 claim at a freshly constructed selection
over the reals. -/
theorem claim_C4_amended_witness :
    (initSelection : Selection ℝ).m_valid = false ∧
    clear (initSelection : Selection ℝ) = initSelection ∧
    volumes_changed (initSelection : Selection ℝ) [] [] = none :=
  ⟨rfl,
   (claim_C4_amended initSelection initSelection rfl 0 (Nat.le_refl 0)).1,
   (claim_C4_amended initSelection initSelection rfl 0
     (Nat.le_refl 0)).2.2.2.2.2.2.2.2.2.2.2.2.2.2.2.2.2.2.2.1 [] []⟩

namespace Selection

variable {α : Type} [Field α] [DecidableEq α]

theorem volAt_oob (vols : List (GLVolume α)) (k : Nat) (h : vols.length ≤ k) :
    volAt vols k = defVol := by
  have h1 : vols[k]? = none := List.getElem?_eq_none h
  simp [volAt, List.getD, h1]

theorem volAt_map (vols : List (GLVolume α)) (f : GLVolume α → GLVolume α) (k : Nat) :
    volAt (vols.map f) k = if k < vols.length then f (volAt vols k) else defVol := by
  by_cases h : k < vols.length
  · simp [volAt, List.getD, List.getElem?_map, List.getElem?_eq_getElem h, h]
  · rw [if_neg h]
    have h1 : vols[k]? = none := List.getElem?_eq_none (le_of_not_lt h)
    have h2 : (vols.map f)[k]? = none := by
      rw [List.getElem?_map, h1]
      rfl
    simp [volAt, List.getD, h2]

@[simp]
theorem updateType_m_valid (s : Selection α) : (updateType s).m_valid = s.m_valid := rfl

theorem updateType_volsD_length (s : Selection α) :
    (volsD (updateType s)).length = (volsD s).length := by
  unfold updateType
  dsimp only [volsD]
  simp

/-- Any volume projection untouched by disabled-flag writes is preserved
by updateType. -/
theorem updateType_proj {γ : Type _} (s : Selection α) (g : GLVolume α → γ)
    (hg : ∀ (v : GLVolume α) (d : Bool), g { v with disabled := d } = g v) (k : Nat) :
    g (volAt (volsD (updateType s)) k) = g (volAt (volsD s) k) := by
  show g (volAt ((volsD s).map _) k) = _
  rw [volAt_map]
  split
  · exact hg _ _
  next h =>
    rw [volAt_oob _ _ (le_of_not_lt h)]

theorem clear_m_valid (s : Selection α) : (clear s).m_valid = s.m_valid := by
  unfold clear
  split
  · rfl
  · exact updateType_m_valid _

theorem updateType_m_mode_of_empty (s : Selection α) (h : s.m_list = []) :
    (updateType s).m_mode = s.m_mode := by
  unfold updateType classify
  rw [h]
  dsimp only
  split <;> rfl

theorem clear_m_mode (s : Selection α) : (clear s).m_mode = s.m_mode := by
  unfold clear
  split
  · rfl
  · exact updateType_m_mode_of_empty _ rfl

/-- Any volume projection untouched by selected- and disabled-flag
writes is preserved by clear. -/
theorem clear_proj {γ : Type _} (s : Selection α) (g : GLVolume α → γ)
    (hgs : ∀ (v : GLVolume α) (b : Bool), g { v with selected := b } = g v)
    (hgd : ∀ (v : GLVolume α) (b : Bool), g { v with disabled := b } = g v) (k : Nat) :
    g (volAt (volsD (clear s)) k) = g (volAt (volsD s) k) := by
  unfold clear
  split
  · rfl
  · rw [updateType_proj _ g hgd k]
    show g (volAt (s.m_list.foldl _ (volsD s)) k) = _
    refine foldl_proj_const (fun vs => vs) g _ _ _ ?_ k
    intro vs x k'
    refine proj_setVolAt g _ _ _ ?_ k'
    intro v
    exact hgs v false

theorem clear_volsD_length (s : Selection α) :
    (volsD (clear s)).length = (volsD s).length := by
  unfold clear
  split
  · rfl
  · rw [updateType_volsD_length]
    show (s.m_list.foldl _ (volsD s)).length = _
    refine foldl_setVolAt_length _ _ _ ?_
    intro vs x
    exact length_setVolAt _ _ _

theorem slInsert_append_of_gt (l : List Nat) (i : Nat) (h : ∀ j ∈ l, j < i) :
    slInsert l i = l ++ [i] := by
  induction l with
  | nil => rfl
  | cons a t ih =>
      have ha : a < i := h a (List.mem_cons_self a t)
      simp only [slInsert, if_neg (by omega : ¬i < a), if_neg (by omega : ¬i = a)]
      rw [ih (fun j hj => h j (List.mem_cons_of_mem a hj))]
      rfl

end Selection

namespace Selection

variable {α : Type} [Field α] [DecidableEq α]

theorem addVolumePrim_volsD (s : Selection α) (i : Nat) :
    volsD (addVolumePrim s i) =
      setVolAt (volsD s) i (fun v => { v with selected := true }) := rfl

/-- Characterization of the add_all selection loop: starting above every
already-selected index, it appends exactly the non-wipe-tower indices of
a sorted worklist. -/
theorem addAll_fold_char (s0 : Selection α) (l : List Nat) :
    ∀ st : Selection α, l.Sorted (· < ·) →
    (∀ k, (volAt (volsD st) k).is_wipe_tower = (volAt (volsD s0) k).is_wipe_tower) →
    (∀ j ∈ st.m_list, ∀ i ∈ l, j < i) →
    (l.foldl (fun st i => if (volAt (volsD st) i).is_wipe_tower = true then st
       else addVolumePrim st i) st).m_list =
      st.m_list ++ l.filter (fun i => !(volAt (volsD s0) i).is_wipe_tower) := by
  induction l with
  | nil =>
      intro st _ _ _
      simp
  | cons a t ih =>
      intro st hsort hid hbound
      rcases List.sorted_cons.mp hsort with ⟨hat, hts⟩
      rw [List.foldl_cons]
      by_cases hw : (volAt (volsD st) a).is_wipe_tower = true
      · rw [if_pos hw]
        have hfa : (volAt (volsD s0) a).is_wipe_tower = true := by
          rw [← hid a]
          exact hw
        rw [ih st hts hid (fun j hj i hi => hbound j hj i (List.mem_cons_of_mem a hi))]
        simp [List.filter_cons, hfa]
      · rw [if_neg hw]
        have hfa : (volAt (volsD s0) a).is_wipe_tower = false := by
          rw [← hid a]
          exact Bool.eq_false_iff.mpr hw
        have hlist : (addVolumePrim st a).m_list = st.m_list ++ [a] := by
          rw [addVolumePrim_m_list]
          exact slInsert_append_of_gt _ _ (fun j hj => hbound j hj a (List.mem_cons_self a t))
        have hid' : ∀ k, (volAt (volsD (addVolumePrim st a)) k).is_wipe_tower =
            (volAt (volsD s0) k).is_wipe_tower := by
          intro k
          rw [addVolumePrim_volsD]
          refine (proj_setVolAt (fun v => v.is_wipe_tower) _ _ _ ?_ k).trans (hid k)
          intro v
          rfl
        have hbound' : ∀ j ∈ (addVolumePrim st a).m_list, ∀ i ∈ t, j < i := by
          rw [hlist]
          intro j hj i hi
          rcases List.mem_append.mp hj with hj | hj
          · exact hbound j hj i (List.mem_cons_of_mem a hi)
          · have : j = a := by simpa using hj
            subst this
            exact hat i hi
        rw [ih _ hts hid' hbound', hlist]
        simp [List.filter_cons, hfa]

end Selection

open Selection in
/-- Claim C8: after clear followed by add_all on a bound selection, the
index set is exactly the set of indices of non-wipe-tower volumes (in
index order) and the mode is Instance. -/
theorem claim_C8 {α : Type} [Field α] [DecidableEq α] (s : Selection α)
    (hval : s.m_valid = true) :
    (add_all (clear s)).m_list =
      (List.range (volsD s).length).filter
        (fun i => !(volAt (volsD s) i).is_wipe_tower) ∧
    (add_all (clear s)).m_mode = SelectionMode.Instance := by
  have hcv : (clear s).m_valid = true := by
    rw [clear_m_valid]
    exact hval
  have hclp : ∀ k, (volAt (volsD (clear s)) k).is_wipe_tower =
      (volAt (volsD s) k).is_wipe_tower := by
    intro k
    exact clear_proj s (fun v => v.is_wipe_tower) (fun _ _ => rfl) (fun _ _ => rfl) k
  -- the state inside add_all after its own clear
  have hx : ∀ k,
      (volAt (volsD (clear { clear s with m_mode := SelectionMode.Instance })) k).is_wipe_tower =
      (volAt (volsD s) k).is_wipe_tower := by
    intro k
    have h1 := clear_proj { clear s with m_mode := SelectionMode.Instance }
      (fun v => v.is_wipe_tower) (fun _ _ => rfl) (fun _ _ => rfl) k
    rw [h1]
    exact hclp k
  have hxlen : (volsD (clear { clear s with m_mode := SelectionMode.Instance })).length =
      (volsD s).length := by
    rw [clear_volsD_length]
    show (volsD (clear s)).length = _
    rw [clear_volsD_length]
  have hxlist : (clear { clear s with m_mode := SelectionMode.Instance }).m_list = [] :=
    clear_m_list _ (by show (clear s).m_valid = true; exact hcv)
  have hxmode : (clear { clear s with m_mode := SelectionMode.Instance }).m_mode =
      SelectionMode.Instance := clear_m_mode _
  unfold add_all
  rw [if_neg (by simp [hcv])]
  constructor
  · rw [updateType_m_list]
    rw [addAll_fold_char s _ _ (List.sorted_lt_range _) hx
      (by rw [hxlist]; intro j hj; exact absurd hj (List.not_mem_nil j))]
    rw [hxlist, hxlen]
    rfl
  · have hmfold : ((List.range (volsD (clear { clear s with m_mode := SelectionMode.Instance })).length).foldl
        (fun st i => if (volAt (volsD st) i).is_wipe_tower = true then st
          else addVolumePrim st i)
        (clear { clear s with m_mode := SelectionMode.Instance })).m_mode =
        SelectionMode.Instance := by
      refine foldlInvariant (fun st : Selection α => st.m_mode = SelectionMode.Instance)
        _ _ _ hxmode ?_
      intro st x hst
      dsimp only
      split
      · exact hst
      · rw [addVolumePrim_m_mode]
        exact hst
    rcases updateType_m_mode_or ((List.range (volsD (clear { clear s with m_mode := SelectionMode.Instance })).length).foldl
        (fun st i => if (volAt (volsD st) i).is_wipe_tower = true then st
          else addVolumePrim st i)
        (clear { clear s with m_mode := SelectionMode.Instance })) with h | h
    · rw [h, hmfold]
    · rw [h]

open Selection SelExamples in
/-- Witness for claim C8 at the concrete two-object-plus-wipe-tower state. -/
theorem claim_C8_witness :
    exSelA.m_valid = true ∧
    ((add_all (clear exSelA)).m_list =
      (List.range (volsD exSelA).length).filter
        (fun i => !(volAt (volsD exSelA) i).is_wipe_tower) ∧
     (add_all (clear exSelA)).m_mode = SelectionMode.Instance) :=
  ⟨by decide, claim_C8 exSelA (by decide)⟩

namespace Selection

variable {α : Type} [Field α] [DecidableEq α]

theorem selected_updateType (s : Selection α) (k : Nat) :
    (volAt (volsD (updateType s)) k).selected = (volAt (volsD s) k).selected :=
  updateType_proj s (fun v => v.selected) (fun _ _ => rfl) k

/-- updateType preserves the selected-flag/index-set invariant. -/
theorem SelInvP_updateType (s : Selection α) (h : SelInvP s) : SelInvP (updateType s) := by
  obtain ⟨h1, h2, h3⟩ := h
  refine ⟨?_, ?_, ?_⟩
  · rw [updateType_m_list]
    exact h1
  · intro i hi
    rw [updateType_m_list] at hi
    rw [updateType_volsD_length]
    exact h2 i hi
  · intro j hj
    rw [updateType_volsD_length] at hj
    rw [updateType_m_list, selected_updateType]
    exact h3 j hj

/-- _add_volume preserves the invariant for an in-range index. -/
theorem SelInvP_addVolumePrim (s : Selection α) (i : Nat) (hi : i < (volsD s).length)
    (h : SelInvP s) : SelInvP (addVolumePrim s i) := by
  obtain ⟨h1, h2, h3⟩ := h
  refine ⟨?_, ?_, ?_⟩
  · rw [addVolumePrim_m_list]
    exact slInsert_sorted _ _ h1
  · intro k hk
    rw [addVolumePrim_m_list, slInsert_mem] at hk
    rw [addVolumePrim_volsD, length_setVolAt]
    rcases hk with rfl | hk
    · exact hi
    · exact h2 k hk
  · intro j hj
    rw [addVolumePrim_volsD, length_setVolAt] at hj
    rw [addVolumePrim_m_list, slInsert_mem, addVolumePrim_volsD]
    by_cases hji : j = i
    · subst hji
      rw [volAt_setVolAt_self _ _ _ hi]
      simp
    · rw [volAt_setVolAt_ne _ _ _ _ hji]
      have := h3 j hj
      tauto

/-- _remove_volume preserves the invariant. -/
theorem SelInvP_removeVolumePrim (s : Selection α) (i : Nat) (h : SelInvP s) :
    SelInvP (removeVolumePrim s i) := by
  obtain ⟨h1, h2, h3⟩ := h
  unfold removeVolumePrim
  split
  next hmem =>
    have hnd : s.m_list.Nodup := List.Pairwise.imp (fun hab => Nat.ne_of_lt hab) h1
    have hi : i < (volsD s).length := h2 i hmem
    refine ⟨?_, ?_, ?_⟩
    · exact List.Pairwise.sublist (List.erase_sublist i s.m_list) h1
    · intro k hk
      show k < (setVolAt (volsD s) i (fun v => { v with selected := false })).length
      rw [length_setVolAt]
      exact h2 k (List.mem_of_mem_erase hk)
    · intro j hj
      show (volAt (setVolAt (volsD s) i (fun v => { v with selected := false })) j).selected
          = true ↔ j ∈ s.m_list.erase i
      have hj' : j < (volsD s).length := by
        have := hj
        rw [show (volsD { s with
            m_list := s.m_list.erase i,
            m_volumes := some (setVolAt (volsD s) i
              (fun v => { v with selected := false })) }) =
          setVolAt (volsD s) i (fun v => { v with selected := false }) from rfl,
          length_setVolAt] at this
        exact this
      rw [hnd.mem_erase_iff]
      by_cases hji : j = i
      · subst hji
        rw [volAt_setVolAt_self _ _ _ hi]
        simp
      · rw [volAt_setVolAt_ne _ _ _ _ hji]
        have := h3 j hj'
        tauto
  · exact ⟨h1, h2, h3⟩

/-- Any fold whose steps are guarded _add_volume calls on in-range indices
preserves the invariant and the volume-list length. -/
theorem SelInvP_foldl_add (s : Selection α) (l : List Nat)
    (step : Selection α → Nat → Selection α)
    (hstep : ∀ st x, step st x = addVolumePrim st x ∨ step st x = st)
    (hl : ∀ x ∈ l, x < (volsD s).length) (h : SelInvP s) :
    SelInvP (l.foldl step s) ∧ (volsD (l.foldl step s)).length = (volsD s).length := by
  refine foldlInvariantMem
    (fun st : Selection α => SelInvP st ∧ (volsD st).length = (volsD s).length)
    step l s ⟨h, rfl⟩ ?_
  intro st x hx hp
  obtain ⟨hst, hlen⟩ := hp
  rcases hstep st x with he | he
  · rw [he]
    refine ⟨SelInvP_addVolumePrim st x ?_ hst, ?_⟩
    · rw [hlen]
      exact hl x hx
    · rw [addVolumePrim_volsD, length_setVolAt]
      exact hlen
  · rw [he]
    exact ⟨hst, hlen⟩

theorem removeVolumePrim_volsD_length (s : Selection α) (i : Nat) :
    (volsD (removeVolumePrim s i)).length = (volsD s).length := by
  unfold removeVolumePrim
  split
  · show (setVolAt (volsD s) i (fun v => { v with selected := false })).length =
      (volsD s).length
    exact length_setVolAt _ _ _
  · rfl

/-- Any fold whose steps are guarded _remove_volume calls preserves the
invariant and the volume-list length. -/
theorem SelInvP_foldl_remove (s : Selection α) (l : List Nat)
    (step : Selection α → Nat → Selection α)
    (hstep : ∀ st x, step st x = removeVolumePrim st x ∨ step st x = st)
    (h : SelInvP s) :
    SelInvP (l.foldl step s) ∧ (volsD (l.foldl step s)).length = (volsD s).length := by
  refine foldlInvariantMem
    (fun st : Selection α => SelInvP st ∧ (volsD st).length = (volsD s).length)
    step l s ⟨h, rfl⟩ ?_
  intro st x hx hp
  obtain ⟨hst, hlen⟩ := hp
  rcases hstep st x with he | he
  · rw [he]
    exact ⟨SelInvP_removeVolumePrim st x hst, (removeVolumePrim_volsD_length st x).trans hlen⟩
  · rw [he]
    exact ⟨hst, hlen⟩

/-- _add_instance preserves the invariant. -/
theorem SelInvP_addInstancePrim (s : Selection α) (oi ii : Int) (h : SelInvP s) :
    SelInvP (addInstancePrim s oi ii) := by
  unfold addInstancePrim
  refine (SelInvP_foldl_add s _ _ ?_ ?_ h).1
  · intro st x
    dsimp only
    split
    · exact Or.inl rfl
    · exact Or.inr rfl
  · intro x hx
    exact List.mem_range.mp hx

/-- _add_object preserves the invariant. -/
theorem SelInvP_addObjectPrim (s : Selection α) (oi : Int) (h : SelInvP s) :
    SelInvP (addObjectPrim s oi) := by
  unfold addObjectPrim
  refine (SelInvP_foldl_add s _ _ ?_ ?_ h).1
  · intro st x
    dsimp only
    split
    · exact Or.inl rfl
    · exact Or.inr rfl
  · intro x hx
    exact List.mem_range.mp hx

/-- _remove_instance preserves the invariant. -/
theorem SelInvP_removeInstancePrim (s : Selection α) (oi ii : Int) (h : SelInvP s) :
    SelInvP (removeInstancePrim s oi ii) := by
  unfold removeInstancePrim
  refine (SelInvP_foldl_remove s _ _ ?_ h).1
  intro st x
  dsimp only
  split
  · exact Or.inl rfl
  · exact Or.inr rfl

/-- clear preserves the invariant. -/
theorem SelInvP_clear (s : Selection α) (h : SelInvP s) : SelInvP (clear s) := by
  obtain ⟨h1, h2, h3⟩ := h
  unfold clear
  split
  · exact ⟨h1, h2, h3⟩
  · refine SelInvP_updateType _ ?_
    have hnd : s.m_list.Nodup := List.Pairwise.imp (fun hab => Nat.ne_of_lt hab) h1
    refine ⟨List.sorted_nil, ?_, ?_⟩
    · intro i hi
      exact absurd hi (List.not_mem_nil i)
    · intro j hj
      show (volAt (s.m_list.foldl _ (volsD s)) j).selected = true ↔ j ∈ ([] : List Nat)
      simp only [List.not_mem_nil, iff_false]
      have hjlen : j < (volsD s).length := by
        have hl := foldl_setVolAt_length
          (fun vs i => setVolAt vs i (fun v => { v with selected := false })) s.m_list
          (volsD s) (fun vs x => length_setVolAt _ _ _)
        show j < (volsD s).length
        have := hj
        rw [show (volsD { s with
            m_volumes := some (s.m_list.foldl
              (fun vs i => setVolAt vs i (fun v => { v with selected := false })) (volsD s)),
            m_list := ([] : List Nat) }) = s.m_list.foldl
              (fun vs i => setVolAt vs i (fun v => { v with selected := false }))
              (volsD s) from rfl] at this
        rw [hl] at this
        exact this
      by_cases hm : j ∈ s.m_list
      · rw [foldl_setVolAt_char s.m_list (volsD s)
          (fun _ v => { v with selected := false }) j hnd hjlen hm]
        simp
      · rw [foldl_setVolAt_not_mem s.m_list (volsD s)
          (fun _ v => { v with selected := false }) j hm]
        intro hsel
        exact hm ((h3 j hjlen).mp hsel)

end Selection

namespace Selection

variable {α : Type} [Field α] [DecidableEq α]

/-- add preserves the invariant. -/
theorem SelInvP_add (s : Selection α) (i : Nat) (b : Bool) (h : SelInvP s) :
    SelInvP (add s i b) := by
  have hC : SelInvP (clear s) := SelInvP_clear s h
  have hlenC : (volsD (clear s)).length = (volsD s).length := clear_volsD_length s
  simp only [add]
  split
  · exact h
  next hg =>
    push_neg at hg
    have hi : i < (volsD s).length := hg.2
    split
    · exact h
    · repeat' split
      all_goals first
        | exact SelInvP_updateType _ h
        | exact SelInvP_updateType _ hC
        | exact SelInvP_updateType _ (SelInvP_addInstancePrim _ _ _ h)
        | exact SelInvP_updateType _ (SelInvP_addInstancePrim _ _ _ hC)
        | exact SelInvP_updateType _ (SelInvP_addVolumePrim _ _ hi h)
        | exact SelInvP_updateType _
            (SelInvP_addVolumePrim _ _ (lt_of_lt_of_eq hi hlenC.symm) hC)

end Selection

namespace Selection

variable {α : Type} [Field α] [DecidableEq α]

/-- remove preserves the invariant. -/
theorem SelInvP_remove (s : Selection α) (i : Nat) (h : SelInvP s) :
    SelInvP (remove s i) := by
  simp only [remove]
  split
  · exact h
  · repeat' split
    all_goals first
      | exact SelInvP_updateType _ (SelInvP_removeVolumePrim _ _ h)
      | exact SelInvP_updateType _ (SelInvP_removeInstancePrim _ _ _ h)

/-- add_object preserves the invariant. -/
theorem SelInvP_add_object (s : Selection α) (oi : Nat) (b : Bool) (h : SelInvP s) :
    SelInvP (add_object s oi b) := by
  have hC : SelInvP (clear s) := SelInvP_clear s h
  simp only [add_object]
  repeat' split
  all_goals first
    | exact h
    | exact SelInvP_updateType _ (SelInvP_addObjectPrim _ _ h)
    | exact SelInvP_updateType _ (SelInvP_addObjectPrim _ _ hC)

/-- add_instance preserves the invariant. -/
theorem SelInvP_add_instance (s : Selection α) (oi ii : Nat) (b : Bool) (h : SelInvP s) :
    SelInvP (add_instance s oi ii b) := by
  have hC : SelInvP (clear s) := SelInvP_clear s h
  simp only [add_instance]
  repeat' split
  all_goals first
    | exact h
    | exact SelInvP_updateType _ (SelInvP_addInstancePrim _ _ _ h)
    | exact SelInvP_updateType _ (SelInvP_addInstancePrim _ _ _ hC)

/-- add_volume preserves the invariant. -/
theorem SelInvP_add_volume (s : Selection α) (oi vi : Nat) (iidx : Int) (b : Bool)
    (h : SelInvP s) : SelInvP (add_volume s oi vi iidx b) := by
  have hC : SelInvP (clear s) := SelInvP_clear s h
  simp only [add_volume]
  split
  · exact h
  · split
    all_goals
      refine SelInvP_updateType _ ?_
      refine (SelInvP_foldl_add _ _ _ ?_ ?_ ?_).1
      · intro st x
        dsimp only
        repeat' split
        all_goals first | exact Or.inl rfl | exact Or.inr rfl
      · intro x hx
        exact List.mem_range.mp hx
      · first | exact hC | exact h

/-- add_all preserves the invariant. -/
theorem SelInvP_add_all (s : Selection α) (h : SelInvP s) : SelInvP (add_all s) := by
  simp only [add_all]
  split
  · exact h
  · refine SelInvP_updateType _ ?_
    refine (SelInvP_foldl_add _ _ _ ?_ ?_ ?_).1
    · intro st x
      dsimp only
      split
      · exact Or.inr rfl
      · exact Or.inl rfl
    · intro x hx
      exact List.mem_range.mp hx
    · exact SelInvP_clear _ h

end Selection

namespace Selection

variable {α : Type} [Field α] [DecidableEq α]

/-- Membership in the remapped index set built by folding slInsert over
the optional index map. -/
theorem slFoldOpt_mem (mp : List (Option Nat)) (l : List Nat) (ls : List Nat) (k : Nat) :
    k ∈ l.foldl (fun ls idx => match mp.getD idx none with
        | none => ls
        | some j => slInsert ls j) ls ↔
      k ∈ ls ∨ ∃ x ∈ l, mp.getD x none = some k := by
  induction l generalizing ls with
  | nil => simp
  | cons a t ih =>
      rw [List.foldl_cons, ih]
      cases hga : mp.getD a none with
      | none =>
          simp only [hga]
          constructor
          · rintro (hk | ⟨x, hx, he⟩)
            · exact Or.inl hk
            · exact Or.inr ⟨x, List.mem_cons_of_mem a hx, he⟩
          · rintro (hk | ⟨x, hx, he⟩)
            · exact Or.inl hk
            · rcases List.mem_cons.mp hx with rfl | hx
              · rw [hga] at he
                exact absurd he (by simp)
              · exact Or.inr ⟨x, hx, he⟩
      | some j =>
          simp only [hga, slInsert_mem]
          constructor
          · rintro ((rfl | hk) | ⟨x, hx, he⟩)
            · exact Or.inr ⟨a, List.mem_cons_self a t, hga⟩
            · exact Or.inl hk
            · exact Or.inr ⟨x, List.mem_cons_of_mem a hx, he⟩
          · rintro (hk | ⟨x, hx, he⟩)
            · exact Or.inl (Or.inr hk)
            · rcases List.mem_cons.mp hx with rfl | hx
              · have hjk : j = k := by
                  rw [hga] at he
                  exact Option.some_inj.mp he
                exact Or.inl (Or.inl hjk.symm)
              · exact Or.inr ⟨x, hx, he⟩

/-- The remapped index set stays sorted. -/
theorem slFoldOpt_sorted (mp : List (Option Nat)) (l ls : List Nat)
    (h : ls.Sorted (· < ·)) :
    (l.foldl (fun ls idx => match mp.getD idx none with
        | none => ls
        | some j => slInsert ls j) ls).Sorted (· < ·) := by
  induction l generalizing ls with
  | nil => exact h
  | cons a t ih =>
      rw [List.foldl_cons]
      refine ih _ ?_
      cases hga : mp.getD a none with
      | none =>
          simp only [hga]
          exact h
      | some j =>
          simp only [hga]
          exact slInsert_sorted _ _ h

/-- The first component of the remap-and-collect fold of volumes_changed
is the plain remapped index set. -/
theorem vcStep_fst (s : Selection α) (newVols : List (GLVolume α)) (mp : List (Option Nat))
    (l : List Nat) (acc : List Nat × List (Int × Int)) :
    (l.foldl (fun (acc : List Nat × List (Int × Int)) idx =>
        match mp.getD idx none with
        | none => acc
        | some new_idx =>
            (slInsert acc.1 new_idx,
             if s.m_mode = SelectionMode.Instance then
               let v := volAt newVols new_idx
               acc.2 ++ [(v.object_idx, v.instance_idx)]
             else acc.2)) acc).1 =
      l.foldl (fun ls idx => match mp.getD idx none with
        | none => ls
        | some j => slInsert ls j) acc.1 := by
  induction l generalizing acc with
  | nil => rfl
  | cons a t ih =>
      rw [List.foldl_cons, List.foldl_cons]
      cases hga : mp.getD a none with
      | none =>
          simp only [hga]
          exact ih acc
      | some j =>
          simp only [hga]
          exact ih _

theorem getD_some_mem (mp : List (Option Nat)) (x j : Nat)
    (h : mp.getD x none = some j) : some j ∈ mp := by
  rw [List.getD_eq_getElem?_getD] at h
  cases hx : mp[x]? with
  | none =>
      rw [hx] at h
      exact absurd h (by simp)
  | some o =>
      rw [hx] at h
      simp only [Option.getD_some] at h
      subst h
      exact List.getElem?_mem hx

/-- Rebinding the volume vector together with an index set whose flags
agree restores the invariant. -/
theorem SelInvP_rebind (s : Selection α) (newVols : List (GLVolume α)) (l : List Nat)
    (hsort : l.Sorted (· < ·))
    (hrange : ∀ k ∈ l, k < newVols.length)
    (hfl : ∀ j, j < newVols.length → ((volAt newVols j).selected = true ↔ j ∈ l)) :
    SelInvP { s with m_volumes := some newVols, m_list := l } := by
  unfold SelInvP
  exact ⟨hsort, hrange, hfl⟩

/-- volumes_changed preserves the invariant, provided the externally
rebuilt volume vector carries flags matching the remapped old selection
and the map's targets are in range. -/
theorem SelInvP_volumes_changed (s : Selection α) (newVols : List (GLVolume α))
    (mp : List (Option Nat)) (h : SelInvP s)
    (hmp : ∀ o ∈ mp, o ≠ none → o.getD 0 < newVols.length)
    (hflags : ∀ j, j < newVols.length →
      ((volAt newVols j).selected = true ↔ ∃ x ∈ s.m_list, mp.getD x none = some j))
    (s' : Selection α) (hs' : volumes_changed s newVols mp = some s') : SelInvP s' := by
  simp only [volumes_changed] at hs'
  split at hs'
  · exact Option.noConfusion hs'
  · rw [Option.some_inj] at hs'
    subst hs'
    refine SelInvP_updateType _ ?_
    rw [vcStep_fst s newVols mp s.m_list ([], [])]
    have hsort := slFoldOpt_sorted mp s.m_list [] List.sorted_nil
    have hrange : ∀ k ∈ s.m_list.foldl (fun ls idx => match mp.getD idx none with
        | none => ls
        | some j => slInsert ls j) [], k < newVols.length := by
      intro k hk
      rw [slFoldOpt_mem] at hk
      rcases hk with hk | ⟨x, hx, he⟩
      · exact absurd hk (List.not_mem_nil k)
      · have hmem := getD_some_mem mp x k he
        have := hmp (some k) hmem (by simp)
        simpa using this
    have hfl : ∀ j, j < newVols.length → ((volAt newVols j).selected = true ↔
        j ∈ s.m_list.foldl (fun ls idx => match mp.getD idx none with
          | none => ls
          | some j => slInsert ls j) []) := by
      intro j hj
      rw [slFoldOpt_mem]
      simp only [List.not_mem_nil, false_or]
      exact hflags j hj
    repeat' split
    all_goals first
      | exact SelInvP_rebind s newVols _ hsort hrange hfl
      | exact (SelInvP_foldl_add _ _ _
          (fun st x => by
            split
            · exact Or.inl rfl
            · exact Or.inr rfl)
          (fun x hx => List.mem_range.mp hx)
          (SelInvP_rebind s newVols _ hsort hrange hfl)).1

end Selection

open Selection in
/-- Claim C1: after every selection mutation (add, remove, add_object,
add_instance, add_volume, add_all, clear, volumes_changed), a volume's
selected flag is true if and only if its index is in the selection's
index set.  For volumes_changed the externally rebuilt volume vector must
carry flags matching the remapped old selection and an in-range index
map, which is that call's documented input contract. -/
theorem claim_C1 {α : Type} [Field α] [DecidableEq α] (s : Selection α)
    (h : SelInvP s) (i oi ii vi : Nat) (iidx : Int) (b : Bool)
    (newVols : List (GLVolume α)) (mp : List (Option Nat))
    (hmp : ∀ o ∈ mp, o ≠ none → o.getD 0 < newVols.length)
    (hflags : ∀ j, j < newVols.length →
      ((volAt newVols j).selected = true ↔ ∃ x ∈ s.m_list, mp.getD x none = some j)) :
    SelInvP (add s i b) ∧ SelInvP (remove s i) ∧ SelInvP (add_object s oi b) ∧
    SelInvP (add_instance s oi ii b) ∧ SelInvP (add_volume s oi vi iidx b) ∧
    SelInvP (add_all s) ∧ SelInvP (clear s) ∧
    ∀ s', volumes_changed s newVols mp = some s' → SelInvP s' :=
  ⟨SelInvP_add s i b h, SelInvP_remove s i h, SelInvP_add_object s oi b h,
   SelInvP_add_instance s oi ii b h, SelInvP_add_volume s oi vi iidx b h,
   SelInvP_add_all s h, SelInvP_clear s h,
   fun s' hs' => SelInvP_volumes_changed s newVols mp h hmp hflags s' hs'⟩

open Selection SelExamples in
/-- Witness for claim C1 at the concrete two-object-plus-wipe-tower state
with the identity index map. -/
theorem claim_C1_witness :
    (SelInvP exSelA ∧
     (∀ o ∈ [some 0, some 1, some 2, some 3, some 4], o ≠ none →
        o.getD 0 < exVolsA.length) ∧
     (∀ j, j < exVolsA.length → ((volAt exVolsA j).selected = true ↔
        ∃ x ∈ exSelA.m_list,
          [some 0, some 1, some 2, some 3, some 4].getD x none = some j))) ∧
    (SelInvP (add exSelA 0 false) ∧ SelInvP (remove exSelA 0) ∧
     SelInvP (add_object exSelA 0 false) ∧ SelInvP (add_instance exSelA 0 0 false) ∧
     SelInvP (add_volume exSelA 0 0 0 false) ∧ SelInvP (add_all exSelA) ∧
     SelInvP (clear exSelA) ∧
     ∀ s', volumes_changed exSelA exVolsA [some 0, some 1, some 2, some 3, some 4] =
        some s' → SelInvP s') :=
  ⟨⟨by decide, by decide, by decide⟩,
   claim_C1 exSelA (by decide) 0 0 0 0 0 false exVolsA
     [some 0, some 1, some 2, some 3, some 4] (by decide) (by decide)⟩

namespace Selection

variable {α : Type} [Field α] [DecidableEq α]

theorem itemLt_irrefl (a : ItemForDelete) : itemLt a a = false := by
  simp [itemLt]

theorem itemLt_trans (a b c : ItemForDelete) (hab : itemLt a b = true)
    (hbc : itemLt b c = true) : itemLt a c = true := by
  simp only [itemLt, decide_eq_true_eq] at *
  omega

theorem itemLt_total (a b : ItemForDelete) (hne : a ≠ b) :
    itemLt a b = true ∨ itemLt b a = true := by
  obtain ⟨ta, oa, sa⟩ := a
  obtain ⟨tb, ob, sb⟩ := b
  simp only [itemLt, decide_eq_true_eq]
  cases ta <;> cases tb <;> simp_all [itemRank] <;> omega

theorem itemInsert_mem (l : List ItemForDelete) (a x : ItemForDelete) :
    x ∈ itemInsert l a ↔ x = a ∨ x ∈ l := by
  induction l with
  | nil => simp [itemInsert]
  | cons b t ih =>
      by_cases he : a = b
      · simp only [itemInsert, if_pos he]
        subst he
        simp only [List.mem_cons]
        tauto
      · by_cases hlt : itemLt a b = true
        · simp only [itemInsert, if_neg he, if_pos hlt, List.mem_cons]
        · simp only [itemInsert, if_neg he, if_neg hlt, List.mem_cons, ih]
          tauto

theorem itemInsert_pairwise (l : List ItemForDelete) (a : ItemForDelete)
    (h : l.Pairwise (fun x y => itemLt x y = true)) :
    (itemInsert l a).Pairwise (fun x y => itemLt x y = true) := by
  induction l with
  | nil => simp [itemInsert]
  | cons b t ih =>
      rcases List.pairwise_cons.mp h with ⟨hb, ht⟩
      by_cases he : a = b
      · simp only [itemInsert, if_pos he]
        exact h
      · by_cases hlt : itemLt a b = true
        · simp only [itemInsert, if_neg he, if_pos hlt, List.pairwise_cons]
          refine ⟨?_, hb, ht⟩
          intro x hx
          rcases List.mem_cons.mp hx with rfl | hx
          · exact hlt
          · exact itemLt_trans _ _ _ hlt (hb x hx)
        · simp only [itemInsert, if_neg he, if_neg hlt, List.pairwise_cons]
          refine ⟨?_, ih ht⟩
          intro x hx
          rcases (itemInsert_mem t a x).mp hx with h4 | hx
          · rw [h4]
            rcases itemLt_total a b he with hc | hc
            · exact absurd hc hlt
            · exact hc
          · exact hb x hx

theorem itemPairwise_nodup (l : List ItemForDelete)
    (h : l.Pairwise (fun x y => itemLt x y = true)) : l.Nodup := by
  refine h.imp ?_
  intro a b hab he
  subst he
  rw [itemLt_irrefl] at hab
  exact Bool.false_ne_true hab

theorem assocFindD_assocBump_self (m : List (Int × Int)) (o v d : Int) :
    assocFindD (assocBump m o v) o d = v := by
  induction m with
  | nil => simp [assocBump, assocFindD]
  | cons p t ih =>
      obtain ⟨o', w⟩ := p
      by_cases h : o' = o
      · subst h
        simp [assocBump, assocFindD]
      · simp only [assocBump, if_neg h]
        unfold assocFindD
        rw [List.find?_cons_of_neg _ (by simp [h])]
        exact ih

theorem assocFindD_assocBump_ne (m : List (Int × Int)) (o o' v d : Int) (h : o' ≠ o) :
    assocFindD (assocBump m o v) o' d = assocFindD m o' d := by
  induction m with
  | nil =>
      unfold assocBump assocFindD
      rw [List.find?_cons_of_neg _ (by simp [Ne.symm h])]
  | cons p t ih =>
      obtain ⟨o2, w⟩ := p
      by_cases h2 : o2 = o
      · subst h2
        unfold assocFindD
        rw [show assocBump ((o2, w) :: t) o2 v = (o2, v) :: t from by simp [assocBump]]
        rw [List.find?_cons_of_neg _ (by simp [Ne.symm h]),
          List.find?_cons_of_neg _ (by simp [Ne.symm h])]
      · simp only [assocBump, if_neg h2]
        unfold assocFindD
        by_cases h3 : o2 = o'
        · rw [List.find?_cons_of_pos _ (by simp [h3]),
            List.find?_cons_of_pos _ (by simp [h3])]
        · rw [List.find?_cons_of_neg _ (by simp [h3]),
            List.find?_cons_of_neg _ (by simp [h3])]
          exact ih

end Selection

namespace Selection

variable {α : Type} [Field α] [DecidableEq α]

theorem eraseMixed_fold_char (vols : List (GLVolume α)) (obj : Int)
    (step : List ItemForDelete × List (Int × Int) → Nat →
      List ItemForDelete × List (Int × Int))
    (hstepo : ∀ acc i, (volAt vols i).object_idx = obj →
      step acc i = (itemInsert acc.1 ⟨ItemType.itVolume, obj, (volAt vols i).volume_idx⟩,
        assocBump acc.2 obj (assocFindD acc.2 obj 0 + 1)))
    (hstepx : ∀ acc i, (volAt vols i).object_idx ≠ obj →
      ((step acc i).1 = acc.1 ∨
        ∃ it : ItemForDelete, it.obj_idx ≠ obj ∧ (step acc i).1 = itemInsert acc.1 it) ∧
      assocFindD (step acc i).2 obj 0 = assocFindD acc.2 obj 0) :
    ∀ (l : List Nat) (acc : List ItemForDelete × List (Int × Int)) (sub : List Int),
    acc.1.Pairwise (fun x y => itemLt x y = true) →
    (∀ it ∈ acc.1, it.obj_idx = obj →
      it.type = ItemType.itVolume ∧ it.sub_obj_idx ∈ sub) →
    (∀ v ∈ sub, ItemForDelete.mk ItemType.itVolume obj v ∈ acc.1) →
    assocFindD acc.2 obj 0 = Int.ofNat sub.length →
    (l.foldl step acc).1.Pairwise (fun x y => itemLt x y = true) ∧
    (∀ it ∈ (l.foldl step acc).1, it.obj_idx = obj →
      it.type = ItemType.itVolume ∧ it.sub_obj_idx ∈
        sub ++ (l.filter (fun i => (volAt vols i).object_idx = obj)).map
          (fun i => (volAt vols i).volume_idx)) ∧
    (∀ v ∈ sub ++ (l.filter (fun i => (volAt vols i).object_idx = obj)).map
        (fun i => (volAt vols i).volume_idx),
      ItemForDelete.mk ItemType.itVolume obj v ∈ (l.foldl step acc).1) ∧
    assocFindD (l.foldl step acc).2 obj 0 =
      Int.ofNat (sub ++ (l.filter (fun i => (volAt vols i).object_idx = obj)).map
        (fun i => (volAt vols i).volume_idx)).length := by
  intro l
  induction l with
  | nil =>
      intro acc sub h1 h2 h3 h4
      simpa using ⟨h1, h2, h3, h4⟩
  | cons a t ih =>
      intro acc sub h1 h2 h3 h4
      rw [List.foldl_cons]
      by_cases hoa : (volAt vols a).object_idx = obj
      · have hstep := hstepo acc a hoa
        have hfil : (a :: t).filter (fun i => (volAt vols i).object_idx = obj) =
            a :: t.filter (fun i => (volAt vols i).object_idx = obj) :=
          List.filter_cons_of_pos (by simp [hoa])
        have hres := ih (step acc a) (sub ++ [(volAt vols a).volume_idx])
          (by rw [hstep]; exact itemInsert_pairwise _ _ h1)
          (by
            rw [hstep]
            intro it hit hio
            rcases (itemInsert_mem _ _ _).mp hit with rfl | hit
            · exact ⟨rfl, by simp⟩
            · obtain ⟨hty, hsub⟩ := h2 it hit hio
              exact ⟨hty, List.mem_append_left _ hsub⟩)
          (by
            rw [hstep]
            intro v hv
            rcases List.mem_append.mp hv with hv | hv
            · exact (itemInsert_mem _ _ _).mpr (Or.inr (h3 v hv))
            · have : v = (volAt vols a).volume_idx := by simpa using hv
              subst this
              exact (itemInsert_mem _ _ _).mpr (Or.inl rfl))
          (by
            rw [hstep]
            show assocFindD (assocBump acc.2 obj (assocFindD acc.2 obj 0 + 1)) obj 0 = _
            rw [assocFindD_assocBump_self, h4]
            simp)
        rw [hfil]
        simp only [List.map_cons]
        rw [List.append_cons]
        exact hres
      · obtain ⟨hx1, hx2⟩ := hstepx acc a hoa
        have hfil : (a :: t).filter (fun i => (volAt vols i).object_idx = obj) =
            t.filter (fun i => (volAt vols i).object_idx = obj) :=
          List.filter_cons_of_neg (by simp [hoa])
        have hres := ih (step acc a) sub
          (by
            rcases hx1 with he | ⟨it1, hit1, he⟩
            · rw [he]; exact h1
            · rw [he]; exact itemInsert_pairwise _ _ h1)
          (by
            rcases hx1 with he | ⟨it1, hit1, he⟩
            · rw [he]; exact h2
            · rw [he]
              intro it hit hio
              rcases (itemInsert_mem _ _ _).mp hit with rfl | hit
              · exact absurd hio hit1
              · exact h2 it hit hio)
          (by
            rcases hx1 with he | ⟨it1, hit1, he⟩
            · rw [he]; exact h3
            · rw [he]
              intro v hv
              exact (itemInsert_mem _ _ _).mpr (Or.inr (h3 v hv)))
          (hx2.trans h4)
        rw [hfil]
        exact hres

end Selection

namespace Selection

variable {α : Type} [Field α] [DecidableEq α]

theorem eraseMixed_pass2 (s : Selection α) (st2 : List (Int × Int)) (obj : Int) (n : Nat)
    (hvol : (modelGetObj (mdlD s) obj).volumes_count = n)
    (hcnt : assocFindD st2 obj 0 = Int.ofNat n) :
    ∀ (L : List ItemForDelete) (out : List ItemForDelete),
    (∀ it ∈ L, it.obj_idx = obj → it.type = ItemType.itVolume) →
    (∀ x ∈ out, x.obj_idx = obj → x = ⟨ItemType.itObject, obj, 0⟩) →
    List.count (ItemForDelete.mk ItemType.itObject obj 0) (L.foldl (fun out it =>
        if it.type = ItemType.itVolume then
          if assocFindD st2 it.obj_idx 0 =
              Int.ofNat (modelGetObj (mdlD s) it.obj_idx).volumes_count then
            if it.sub_obj_idx = assocFindD st2 it.obj_idx 0 - 1 then
              out ++ [⟨ItemType.itObject, it.obj_idx, 0⟩]
            else out
          else out ++ [it]
        else out ++ [it]) out) =
      List.count (ItemForDelete.mk ItemType.itObject obj 0) out +
        List.count (ItemForDelete.mk ItemType.itVolume obj (Int.ofNat n - 1)) L ∧
    ∀ x ∈ L.foldl (fun out it =>
        if it.type = ItemType.itVolume then
          if assocFindD st2 it.obj_idx 0 =
              Int.ofNat (modelGetObj (mdlD s) it.obj_idx).volumes_count then
            if it.sub_obj_idx = assocFindD st2 it.obj_idx 0 - 1 then
              out ++ [⟨ItemType.itObject, it.obj_idx, 0⟩]
            else out
          else out ++ [it]
        else out ++ [it]) out,
      x.obj_idx = obj → x = ⟨ItemType.itObject, obj, 0⟩ := by
  intro L
  induction L with
  | nil =>
      intro out hL hout
      exact ⟨by simp, hout⟩
  | cons it L' ih =>
      intro out hL hout
      rw [List.foldl_cons]
      have hLt : ∀ x ∈ L', x.obj_idx = obj → x.type = ItemType.itVolume :=
        fun x hx => hL x (List.mem_cons_of_mem it hx)
      by_cases hio : it.obj_idx = obj
      · have hty : it.type = ItemType.itVolume := hL it (List.mem_cons_self it L') hio
        rw [if_pos hty, hio, hcnt, hvol, if_pos rfl]
        by_cases hsub : it.sub_obj_idx = Int.ofNat n - 1
        · rw [if_pos hsub]
          have hit : it = ItemForDelete.mk ItemType.itVolume obj (Int.ofNat n - 1) := by
            obtain ⟨t0, o0, s0⟩ := it
            simp only at hty hio hsub
            rw [hty, hio, hsub]
          have hres := ih (out ++ [⟨ItemType.itObject, obj, 0⟩]) hLt
            (by
              intro x hx hxo
              rcases List.mem_append.mp hx with hx | hx
              · exact hout x hx hxo
              · simpa using hx)
          refine ⟨?_, hres.2⟩
          rw [hres.1, List.count_append]
          have h1 : List.count (ItemForDelete.mk ItemType.itObject obj 0)
              [ItemForDelete.mk ItemType.itObject obj 0] = 1 := by simp
          have h2 : List.count (ItemForDelete.mk ItemType.itVolume obj (Int.ofNat n - 1))
              (it :: L') =
              List.count (ItemForDelete.mk ItemType.itVolume obj (Int.ofNat n - 1)) L' + 1 := by
            rw [hit]
            exact List.count_cons_self _ _
          omega
        · rw [if_neg hsub]
          have hres := ih out hLt hout
          refine ⟨?_, hres.2⟩
          rw [hres.1]
          have hne : ItemForDelete.mk ItemType.itVolume obj (Int.ofNat n - 1) ≠ it := by
            intro he
            rw [← he] at hsub
            exact hsub rfl
          rw [List.count_cons_of_ne hne]
      · have hxne : ∀ y : ItemForDelete, y.obj_idx ≠ obj →
            y ≠ ItemForDelete.mk ItemType.itObject obj 0 := by
          intro y hy he
          rw [he] at hy
          exact hy rfl
        have hcountL : List.count (ItemForDelete.mk ItemType.itVolume obj (Int.ofNat n - 1))
            (it :: L') = List.count (ItemForDelete.mk ItemType.itVolume obj (Int.ofNat n - 1)) L' := by
          have hne2 : ItemForDelete.mk ItemType.itVolume obj (Int.ofNat n - 1) ≠ it := by
            intro he
            rw [← he] at hio
            exact hio rfl
          rw [List.count_cons_of_ne hne2]
        have hstepout : ∀ (res : List ItemForDelete),
            (res = out ∨ res = out ++ [it] ∨ res = out ++ [⟨ItemType.itObject, it.obj_idx, 0⟩]) →
            (List.count (ItemForDelete.mk ItemType.itObject obj 0) res =
              List.count (ItemForDelete.mk ItemType.itObject obj 0) out ∧
             ∀ x ∈ res, x.obj_idx = obj → x = ⟨ItemType.itObject, obj, 0⟩) := by
          rintro res (rfl | rfl | rfl)
          · exact ⟨rfl, hout⟩
          · refine ⟨?_, ?_⟩
            · have hz : List.count (ItemForDelete.mk ItemType.itObject obj 0) [it] = 0 :=
                List.count_eq_zero.mpr (by
                  intro hmem
                  have h9 : ItemForDelete.mk ItemType.itObject obj 0 = it := by simpa using hmem
                  exact hxne it hio h9.symm)
              rw [List.count_append, hz]
              omega
            · intro x hx hxo
              rcases List.mem_append.mp hx with hx | hx
              · exact hout x hx hxo
              · have : x = it := by simpa using hx
                rw [this] at hxo
                exact absurd hxo hio
          · refine ⟨?_, ?_⟩
            · have hz : List.count (ItemForDelete.mk ItemType.itObject obj 0)
                  [ItemForDelete.mk ItemType.itObject it.obj_idx 0] = 0 :=
                List.count_eq_zero.mpr (by
                  intro hmem
                  have h9 : ItemForDelete.mk ItemType.itObject obj 0 =
                      ItemForDelete.mk ItemType.itObject it.obj_idx 0 := by simpa using hmem
                  injection h9 with h91 h92 h93
                  exact hio h92.symm)
              rw [List.count_append, hz]
              omega
            · intro x hx hxo
              rcases List.mem_append.mp hx with hx | hx
              · exact hout x hx hxo
              · have : x = ItemForDelete.mk ItemType.itObject it.obj_idx 0 := by simpa using hx
                rw [this] at hxo
                exact absurd hxo hio
        split
        · split
          · split
            · have hc := hstepout _ (Or.inr (Or.inr rfl))
              have hres := ih _ hLt hc.2
              refine ⟨?_, hres.2⟩
              rw [hres.1, hc.1, hcountL]
            · have hc := hstepout _ (Or.inl rfl)
              have hres := ih _ hLt hc.2
              refine ⟨?_, hres.2⟩
              rw [hres.1, hc.1, hcountL]
          · have hc := hstepout _ (Or.inr (Or.inl rfl))
            have hres := ih _ hLt hc.2
            refine ⟨?_, hres.2⟩
            rw [hres.1, hc.1, hcountL]
        · have hc := hstepout _ (Or.inr (Or.inl rfl))
          have hres := ih _ hLt hc.2
          refine ⟨?_, hres.2⟩
          rw [hres.1, hc.1, hcountL]

end Selection

open Selection in
/-- Claim C6: erase on a Mixed selection in which every part of a
single-instance object with at least two parts is selected emits exactly
one whole-object deletion request for that object and no other request
mentioning it: the per-part volume requests all collapse (the counter
reaches the object's part count and only the last part index emits the
object item). -/
theorem claim_C6 {α : Type} [Field α] [DecidableEq α] (s : Selection α) (obj : Int) (n : Nat)
    (hval : s.m_valid = true)
    (hty : s.m_type = SelectionType.Mixed)
    (hsfi : isSingleFullInstance s = false)
    (hobj : modelGetObj (mdlD s) obj = ⟨n, 1⟩)
    (hn : 2 ≤ n)
    (hperm : ((s.m_list.filter (fun i => (volAt (volsD s) i).object_idx = obj)).map
        (fun i => (volAt (volsD s) i).volume_idx)).Perm
      ((List.range n).map Int.ofNat)) :
    List.count (ItemForDelete.mk ItemType.itObject obj 0) (Selection.erase s) = 1 ∧
    ∀ it ∈ Selection.erase s, it.obj_idx = obj →
      it = ItemForDelete.mk ItemType.itObject obj 0 := by
  have h1 : isSingleFullObjectSel s = false := by simp [isSingleFullObjectSel, hty]
  have h2 : isMultipleFullObjectSel s = false := by simp [isMultipleFullObjectSel, hty]
  have h3 : isMultipleFullInstanceSel s = false := by simp [isMultipleFullInstanceSel, hty]
  have h5 : isMixedSel s = true := by simp [isMixedSel, hty]
  have hchar := eraseMixed_fold_char (volsD s) obj
    (fun acc i =>
      if (modelGetObj (mdlD s) (volAt (volsD s) i).object_idx).instances_count = 1 then
        if (modelGetObj (mdlD s) (volAt (volsD s) i).object_idx).volumes_count = 1 then
          (itemInsert acc.1 ⟨ItemType.itObject, (volAt (volsD s) i).object_idx, -1⟩, acc.2)
        else
          (itemInsert acc.1 ⟨ItemType.itVolume, (volAt (volsD s) i).object_idx,
              (volAt (volsD s) i).volume_idx⟩,
           assocBump acc.2 (volAt (volsD s) i).object_idx
             (assocFindD acc.2 (volAt (volsD s) i).object_idx 0 + 1))
      else
        match contentFind s.m_content (volAt (volsD s) i).object_idx with
        | none => acc
        | some insts =>
            if (volAt (volsD s) i).instance_idx ∈ insts then
              if insts.length =
                  (modelGetObj (mdlD s) (volAt (volsD s) i).object_idx).instances_count then
                (itemInsert acc.1 ⟨ItemType.itVolume, (volAt (volsD s) i).object_idx,
                    (volAt (volsD s) i).volume_idx⟩, acc.2)
              else
                (itemInsert acc.1 ⟨ItemType.itInstance, (volAt (volsD s) i).object_idx,
                    (volAt (volsD s) i).instance_idx⟩, acc.2)
            else acc)
    (by
      intro acc i hoi
      dsimp only
      rw [hoi, hobj]
      rw [if_pos rfl]
      rw [if_neg (by simp; omega)])
    (by
      intro acc i hne
      dsimp only
      by_cases hic : (modelGetObj (mdlD s) (volAt (volsD s) i).object_idx).instances_count = 1
      · rw [if_pos hic]
        by_cases hvc : (modelGetObj (mdlD s) (volAt (volsD s) i).object_idx).volumes_count = 1
        · rw [if_pos hvc]
          exact ⟨Or.inr ⟨⟨ItemType.itObject, (volAt (volsD s) i).object_idx, -1⟩, hne, rfl⟩,
            rfl⟩
        · rw [if_neg hvc]
          refine ⟨Or.inr ⟨⟨ItemType.itVolume, (volAt (volsD s) i).object_idx,
            (volAt (volsD s) i).volume_idx⟩, hne, rfl⟩, ?_⟩
          exact assocFindD_assocBump_ne _ _ _ _ _ (Ne.symm hne)
      · rw [if_neg hic]
        cases hcf : contentFind s.m_content (volAt (volsD s) i).object_idx with
        | none =>
            refine ⟨Or.inl ?_, ?_⟩ <;> simp [hcf]
        | some insts =>
            simp only [hcf]
            by_cases hmm2 : (volAt (volsD s) i).instance_idx ∈ insts
            · rw [if_pos hmm2]
              by_cases hlen : insts.length =
                  (modelGetObj (mdlD s) (volAt (volsD s) i).object_idx).instances_count
              · rw [if_pos hlen]
                exact ⟨Or.inr ⟨⟨ItemType.itVolume, (volAt (volsD s) i).object_idx,
                  (volAt (volsD s) i).volume_idx⟩, hne, rfl⟩, rfl⟩
              · rw [if_neg hlen]
                exact ⟨Or.inr ⟨⟨ItemType.itInstance, (volAt (volsD s) i).object_idx,
                  (volAt (volsD s) i).instance_idx⟩, hne, rfl⟩, rfl⟩
            · rw [if_neg hmm2]
              exact ⟨Or.inl rfl, rfl⟩)
    s.m_list ([], []) [] (by simp) (by simp) (by simp) (by simp [assocFindD])
  obtain ⟨hc1, hc2, hc3, hc4⟩ := hchar
  rw [List.nil_append] at hc2 hc3 hc4
  have hlen : ((s.m_list.filter (fun i => (volAt (volsD s) i).object_idx = obj)).map
      (fun i => (volAt (volsD s) i).volume_idx)).length = n := by
    rw [hperm.length_eq]
    simp
  rw [hlen] at hc4
  have hvol : (modelGetObj (mdlD s) obj).volumes_count = n := by rw [hobj]
  have hp2 := eraseMixed_pass2 s _ obj n hvol hc4 _ []
    (fun it hit hio => (hc2 it hit hio).1)
    (by intro x hx; exact absurd hx (List.not_mem_nil x))
  have hmemitem : ItemForDelete.mk ItemType.itVolume obj (Int.ofNat n - 1) ∈
      (s.m_list.foldl (fun acc i =>
        if (modelGetObj (mdlD s) (volAt (volsD s) i).object_idx).instances_count = 1 then
          if (modelGetObj (mdlD s) (volAt (volsD s) i).object_idx).volumes_count = 1 then
            (itemInsert acc.1 ⟨ItemType.itObject, (volAt (volsD s) i).object_idx, -1⟩, acc.2)
          else
            (itemInsert acc.1 ⟨ItemType.itVolume, (volAt (volsD s) i).object_idx,
                (volAt (volsD s) i).volume_idx⟩,
             assocBump acc.2 (volAt (volsD s) i).object_idx
               (assocFindD acc.2 (volAt (volsD s) i).object_idx 0 + 1))
        else
          match contentFind s.m_content (volAt (volsD s) i).object_idx with
          | none => acc
          | some insts =>
              if (volAt (volsD s) i).instance_idx ∈ insts then
                if insts.length =
                    (modelGetObj (mdlD s) (volAt (volsD s) i).object_idx).instances_count then
                  (itemInsert acc.1 ⟨ItemType.itVolume, (volAt (volsD s) i).object_idx,
                      (volAt (volsD s) i).volume_idx⟩, acc.2)
                else
                  (itemInsert acc.1 ⟨ItemType.itInstance, (volAt (volsD s) i).object_idx,
                      (volAt (volsD s) i).instance_idx⟩, acc.2)
              else acc) ([], [])).1 := by
    have hcast : Int.ofNat n - 1 = Int.ofNat (n - 1) := by
      simp only [Int.ofNat_eq_natCast]
      omega
    rw [hcast]
    refine hc3 _ ?_
    rw [hperm.mem_iff]
    simp only [List.mem_map, List.mem_range]
    exact ⟨n - 1, by omega, rfl⟩
  have hnodup := itemPairwise_nodup _ hc1
  have hcount1 := List.count_eq_one_of_mem hnodup hmemitem
  have h1goal := hp2.1
  rw [hcount1] at h1goal
  simp only [Selection.erase, hval, h1, h2, h3, hsfi, h5]
  norm_num
  constructor
  · exact h1goal.trans (by simp)
  · exact hp2.2

open Selection SelExamples in
/-- Witness for claim C6 at the concrete Mixed selection: both parts of
the single-instance object 0 and one instance of object 1 selected. -/
theorem claim_C6_witness :
    (exSelD.m_valid = true ∧ exSelD.m_type = SelectionType.Mixed ∧
     isSingleFullInstance exSelD = false ∧
     modelGetObj (mdlD exSelD) 0 = ⟨2, 1⟩ ∧ 2 ≤ 2 ∧
     ((exSelD.m_list.filter (fun i => (volAt (volsD exSelD) i).object_idx = 0)).map
        (fun i => (volAt (volsD exSelD) i).volume_idx)).Perm
       ((List.range 2).map Int.ofNat)) ∧
    (List.count (ItemForDelete.mk ItemType.itObject 0 0) (Selection.erase exSelD) = 1 ∧
     ∀ it ∈ Selection.erase exSelD, it.obj_idx = 0 →
       it = ItemForDelete.mk ItemType.itObject 0 0) :=
  ⟨⟨by decide, by decide, by decide, by decide, by decide, by decide⟩,
   claim_C6 exSelD 0 2 (by decide) (by decide) (by decide) (by decide) (by decide)
     (by decide)⟩

namespace Selection

variable {α : Type} [Field α] [DecidableEq α]

theorem addVolumePrim_proj {γ : Type _} (s : Selection α) (i : Nat) (g : GLVolume α → γ)
    (hgs : ∀ (v : GLVolume α) (b : Bool), g { v with selected := b } = g v) (k : Nat) :
    g (volAt (volsD (addVolumePrim s i)) k) = g (volAt (volsD s) k) := by
  rw [addVolumePrim_volsD]
  exact proj_setVolAt g _ _ _ (fun v => hgs v true) k

theorem removeVolumePrim_proj {γ : Type _} (s : Selection α) (i : Nat) (g : GLVolume α → γ)
    (hgs : ∀ (v : GLVolume α) (b : Bool), g { v with selected := b } = g v) (k : Nat) :
    g (volAt (volsD (removeVolumePrim s i)) k) = g (volAt (volsD s) k) := by
  unfold removeVolumePrim
  split
  · show g (volAt (setVolAt (volsD s) i (fun v => { v with selected := false })) k) = _
    exact proj_setVolAt g _ _ _ (fun v => hgs v false) k
  · rfl

theorem proj_foldl_stepAdd {γ : Type _} (g : GLVolume α → γ)
    (hgs : ∀ (v : GLVolume α) (b : Bool), g { v with selected := b } = g v)
    (s : Selection α) (l : List Nat) (step : Selection α → Nat → Selection α)
    (hstep : ∀ st x, step st x = addVolumePrim st x ∨ step st x = st) (k : Nat) :
    g (volAt (volsD (l.foldl step s)) k) = g (volAt (volsD s) k) := by
  refine foldl_proj_const (fun st => volsD st) g step l s ?_ k
  intro st x k'
  rcases hstep st x with he | he
  · rw [he]
    exact addVolumePrim_proj st x g hgs k'
  · rw [he]

theorem proj_foldl_stepRemove {γ : Type _} (g : GLVolume α → γ)
    (hgs : ∀ (v : GLVolume α) (b : Bool), g { v with selected := b } = g v)
    (s : Selection α) (l : List Nat) (step : Selection α → Nat → Selection α)
    (hstep : ∀ st x, step st x = removeVolumePrim st x ∨ step st x = st) (k : Nat) :
    g (volAt (volsD (l.foldl step s)) k) = g (volAt (volsD s) k) := by
  refine foldl_proj_const (fun st => volsD st) g step l s ?_ k
  intro st x k'
  rcases hstep st x with he | he
  · rw [he]
    exact removeVolumePrim_proj st x g hgs k'
  · rw [he]

theorem addInstancePrim_proj {γ : Type _} (s : Selection α) (oi ii : Int)
    (g : GLVolume α → γ)
    (hgs : ∀ (v : GLVolume α) (b : Bool), g { v with selected := b } = g v) (k : Nat) :
    g (volAt (volsD (addInstancePrim s oi ii)) k) = g (volAt (volsD s) k) := by
  unfold addInstancePrim
  refine proj_foldl_stepAdd g hgs s _ _ ?_ k
  intro st x
  dsimp only
  split
  · exact Or.inl rfl
  · exact Or.inr rfl

theorem removeInstancePrim_proj {γ : Type _} (s : Selection α) (oi ii : Int)
    (g : GLVolume α → γ)
    (hgs : ∀ (v : GLVolume α) (b : Bool), g { v with selected := b } = g v) (k : Nat) :
    g (volAt (volsD (removeInstancePrim s oi ii)) k) = g (volAt (volsD s) k) := by
  unfold removeInstancePrim
  refine proj_foldl_stepRemove g hgs s _ _ ?_ k
  intro st x
  dsimp only
  split
  · exact Or.inl rfl
  · exact Or.inr rfl

set_option maxHeartbeats 2000000 in
/-- Any volume projection untouched by selected- and disabled-flag writes
is preserved by add. -/
theorem add_proj {γ : Type _} (s : Selection α) (i : Nat) (b : Bool) (g : GLVolume α → γ)
    (hgs : ∀ (v : GLVolume α) (b : Bool), g { v with selected := b } = g v)
    (hgd : ∀ (v : GLVolume α) (b : Bool), g { v with disabled := b } = g v) (k : Nat) :
    g (volAt (volsD (add s i b)) k) = g (volAt (volsD s) k) := by
  have hc : ∀ k', g (volAt (volsD (clear s)) k') = g (volAt (volsD s) k') :=
    fun k' => clear_proj s g hgs hgd k'
  simp only [add]
  repeat' split
  all_goals first
    | rfl
    | exact (updateType_proj _ g hgd k).trans (addVolumePrim_proj _ _ g hgs k)
    | exact (updateType_proj _ g hgd k).trans
        ((addVolumePrim_proj _ _ g hgs k).trans (hc k))
    | exact (updateType_proj _ g hgd k).trans (addInstancePrim_proj _ _ _ g hgs k)
    | exact (updateType_proj _ g hgd k).trans
        ((addInstancePrim_proj _ _ _ g hgs k).trans (hc k))
    | exact (updateType_proj _ g hgd k).trans (hc k)
    | exact updateType_proj _ g hgd k

set_option maxHeartbeats 1000000 in
/-- Any volume projection untouched by selected- and disabled-flag writes
is preserved by remove. -/
theorem remove_proj {γ : Type _} (s : Selection α) (i : Nat) (g : GLVolume α → γ)
    (hgs : ∀ (v : GLVolume α) (b : Bool), g { v with selected := b } = g v)
    (hgd : ∀ (v : GLVolume α) (b : Bool), g { v with disabled := b } = g v) (k : Nat) :
    g (volAt (volsD (remove s i)) k) = g (volAt (volsD s) k) := by
  simp only [remove]
  repeat' split
  all_goals first
    | rfl
    | exact (updateType_proj _ g hgd k).trans (removeVolumePrim_proj _ _ g hgs k)
    | exact (updateType_proj _ g hgd k).trans (removeInstancePrim_proj _ _ _ g hgs k)

/-- Any volume projection untouched by selected- and disabled-flag writes
is preserved by add_all. -/
theorem add_all_proj {γ : Type _} (s : Selection α) (g : GLVolume α → γ)
    (hgs : ∀ (v : GLVolume α) (b : Bool), g { v with selected := b } = g v)
    (hgd : ∀ (v : GLVolume α) (b : Bool), g { v with disabled := b } = g v) (k : Nat) :
    g (volAt (volsD (add_all s)) k) = g (volAt (volsD s) k) := by
  have hc : ∀ k', g (volAt (volsD (clear { s with m_mode := SelectionMode.Instance })) k') =
      g (volAt (volsD s) k') := fun k' =>
    clear_proj { s with m_mode := SelectionMode.Instance } g hgs hgd k'
  simp only [add_all]
  split
  · rfl
  · refine (updateType_proj _ g hgd k).trans ?_
    refine (proj_foldl_stepAdd g hgs _ _ _ ?_ k).trans (hc k)
    intro st x
    split
    · exact Or.inr rfl
    · exact Or.inl rfl

end Selection

namespace Selection

variable {α : Type} [Field α] [DecidableEq α]

theorem q_stable_setVolAt (q : GLVolume α → Prop)
    (hq : ∀ (v : GLVolume α) (c : Bool), q { v with selected := c } ↔ q v)
    (vs : List (GLVolume α)) (j : Nat) (c : Bool) (k : Nat) :
    q (volAt (setVolAt vs j (fun v => { v with selected := c })) k) ↔ q (volAt vs k) := by
  by_cases hlen : j < vs.length
  · by_cases hk : k = j
    · subst hk
      rw [volAt_setVolAt_self _ _ _ hlen]
      exact hq _ c
    · rw [volAt_setVolAt_ne _ _ _ _ hk]
  · rw [volAt_setVolAt_oob _ _ _ _ (le_of_not_lt hlen)]

/-- Membership in the index set of a fold of guarded _add_volume calls
whose guard reads only flag-stable volume fields. -/
theorem guardedAddFold_mem (q : GLVolume α → Prop) [DecidablePred q]
    (hq : ∀ (v : GLVolume α) (c : Bool), q { v with selected := c } ↔ q v)
    (l : List Nat) (s0 : Selection α) (k : Nat) :
    k ∈ (l.foldl (fun st i =>
        if q (volAt (volsD st) i) then addVolumePrim st i else st) s0).m_list ↔
      k ∈ s0.m_list ∨ (k ∈ l ∧ q (volAt (volsD s0) k)) := by
  induction l generalizing s0 with
  | nil => simp
  | cons a t ih =>
      rw [List.foldl_cons]
      by_cases hqa : q (volAt (volsD s0) a)
      · rw [if_pos hqa, ih]
        have hqs : ∀ k', q (volAt (volsD (addVolumePrim s0 a)) k') ↔
            q (volAt (volsD s0) k') := by
          intro k'
          rw [addVolumePrim_volsD]
          exact q_stable_setVolAt q hq _ _ _ k'
        rw [hqs k, addVolumePrim_m_list, slInsert_mem]
        constructor
        · rintro ((hka | hk) | ⟨hkt, hqk⟩)
          · rw [hka]
            exact Or.inr ⟨List.mem_cons_self a t, hqa⟩
          · exact Or.inl hk
          · exact Or.inr ⟨List.mem_cons_of_mem a hkt, hqk⟩
        · rintro (hk | ⟨hkat, hqk⟩)
          · exact Or.inl (Or.inr hk)
          · rcases List.mem_cons.mp hkat with rfl | hkt
            · exact Or.inl (Or.inl rfl)
            · exact Or.inr ⟨hkt, hqk⟩
      · rw [if_neg hqa, ih]
        constructor
        · rintro (hk | ⟨hkt, hqk⟩)
          · exact Or.inl hk
          · exact Or.inr ⟨List.mem_cons_of_mem a hkt, hqk⟩
        · rintro (hk | ⟨hkat, hqk⟩)
          · exact Or.inl hk
          · rcases List.mem_cons.mp hkat with rfl | hkt
            · exact absurd hqk hqa
            · exact Or.inr ⟨hkt, hqk⟩

/-- addInstancePrim selects exactly the already selected indices plus the
in-range volumes of the given (object, instance) pair. -/
theorem addInstancePrim_mem (s : Selection α) (oi ii : Int) (k : Nat) :
    k ∈ (addInstancePrim s oi ii).m_list ↔
      k ∈ s.m_list ∨ (k ∈ List.range (volsD s).length ∧
        (volAt (volsD s) k).object_idx = oi ∧ (volAt (volsD s) k).instance_idx = ii) := by
  unfold addInstancePrim
  exact guardedAddFold_mem (fun v => v.object_idx = oi ∧ v.instance_idx = ii)
    (fun v c => Iff.rfl) _ s k

/-- Indices removed by a fold of guarded _remove_volume calls come from
the original set. -/
theorem guardedRemoveFold_subset (s : Selection α) (l : List Nat)
    (step : Selection α → Nat → Selection α)
    (hstep : ∀ st x, step st x = removeVolumePrim st x ∨ step st x = st) :
    ∀ k ∈ (l.foldl step s).m_list, k ∈ s.m_list := by
  refine foldlInvariant
    (fun st : Selection α => ∀ k ∈ st.m_list, k ∈ s.m_list) step l s (fun k hk => hk) ?_
  intro st x hst k hk
  rcases hstep st x with he | he
  · rw [he] at hk
    refine hst k ?_
    unfold removeVolumePrim at hk
    split at hk
    · exact List.mem_of_mem_erase hk
    · exact hk
  · rw [he] at hk
    exact hst k hk

theorem removeInstancePrim_subset (s : Selection α) (oi ii : Int) :
    ∀ k ∈ (removeInstancePrim s oi ii).m_list, k ∈ s.m_list := by
  unfold removeInstancePrim
  refine guardedRemoveFold_subset s _ _ ?_
  intro st x
  dsimp only
  split
  · exact Or.inl rfl
  · exact Or.inr rfl

/-- A sorted list whose members are exactly one value is that singleton. -/
theorem sorted_mem_singleton (l : List Nat) (w : Nat) (hs : l.Sorted (· < ·))
    (hm : ∀ k, k ∈ l ↔ k = w) : l = [w] := by
  have hnd : l.Nodup := List.Pairwise.imp (fun hab => Nat.ne_of_lt hab) hs
  cases l with
  | nil =>
      exact absurd ((hm w).mpr rfl) (List.not_mem_nil w)
  | cons a t =>
      have ha : a = w := (hm a).mp (List.mem_cons_self a t)
      cases t with
      | nil => rw [ha]
      | cons c t' =>
          have hc : c = w := (hm c).mp (List.mem_cons_of_mem a (List.mem_cons_self c t'))
          rcases List.nodup_cons.mp hnd with ⟨hna, _⟩
          have hac : a ∈ c :: t' := by
            rw [ha.trans hc.symm]
            exact List.mem_cons_self c t'
          exact absurd hac hna

end Selection

namespace Selection

variable {α : Type} [Field α] [DecidableEq α]

/-- A consistent, valid selection whose set is exactly one wipe-tower
volume is classified WipeTower. -/
theorem isWipeTowerSel_of_single (s : Selection α) (w : Nat)
    (htc : TypeConsistent s) (hval : s.m_valid = true)
    (hl : s.m_list = [w]) (hw : (volAt (volsD s) w).is_wipe_tower = true) :
    isWipeTowerSel s = true := by
  have hcv : ¬(s.m_valid ≠ true) := by simp [hval]
  have ht : s.m_type = SelectionType.WipeTower := by
    rw [htc]
    simp only [classify, hl]
    rw [if_neg hcv]
    rw [if_pos hw]
  simp [isWipeTowerSel, ht]

/-- Adding the unique non-modifier wipe-tower volume to a valid selection
not already of wipe-tower type yields exactly the wipe-tower singleton. -/
theorem add_wipe_singleton (s : Selection α) (w : Nat) (b : Bool)
    (hval : s.m_valid = true) (hinv : SelInvP s)
    (hwu : WipeUnique (volsD s) w)
    (hwm : (volAt (volsD s) w).is_modifier = false)
    (hnwt : isWipeTowerSel s = false) :
    (add s w b).m_list = [w] := by
  obtain ⟨hwlen, hww, hwo⟩ := hwu
  have hinv2 : SelInvP (addInstancePrim { clear s with m_mode := SelectionMode.Instance }
      (volAt (volsD s) w).object_idx (volAt (volsD s) w).instance_idx) :=
    SelInvP_addInstancePrim _ _ _ (SelInvP_clear s hinv)
  have hcl : (clear s).m_list = [] := clear_m_list s hval
  have hpo : ∀ k, (volAt (volsD (clear s)) k).object_idx = (volAt (volsD s) k).object_idx :=
    fun k => clear_proj s (fun v => v.object_idx) (fun _ _ => rfl) (fun _ _ => rfl) k
  have hpi : ∀ k, (volAt (volsD (clear s)) k).instance_idx =
      (volAt (volsD s) k).instance_idx :=
    fun k => clear_proj s (fun v => v.instance_idx) (fun _ _ => rfl) (fun _ _ => rfl) k
  have hlen2 : (volsD (clear s)).length = (volsD s).length := clear_volsD_length s
  have hc1 : ¬(s.m_valid ≠ true ∨ (volsD s).length ≤ w) := by
    push_neg
    exact ⟨by simp [hval], hwlen⟩
  have hc2 : ¬(isWipeTowerSel s = true ∧ (volAt (volsD s) w).is_wipe_tower = true) := by
    rintro ⟨h2, _⟩
    rw [hnwt] at h2
    exact Bool.false_ne_true h2
  have hc4 : ¬((volAt (volsD s) w).is_modifier = true) := by simp [hwm]
  have hc5 : ¬(containsVolume (clear s) w = true) := by simp [containsVolume, hcl]
  simp only [add]
  rw [if_neg hc1, if_neg hc2, if_pos (Or.inr (Or.inl hww)), if_neg hc4, if_pos hc5,
    updateType_m_list]
  show (addInstancePrim { clear s with m_mode := SelectionMode.Instance }
    (volAt (volsD s) w).object_idx (volAt (volsD s) w).instance_idx).m_list = [w]
  refine sorted_mem_singleton _ w hinv2.1 ?_
  intro k
  rw [addInstancePrim_mem]
  constructor
  · rintro (hk | ⟨hkr, hko, hki⟩)
    · rw [show ({ clear s with m_mode := SelectionMode.Instance } : Selection α).m_list =
        (clear s).m_list from rfl, hcl] at hk
      exact absurd hk (List.not_mem_nil k)
    · have hkr' : k < (volsD s).length := by
        rw [List.mem_range] at hkr
        exact lt_of_lt_of_eq hkr hlen2
      by_cases hkw : k = w
      · exact hkw
      · exact absurd ⟨(hpo k).symm.trans hko, (hpi k).symm.trans hki⟩ (hwo k hkr' hkw).2
  · intro hk
    subst hk
    refine Or.inr ⟨?_, ?_, ?_⟩
    · rw [List.mem_range]
      exact lt_of_lt_of_eq hwlen hlen2.symm
    · exact hpo k
    · exact hpi k

end Selection

namespace Selection

variable {α : Type} [Field α] [DecidableEq α]

theorem WipeAlone_clear (s : Selection α) (hval : s.m_valid = true) :
    WipeAlone (clear s) := by
  intro w' hw' _
  rw [clear_m_list s hval] at hw'
  exact absurd hw' (List.not_mem_nil w')

/-- The index set selected by add_all (factored from the C8 analysis). -/
theorem add_all_m_list (s : Selection α) (hval : s.m_valid = true) :
    (add_all s).m_list = (List.range (volsD s).length).filter
      (fun i => !(volAt (volsD s) i).is_wipe_tower) := by
  have hx : ∀ k,
      (volAt (volsD (clear { s with m_mode := SelectionMode.Instance })) k).is_wipe_tower =
      (volAt (volsD s) k).is_wipe_tower := fun k =>
    clear_proj { s with m_mode := SelectionMode.Instance }
      (fun v => v.is_wipe_tower) (fun _ _ => rfl) (fun _ _ => rfl) k
  have hxlen : (volsD (clear { s with m_mode := SelectionMode.Instance })).length =
      (volsD s).length := clear_volsD_length _
  have hxlist : (clear { s with m_mode := SelectionMode.Instance }).m_list = [] :=
    clear_m_list _ (by show s.m_valid = true; exact hval)
  unfold add_all
  rw [if_neg (by simp [hval])]
  rw [updateType_m_list]
  rw [addAll_fold_char s _ _ (List.sorted_lt_range _) hx
    (by rw [hxlist]; intro j hj; exact absurd hj (List.not_mem_nil j))]
  rw [hxlist, hxlen]
  rfl

theorem WipeAlone_add_all (s : Selection α) (hval : s.m_valid = true) :
    WipeAlone (add_all s) := by
  intro w' hw' hwipe
  have hproj := add_all_proj s (fun v => v.is_wipe_tower) (fun _ _ => rfl) (fun _ _ => rfl) w'
  rw [hproj] at hwipe
  rw [add_all_m_list s hval] at hw'
  have := (List.mem_filter.mp hw').2
  rw [hwipe] at this
  exact absurd this (by simp)

theorem remove_subset (s : Selection α) (i : Nat) :
    ∀ k ∈ (remove s i).m_list, k ∈ s.m_list := by
  simp only [remove]
  split
  · exact fun k hk => hk
  · split
    · intro k hk
      rw [updateType_m_list] at hk
      unfold removeVolumePrim at hk
      split at hk
      · exact List.mem_of_mem_erase hk
      · exact hk
    · intro k hk
      rw [updateType_m_list] at hk
      exact removeInstancePrim_subset s _ _ k hk

theorem WipeAlone_remove (s : Selection α) (i : Nat) (hinv : SelInvP s)
    (hwa : WipeAlone s) : WipeAlone (remove s i) := by
  intro w' hw' hwipe
  have hproj := remove_proj s i (fun v => v.is_wipe_tower) (fun _ _ => rfl) (fun _ _ => rfl) w'
  rw [hproj] at hwipe
  have hmem := remove_subset s i w' hw'
  have hsl := hwa w' hmem hwipe
  refine sorted_mem_singleton _ w' (SelInvP_remove s i hinv).1 ?_
  intro k
  constructor
  · intro hk
    have := remove_subset s i k hk
    rw [hsl] at this
    simpa using this
  · intro hk
    rw [hk]
    exact hw'

end Selection

namespace Selection

variable {α : Type} [Field α] [DecidableEq α]

/-- Every index selected by add was already selected, is the added index,
or shares the added volume's (object, instance) pair. -/
theorem add_mem_sub (s : Selection α) (i : Nat) (b : Bool) (k : Nat)
    (hval : s.m_valid = true) :
    k ∈ (add s i b).m_list →
      k ∈ s.m_list ∨ k = i ∨
      (k < (volsD s).length ∧
        (volAt (volsD s) k).object_idx = (volAt (volsD s) i).object_idx ∧
        (volAt (volsD s) k).instance_idx = (volAt (volsD s) i).instance_idx) := by
  intro hmem
  have hcl : (clear s).m_list = [] := clear_m_list s hval
  have hpoc : ∀ k', (volAt (volsD (clear s)) k').object_idx =
      (volAt (volsD s) k').object_idx :=
    fun k' => clear_proj s (fun v => v.object_idx) (fun _ _ => rfl) (fun _ _ => rfl) k'
  have hpic : ∀ k', (volAt (volsD (clear s)) k').instance_idx =
      (volAt (volsD s) k').instance_idx :=
    fun k' => clear_proj s (fun v => v.instance_idx) (fun _ _ => rfl) (fun _ _ => rfl) k'
  have hlc : (volsD (clear s)).length = (volsD s).length := clear_volsD_length s
  simp only [add] at hmem
  repeat' split at hmem
  all_goals first
    | exact Or.inl hmem
    | (rw [updateType_m_list, addVolumePrim_m_list, slInsert_mem] at hmem
       rcases hmem with he | hmem
       · exact Or.inr (Or.inl he)
       · first
         | exact absurd (show k ∈ ([] : List Nat) from by rw [← hcl]; exact hmem)
             (List.not_mem_nil k)
         | exact Or.inl hmem)
    | (rw [updateType_m_list, addInstancePrim_mem] at hmem
       rcases hmem with hmem | ⟨hr, ho, hi2⟩
       · first
         | exact absurd (show k ∈ ([] : List Nat) from by rw [← hcl]; exact hmem)
             (List.not_mem_nil k)
         | exact Or.inl hmem
       · refine Or.inr (Or.inr ⟨?_, ?_, ?_⟩)
         · rw [List.mem_range] at hr
           first
             | exact lt_of_lt_of_eq hr hlc
             | exact hr
         · first
             | exact (hpoc k).symm.trans ho
             | exact ho
         · first
             | exact (hpic k).symm.trans hi2
             | exact hi2)
    | (rw [updateType_m_list] at hmem
       first
         | exact absurd (show k ∈ ([] : List Nat) from by rw [← hcl]; exact hmem)
             (List.not_mem_nil k)
         | exact Or.inl hmem)

/-- Under a selection reset, add selects only the added index or its
(object, instance) siblings. -/
theorem add_mem_reset (s : Selection α) (i : Nat) (b : Bool) (k : Nat)
    (hval : s.m_valid = true)
    (hc1 : ¬(s.m_valid ≠ true ∨ (volsD s).length ≤ i))
    (hwg : ¬(isWipeTowerSel s = true ∧ (volAt (volsD s) i).is_wipe_tower = true))
    (hreset : b = true ∨ (volAt (volsD s) i).is_wipe_tower = true ∨
      (isWipeTowerSel s = true ∧ ¬((volAt (volsD s) i).is_wipe_tower = true)) ∨
      (¬(isModifierSel s = true) ∧ (volAt (volsD s) i).is_modifier = true) ∨
      (isModifierSel s = true ∧ ¬((volAt (volsD s) i).is_modifier = true))) :
    k ∈ (add s i b).m_list →
      k = i ∨
      (k < (volsD s).length ∧
        (volAt (volsD s) k).object_idx = (volAt (volsD s) i).object_idx ∧
        (volAt (volsD s) k).instance_idx = (volAt (volsD s) i).instance_idx) := by
  intro hmem
  have hcl : (clear s).m_list = [] := clear_m_list s hval
  have hpoc : ∀ k', (volAt (volsD (clear s)) k').object_idx =
      (volAt (volsD s) k').object_idx :=
    fun k' => clear_proj s (fun v => v.object_idx) (fun _ _ => rfl) (fun _ _ => rfl) k'
  have hpic : ∀ k', (volAt (volsD (clear s)) k').instance_idx =
      (volAt (volsD s) k').instance_idx :=
    fun k' => clear_proj s (fun v => v.instance_idx) (fun _ _ => rfl) (fun _ _ => rfl) k'
  have hlc : (volsD (clear s)).length = (volsD s).length := clear_volsD_length s
  simp only [add] at hmem
  rw [if_neg hc1, if_neg hwg, if_pos hreset] at hmem
  repeat' split at hmem
  all_goals first
    | (rw [updateType_m_list, addVolumePrim_m_list, slInsert_mem] at hmem
       rcases hmem with he | hmem
       · exact Or.inl he
       · exact absurd (show k ∈ ([] : List Nat) from by rw [← hcl]; exact hmem)
           (List.not_mem_nil k))
    | (rw [updateType_m_list, addInstancePrim_mem] at hmem
       rcases hmem with hmem | ⟨hr, ho, hi2⟩
       · exact absurd (show k ∈ ([] : List Nat) from by rw [← hcl]; exact hmem)
           (List.not_mem_nil k)
       · refine Or.inr ⟨?_, ?_, ?_⟩
         · rw [List.mem_range] at hr
           exact lt_of_lt_of_eq hr hlc
         · exact (hpoc k).symm.trans ho
         · exact (hpic k).symm.trans hi2)
    | (rw [updateType_m_list] at hmem
       exact absurd (show k ∈ ([] : List Nat) from by rw [← hcl]; exact hmem)
         (List.not_mem_nil k))

end Selection

namespace Selection

variable {α : Type} [Field α] [DecidableEq α]

/-- add preserves the wipe-tower exclusivity invariant on consistent
states with a unique non-modifier wipe tower. -/
theorem WipeAlone_add (s : Selection α) (i : Nat) (b : Bool) (w : Nat)
    (hval : s.m_valid = true) (hinv : SelInvP s) (hwu : WipeUnique (volsD s) w)
    (hwm : (volAt (volsD s) w).is_modifier = false)
    (htc : TypeConsistent s) (hwa : WipeAlone s) : WipeAlone (add s i b) := by
  obtain ⟨hwlen, hww, hwo⟩ := hwu
  by_cases hc1 : s.m_valid ≠ true ∨ (volsD s).length ≤ i
  · have he : add s i b = s := by
      simp only [add]
      rw [if_pos hc1]
    rw [he]
    exact hwa
  · have hi : i < (volsD s).length := by
      rcases not_or.mp hc1 with ⟨_, h2⟩
      exact lt_of_not_le h2
    by_cases hwg : isWipeTowerSel s = true ∧ (volAt (volsD s) i).is_wipe_tower = true
    · have he : add s i b = s := by
        simp only [add]
        rw [if_neg hc1, if_pos hwg]
      rw [he]
      exact hwa
    · by_cases hiw : (volAt (volsD s) i).is_wipe_tower = true
      · have hieq : i = w := by
          by_contra hne
          have hf := (hwo i hi hne).1
          rw [hf] at hiw
          exact Bool.false_ne_true hiw
        have hnwt : isWipeTowerSel s = false := by
          cases hb : isWipeTowerSel s
          · rfl
          · exact absurd ⟨hb, hiw⟩ hwg
        rw [hieq]
        intro w' hw' _
        rw [add_wipe_singleton s w b hval hinv ⟨hwlen, hww, hwo⟩ hwm hnwt] at hw' ⊢
        have hw'' : w' = w := by simpa using hw'
        rw [hw'']
      · have hiww : i ≠ w := by
          intro he
          rw [he] at hiw
          exact hiw hww
        have hpairne := (hwo i hi hiww).2
        have hkey : w ∉ (add s i b).m_list := by
          by_cases hwts : isWipeTowerSel s = true
          · have hreset : b = true ∨ (volAt (volsD s) i).is_wipe_tower = true ∨
                (isWipeTowerSel s = true ∧ ¬((volAt (volsD s) i).is_wipe_tower = true)) ∨
                (¬(isModifierSel s = true) ∧ (volAt (volsD s) i).is_modifier = true) ∨
                (isModifierSel s = true ∧ ¬((volAt (volsD s) i).is_modifier = true)) :=
              Or.inr (Or.inr (Or.inl ⟨hwts, hiw⟩))
            intro hmem
            rcases add_mem_reset s i b w hval hc1 hwg hreset hmem with he | ⟨_, hpair⟩
            · exact hiww he.symm
            · exact hpairne ⟨hpair.1.symm, hpair.2.symm⟩
          · intro hmem
            rcases add_mem_sub s i b w hval hmem with hold | he | ⟨_, hpair⟩
            · have hsl := hwa w hold hww
              exact hwts (isWipeTowerSel_of_single s w htc hval hsl hww)
            · exact hiww he.symm
            · exact hpairne ⟨hpair.1.symm, hpair.2.symm⟩
        intro w' hw' hwipe
        have hproj := add_proj s i b (fun v => v.is_wipe_tower) (fun _ _ => rfl)
          (fun _ _ => rfl) w'
        rw [hproj] at hwipe
        have hw'lt : w' < (volsD s).length := by
          by_contra hge
          rw [volAt_oob _ _ (le_of_not_lt hge)] at hwipe
          exact absurd hwipe (by simp [defVol])
        have hw'w : w' = w := by
          by_contra hne
          have hf := (hwo w' hw'lt hne).1
          rw [hf] at hwipe
          exact Bool.false_ne_true hwipe
        rw [hw'w] at hw'
        exact absurd hw' hkey

end Selection

namespace Selection

variable {α : Type} [Field α] [DecidableEq α]

/-- Adding a non-wipe volume while the wipe tower is selected yields a
wipe-free selection. -/
theorem add_nonwipe_clears_wipe (s : Selection α) (j : Nat) (b : Bool) (w : Nat)
    (hval : s.m_valid = true) (hwu : WipeUnique (volsD s) w)
    (hwt : isWipeTowerSel s = true)
    (hj : j < (volsD s).length) (hjw : (volAt (volsD s) j).is_wipe_tower = false) :
    ∀ k ∈ (add s j b).m_list, (volAt (volsD (add s j b)) k).is_wipe_tower = false := by
  obtain ⟨hwlen, hww, hwo⟩ := hwu
  have hjne : j ≠ w := by
    intro he
    rw [he, hww] at hjw
    exact Bool.noConfusion hjw
  intro k hk
  rw [add_proj s j b (fun v => v.is_wipe_tower) (fun _ _ => rfl) (fun _ _ => rfl) k]
  have hc1 : ¬(s.m_valid ≠ true ∨ (volsD s).length ≤ j) := by
    push_neg
    exact ⟨by simp [hval], hj⟩
  have hwg : ¬(isWipeTowerSel s = true ∧ (volAt (volsD s) j).is_wipe_tower = true) := by
    rintro ⟨_, h2⟩
    rw [hjw] at h2
    exact Bool.false_ne_true h2
  have hreset : b = true ∨ (volAt (volsD s) j).is_wipe_tower = true ∨
      (isWipeTowerSel s = true ∧ ¬((volAt (volsD s) j).is_wipe_tower = true)) ∨
      (¬(isModifierSel s = true) ∧ (volAt (volsD s) j).is_modifier = true) ∨
      (isModifierSel s = true ∧ ¬((volAt (volsD s) j).is_modifier = true)) :=
    Or.inr (Or.inr (Or.inl ⟨hwt, by simp [hjw]⟩))
  rcases add_mem_reset s j b k hval hc1 hwg hreset hk with he | ⟨hlt, hpair⟩
  · rw [he]
    exact hjw
  · cases hb : (volAt (volsD s) k).is_wipe_tower
    · rfl
    · have hkw : k = w := by
        by_contra hne
        have hf := (hwo k hlt hne).1
        rw [hf] at hb
        exact Bool.false_ne_true hb
      rw [hkw] at hpair
      exact absurd ⟨hpair.1.symm, hpair.2.symm⟩ (hwo j hj hjne).2

end Selection

open Selection SelExamples in
/-- Counterexample to claim C7's consequence: a selection reached through
the public mutators (add, then add_object with the wipe tower's object
index) co-selects the wipe-tower pseudo-volume with an ordinary volume. -/
theorem claim_C7_counterexample :
    0 ∈ exSelW2.m_list ∧ 1 ∈ exSelW2.m_list ∧
    (volAt (volsD exSelW2) 1).is_wipe_tower = true ∧
    (volAt (volsD exSelW2) 0).is_wipe_tower = false := by decide

open Selection in
/-- Claim C7 (amended): for a valid selection with a unique non-modifier
wipe-tower volume, add of the wipe tower resets the selection to exactly
the wipe-tower singleton; add of a non-wipe volume while the wipe tower
is selected first clears, leaving a wipe-free selection; and the
exclusivity invariant is preserved by add, remove, clear and add_all on
type-consistent states.  It is not preserved by add_object, so not every
reachable selection satisfies it. -/
theorem claim_C7_amended {α : Type} [Field α] [DecidableEq α] (s : Selection α)
    (w i : Nat) (b : Bool)
    (hval : s.m_valid = true) (hinv : SelInvP s)
    (hwu : WipeUnique (volsD s) w)
    (hwm : (volAt (volsD s) w).is_modifier = false) :
    (isWipeTowerSel s = false → (add s w b).m_list = [w]) ∧
    (isWipeTowerSel s = true → ∀ j, j < (volsD s).length →
      (volAt (volsD s) j).is_wipe_tower = false →
      ∀ k ∈ (add s j b).m_list, (volAt (volsD (add s j b)) k).is_wipe_tower = false) ∧
    (TypeConsistent s → WipeAlone s →
      WipeAlone (add s i b) ∧ WipeAlone (remove s i) ∧
      WipeAlone (clear s) ∧ WipeAlone (add_all s)) :=
  ⟨fun hnwt => add_wipe_singleton s w b hval hinv hwu hwm hnwt,
   fun hwt j hj hjw => add_nonwipe_clears_wipe s j b w hval hwu hwt hj hjw,
   fun htc hwa =>
     ⟨WipeAlone_add s i b w hval hinv hwu hwm htc hwa,
      WipeAlone_remove s i hinv hwa,
      WipeAlone_clear s hval,
      WipeAlone_add_all s hval⟩⟩

open Selection SelExamples in
/-- Witness for the amended claim C7 at the one-volume-plus-wipe-tower
state with the ordinary volume selected. -/
theorem claim_C7_witness :
    ((add (bindSelection exVolsW exMdlW) 0 false).m_valid = true ∧
     SelInvP (add (bindSelection exVolsW exMdlW) 0 false) ∧
     WipeUnique (volsD (add (bindSelection exVolsW exMdlW) 0 false)) 1 ∧
     (volAt (volsD (add (bindSelection exVolsW exMdlW) 0 false)) 1).is_modifier = false) ∧
    ((isWipeTowerSel (add (bindSelection exVolsW exMdlW) 0 false) = false →
      (add (add (bindSelection exVolsW exMdlW) 0 false) 1 false).m_list = [1]) ∧
     (isWipeTowerSel (add (bindSelection exVolsW exMdlW) 0 false) = true →
      ∀ j, j < (volsD (add (bindSelection exVolsW exMdlW) 0 false)).length →
      (volAt (volsD (add (bindSelection exVolsW exMdlW) 0 false)) j).is_wipe_tower = false →
      ∀ k ∈ (add (add (bindSelection exVolsW exMdlW) 0 false) j false).m_list,
        GLVolume.is_wipe_tower
          (volAt (volsD (add (add (bindSelection exVolsW exMdlW) 0 false) j false)) k) =
          false) ∧
     (TypeConsistent (add (bindSelection exVolsW exMdlW) 0 false) →
      WipeAlone (add (bindSelection exVolsW exMdlW) 0 false) →
      WipeAlone (add (add (bindSelection exVolsW exMdlW) 0 false) 0 false) ∧
      WipeAlone (remove (add (bindSelection exVolsW exMdlW) 0 false) 0) ∧
      WipeAlone (clear (add (bindSelection exVolsW exMdlW) 0 false)) ∧
      WipeAlone (add_all (add (bindSelection exVolsW exMdlW) 0 false)))) :=
  ⟨⟨by decide, by decide, by decide, by decide⟩,
   claim_C7_amended (add (bindSelection exVolsW exMdlW) 0 false) 1 0 false
     (by decide) (by decide) (by decide) (by decide)⟩

namespace Selection

/-- rotateSync in Instance mode is the unselected-instance
synchronization. -/
theorem rotateSync_instance (s : Selection ℝ) (r : Nat)
    (hm : s.m_mode = SelectionMode.Instance) :
    rotateSync s r = syncUnselectedInstances rotation_diff_z s
      (if r = 2 then SyncRotationType.SYNC_ROTATION_NONE
       else SyncRotationType.SYNC_ROTATION_GENERAL) := by
  unfold rotateSync
  split
  · rfl
  next heq =>
    rw [hm] at heq
    exact SelectionMode.noConfusion heq

/-- rotateSync in Volume mode is the part-sibling synchronization. -/
theorem rotateSync_volume (s : Selection ℝ) (r : Nat)
    (hm : s.m_mode = SelectionMode.Volume) :
    rotateSync s r = syncUnselectedVolumes s := by
  unfold rotateSync
  split
  next heq =>
    rw [hm] at heq
    exact SelectionMode.noConfusion heq
  · rfl

/-- In Instance mode, the zero-branch rewrite resets a selected volume's
instance rotation and offset to the snapshot. -/
theorem rotateZeroVols_inst (t : Selection ℝ) (hm : t.m_mode = SelectionMode.Instance)
    (i : Nat) (hnd : t.m_list.Nodup) (hrange : i < (volsD t).length) (hi : i ∈ t.m_list) :
    volAt (rotateZeroVols t) i =
      { volAt (volsD t) i with
          instance_rotation := (cacheAt t i).m_instance.rotation
          instance_offset := (cacheAt t i).m_instance.position } := by
  unfold rotateZeroVols
  rw [hm]
  dsimp only
  rw [foldl_setVolAt_char t.m_list (volsD t)
    (fun i v => { v with instance_rotation := (cacheAt t i).m_instance.rotation
                         instance_offset := (cacheAt t i).m_instance.position })
    i hnd hrange hi]

/-- In Volume mode, the zero-branch rewrite resets a selected volume's
volume rotation and offset to the snapshot. -/
theorem rotateZeroVols_vol (t : Selection ℝ) (hm : t.m_mode = SelectionMode.Volume)
    (i : Nat) (hnd : t.m_list.Nodup) (hrange : i < (volsD t).length) (hi : i ∈ t.m_list) :
    volAt (rotateZeroVols t) i =
      { volAt (volsD t) i with
          volume_rotation := (cacheAt t i).m_volume.rotation
          volume_offset := (cacheAt t i).m_volume.position } := by
  unfold rotateZeroVols
  rw [hm]
  dsimp only
  rw [foldl_setVolAt_char t.m_list (volsD t)
    (fun i v => { v with volume_rotation := (cacheAt t i).m_volume.rotation
                         volume_offset := (cacheAt t i).m_volume.position })
    i hnd hrange hi]

/-- The zero-branch rewrite preserves projections untouched by rotation
and offset writes. -/
theorem rotateZeroVols_proj {γ : Type _} (t : Selection ℝ) (g : GLVolume ℝ → γ)
    (hg1 : ∀ (v : GLVolume ℝ) (r o : Vec3 ℝ),
      g { v with instance_rotation := r, instance_offset := o } = g v)
    (hg2 : ∀ (v : GLVolume ℝ) (r o : Vec3 ℝ),
      g { v with volume_rotation := r, volume_offset := o } = g v) (k : Nat) :
    g (volAt (rotateZeroVols t) k) = g (volAt (volsD t) k) := by
  unfold rotateZeroVols
  refine foldl_proj_const (fun vs => vs) g _ _ _ ?_ k
  intro vs x k'
  dsimp only
  split
  · refine proj_setVolAt g _ _ _ ?_ k'
    intro v
    exact hg1 v _ _
  · refine proj_setVolAt g _ _ _ ?_ k'
    intro v
    exact hg2 v _ _

/-- Distinct (object, part) keys survive the zero-branch rewrite. -/
theorem rotateZeroVols_distinct (t : Selection ℝ) (hdist : SelDistinctParts t) :
    SelDistinctParts { t with m_volumes := some (rotateZeroVols t) } := by
  intro a ha b hb hab habs
  obtain ⟨h1, h2⟩ := habs
  have po : ∀ k, (volAt (rotateZeroVols t) k).object_idx = (volAt (volsD t) k).object_idx :=
    fun k => rotateZeroVols_proj t (fun v => v.object_idx)
      (fun _ _ _ => rfl) (fun _ _ _ => rfl) k
  have pv : ∀ k, (volAt (rotateZeroVols t) k).volume_idx = (volAt (volsD t) k).volume_idx :=
    fun k => rotateZeroVols_proj t (fun v => v.volume_idx)
      (fun _ _ _ => rfl) (fun _ _ _ => rfl) k
  refine hdist a ha b hb hab ⟨?_, ?_⟩
  · exact (po a).symm.trans (Eq.trans h1 (po b))
  · exact (pv a).symm.trans (Eq.trans h2 (pv b))

/-- Core of claim C5 over an arbitrary snapshotted state. -/
theorem rotate_zero_restore (t : Selection ℝ) (tt : TransformationType)
    (hval : t.m_valid = true) (hnd : t.m_list.Nodup) (hrange : ListInRange t)
    (hdist : SelDistinctParts t) :
    ∀ i ∈ t.m_list,
      (t.m_mode = SelectionMode.Instance →
        (volAt (volsD (Selection.rotate t Vec3.zero tt)) i).instance_rotation =
          (cacheAt t i).m_instance.rotation ∧
        (volAt (volsD (Selection.rotate t Vec3.zero tt)) i).instance_offset =
          (cacheAt t i).m_instance.position) ∧
      (t.m_mode = SelectionMode.Volume →
        (volAt (volsD (Selection.rotate t Vec3.zero tt)) i).volume_rotation =
          (cacheAt t i).m_volume.rotation ∧
        (volAt (volsD (Selection.rotate t Vec3.zero tt)) i).volume_offset =
          (cacheAt t i).m_volume.position) := by
  intro i hi
  have hcv : ¬(t.m_valid ≠ true) := by simp [hval]
  have hri : i < (volsD t).length := hrange i hi
  have hred : Selection.rotate t Vec3.zero tt =
      rotateSync { t with m_volumes := some (rotateZeroVols t) } 0 := by
    simp only [Selection.rotate]
    rw [if_neg hcv, if_pos trivial]
  rw [hred]
  constructor
  · intro hm
    rw [rotateSync_instance { t with m_volumes := some (rotateZeroVols t) } 0 hm]
    rw [syncUnselectedInstances_selected_pres rotation_diff_z
      { t with m_volumes := some (rotateZeroVols t) } _ i hi]
    rw [show volsD ({ t with m_volumes := some (rotateZeroVols t) } : Selection ℝ) =
      rotateZeroVols t from rfl]
    rw [rotateZeroVols_inst t hm i hnd hri hi]
    exact ⟨rfl, rfl⟩
  · intro hm
    rw [rotateSync_volume { t with m_volumes := some (rotateZeroVols t) } 0 hm]
    rw [syncUnselectedVolumes_selected_pres { t with m_volumes := some (rotateZeroVols t) }
      (rotateZeroVols_distinct t hdist) i hi]
    rw [show volsD ({ t with m_volumes := some (rotateZeroVols t) } : Selection ℝ) =
      rotateZeroVols t from rfl]
    rw [rotateZeroVols_vol t hm i hnd hri hi]
    exact ⟨rfl, rfl⟩

end Selection

open Selection in
/-- Claim C5: rotate with the zero vector restores every selected
volume's rotation and offset to the drag-start snapshot: instance-level
values in Instance mode, volume-level values in Volume mode. -/
theorem claim_C5 (s : Selection ℝ) (center : Vec3 ℝ) (tt : TransformationType)
    (hval : s.m_valid = true) (hnd : s.m_list.Nodup) (hrange : ListInRange s)
    (hdist : SelDistinctParts s) :
    ∀ i ∈ s.m_list,
      (s.m_mode = SelectionMode.Instance →
        GLVolume.instance_rotation
            (volAt (volsD (Selection.rotate (start_dragging s center) Vec3.zero tt)) i) =
          (cacheAt (start_dragging s center) i).m_instance.rotation ∧
        GLVolume.instance_offset
            (volAt (volsD (Selection.rotate (start_dragging s center) Vec3.zero tt)) i) =
          (cacheAt (start_dragging s center) i).m_instance.position) ∧
      (s.m_mode = SelectionMode.Volume →
        GLVolume.volume_rotation
            (volAt (volsD (Selection.rotate (start_dragging s center) Vec3.zero tt)) i) =
          (cacheAt (start_dragging s center) i).m_volume.rotation ∧
        GLVolume.volume_offset
            (volAt (volsD (Selection.rotate (start_dragging s center) Vec3.zero tt)) i) =
          (cacheAt (start_dragging s center) i).m_volume.position) := by
  have hsd : start_dragging s center = setCaches s center := by
    unfold start_dragging
    rw [if_neg (by simp [hval])]
  rw [hsd]
  intro i hi
  exact rotate_zero_restore (setCaches s center) tt hval hnd hrange hdist i hi

open Selection SelExamples in
/-- Witness for claim C5 at the single-volume real selection with a
fresh drag snapshot. -/
theorem claim_C5_witness :
    (exSelR.m_valid = true ∧ exSelR.m_list.Nodup ∧ ListInRange exSelR ∧
     SelDistinctParts exSelR) ∧
    ∀ i ∈ exSelR.m_list,
      (exSelR.m_mode = SelectionMode.Instance →
        GLVolume.instance_rotation (volAt (volsD (Selection.rotate
            (start_dragging exSelR Vec3.zero) Vec3.zero ttRelative)) i) =
          (cacheAt (start_dragging exSelR Vec3.zero) i).m_instance.rotation ∧
        GLVolume.instance_offset (volAt (volsD (Selection.rotate
            (start_dragging exSelR Vec3.zero) Vec3.zero ttRelative)) i) =
          (cacheAt (start_dragging exSelR Vec3.zero) i).m_instance.position) ∧
      (exSelR.m_mode = SelectionMode.Volume →
        GLVolume.volume_rotation (volAt (volsD (Selection.rotate
            (start_dragging exSelR Vec3.zero) Vec3.zero ttRelative)) i) =
          (cacheAt (start_dragging exSelR Vec3.zero) i).m_volume.rotation ∧
        GLVolume.volume_offset (volAt (volsD (Selection.rotate
            (start_dragging exSelR Vec3.zero) Vec3.zero ttRelative)) i) =
          (cacheAt (start_dragging exSelR Vec3.zero) i).m_volume.position) :=
  ⟨⟨rfl, by simp [exSelR], by
      intro i hi
      simp only [exSelR] at hi
      simp only [List.mem_singleton] at hi
      subst hi
      show 0 < (volsD exSelR).length
      simp [exSelR, exVolsR, volsD], by
      intro a ha b hb hab habs
      simp only [exSelR, List.mem_singleton] at ha hb
      subst ha
      subst hb
      exact hab rfl⟩,
   claim_C5 exSelR Vec3.zero ttRelative rfl (by simp [exSelR]) (by
      intro i hi
      simp only [exSelR] at hi
      simp only [List.mem_singleton] at hi
      subst hi
      show 0 < (volsD exSelR).length
      simp [exSelR, exVolsR, volsD]) (by
      intro a ha b hb hab habs
      simp only [exSelR, List.mem_singleton] at ha hb
      subst ha
      subst hb
      exact hab rfl)⟩

namespace Selection

theorem RotX_mul (a b : ℝ) : RotX a * RotX b = RotX (a + b) := by
  unfold RotX
  rw [Matrix.mul_fin_three]
  ext i j
  fin_cases i <;> fin_cases j <;>
    simp [Real.cos_add, Real.sin_add] <;> ring

theorem RotY_mul (a b : ℝ) : RotY a * RotY b = RotY (a + b) := by
  unfold RotY
  rw [Matrix.mul_fin_three]
  ext i j
  fin_cases i <;> fin_cases j <;>
    simp [Real.cos_add, Real.sin_add] <;> ring

theorem RotZ_mul (a b : ℝ) : RotZ a * RotZ b = RotZ (a + b) := by
  unfold RotZ
  rw [Matrix.mul_fin_three]
  ext i j
  fin_cases i <;> fin_cases j <;>
    simp [Real.cos_add, Real.sin_add] <;> ring

theorem RotX_zero : RotX 0 = 1 := by
  unfold RotX
  rw [Matrix.one_fin_three]
  norm_num

theorem RotY_zero : RotY 0 = 1 := by
  unfold RotY
  rw [Matrix.one_fin_three]
  norm_num

theorem RotZ_zero : RotZ 0 = 1 := by
  unfold RotZ
  rw [Matrix.one_fin_three]
  norm_num

end Selection

namespace Selection

/-- The relative rotation splits into a Z-conjugation of its middle
XY-only factor. -/
theorem diff_decomp (f t : Vec3 ℝ) :
    rotation_xyz_diff f t =
      RotZ t.z * (RotY t.y * RotX t.x * (RotX (-f.x) * RotY (-f.y))) * RotZ (-f.z) := by
  unfold rotation_xyz_diff eulerMat eulerMatInv
  simp only [Matrix.mul_assoc]

theorem aboutZ_mid (f t : Vec3 ℝ) (h : aboutZ f t) :
    ∃ ψ : ℝ, RotY t.y * RotX t.x * (RotX (-f.x) * RotY (-f.y)) = RotZ ψ := by
  obtain ⟨θ, hθ⟩ := h
  rw [diff_decomp] at hθ
  refine ⟨-t.z + (θ + f.z), ?_⟩
  calc RotY t.y * RotX t.x * (RotX (-f.x) * RotY (-f.y)) =
      RotZ (-t.z) *
        (RotZ t.z * (RotY t.y * RotX t.x * (RotX (-f.x) * RotY (-f.y))) * RotZ (-f.z)) *
        RotZ f.z := by
        rw [show RotZ t.z * (RotY t.y * RotX t.x * (RotX (-f.x) * RotY (-f.y))) *
            RotZ (-f.z) =
          RotZ t.z * ((RotY t.y * RotX t.x * (RotX (-f.x) * RotY (-f.y))) * RotZ (-f.z))
          from Matrix.mul_assoc _ _ _]
        rw [← Matrix.mul_assoc (RotZ (-t.z)) (RotZ t.z) _, RotZ_mul]
        rw [show (-t.z + t.z : ℝ) = 0 from by ring, RotZ_zero, Matrix.one_mul]
        rw [Matrix.mul_assoc, Matrix.mul_assoc, RotZ_mul]
        rw [show (-f.z + f.z : ℝ) = 0 from by ring, RotZ_zero, Matrix.mul_one]
    _ = RotZ (-t.z) * RotZ θ * RotZ f.z := by rw [hθ]
    _ = RotZ (-t.z + (θ + f.z)) := by rw [RotZ_mul, RotZ_mul, add_assoc]

theorem aboutZ_of_mid (f t : Vec3 ℝ) (ψ : ℝ)
    (h : RotY t.y * RotX t.x * (RotX (-f.x) * RotY (-f.y)) = RotZ ψ) : aboutZ f t := by
  refine ⟨t.z + ψ + -f.z, ?_⟩
  rw [diff_decomp, h, RotZ_mul, RotZ_mul]

/-- Two orientations with equal X and Y components differ only about
Z. -/
theorem aboutZ_of_eq_xy (f t : Vec3 ℝ) (hx : f.x = t.x) (hy : f.y = t.y) : aboutZ f t := by
  refine aboutZ_of_mid f t 0 ?_
  rw [← hx, ← hy]
  rw [Matrix.mul_assoc, ← Matrix.mul_assoc (RotX f.x) (RotX (-f.x)) _, RotX_mul]
  rw [show (f.x + -f.x : ℝ) = 0 from by ring, RotX_zero, Matrix.one_mul, RotY_mul]
  rw [show (f.y + -f.y : ℝ) = 0 from by ring, RotY_zero, RotZ_zero]

/-- The about-Z relation depends only on the X and Y components of the
two orientations. -/
theorem aboutZ_congr_xy (f t f' t' : Vec3 ℝ) (hfx : f.x = f'.x) (hfy : f.y = f'.y)
    (htx : t.x = t'.x) (hty : t.y = t'.y) (h : aboutZ f t) : aboutZ f' t' := by
  obtain ⟨ψ, hψ⟩ := aboutZ_mid f t h
  refine aboutZ_of_mid f' t' ψ ?_
  rw [← hfx, ← hfy, ← htx, ← hty]
  exact hψ

end Selection

namespace Selection

variable {α : Type} [Field α] [DecidableEq α]

/-- Componentwise addition of vectors, read off per component. -/
theorem vec_add_x (a b : Vec3 α) : (a + b).x = a.x + b.x := rfl

theorem vec_add_y (a b : Vec3 α) : (a + b).y = a.y + b.y := rfl

/-- A projection is unchanged by a single-index rewrite whose writer
fixes it at that very index. -/
theorem proj_setVolAt_at {γ : Type _} (g : GLVolume α → γ) (vs : List (GLVolume α)) (j : Nat)
    (F : GLVolume α → GLVolume α)
    (hF : j < vs.length → g (F (volAt vs j)) = g (volAt vs j)) (k : Nat) :
    g (volAt (setVolAt vs j F) k) = g (volAt vs k) := by
  by_cases hlen : j < vs.length
  · by_cases hk : k = j
    · subst hk
      rw [volAt_setVolAt_self _ _ _ hlen, hF hlen]
    · rw [volAt_setVolAt_ne _ _ _ _ hk]
  · rw [volAt_setVolAt_oob _ _ _ _ (le_of_not_lt hlen)]

/-- The drag snapshot taken by _set_caches records, per in-range index,
exactly the current transform decompositions of that volume. -/
theorem cacheAt_setCaches (s : Selection α) (c : Vec3 α) (k : Nat)
    (hk : k < (volsD s).length) :
    cacheAt (setCaches s c) k =
      ⟨⟨(volAt (volsD s) k).volume_offset, (volAt (volsD s) k).volume_rotation,
        (volAt (volsD s) k).volume_scaling_factor, (volAt (volsD s) k).volume_mirror⟩,
       ⟨(volAt (volsD s) k).instance_offset, (volAt (volsD s) k).instance_rotation,
        (volAt (volsD s) k).instance_scaling_factor, (volAt (volsD s) k).instance_mirror⟩⟩ := by
  unfold cacheAt setCaches
  dsimp only
  rw [List.getD_eq_getElem?_getD, List.getElem?_map, List.getElem?_eq_getElem hk]
  rw [show volAt (volsD s) k = (volsD s).getD k defVol from rfl]
  rw [List.getD_eq_getElem?_getD, List.getElem?_eq_getElem hk]
  rfl

/-- One inner synchronization step never changes the list length. -/
theorem syncInstInner_length (zdiff : Vec3 α → Vec3 α → α) (s : Selection α)
    (sy : SyncRotationType) (vi : GLVolume α) (i : Nat)
    (acc2 : List (GLVolume α) × List Nat) (j : Nat) :
    (syncInstInner zdiff s sy vi i acc2 j).1.length = acc2.1.length := by
  unfold syncInstInner
  dsimp only
  repeat' split
  all_goals first | rfl | rw [length_setVolAt]

/-- The unselected-instance synchronization never changes the volume-list
length. -/
theorem syncUnselectedInstances_length (zdiff : Vec3 α → Vec3 α → α) (s : Selection α)
    (sy : SyncRotationType) :
    (volsD (syncUnselectedInstances zdiff s sy)).length = (volsD s).length := by
  show (s.m_list.foldl (syncInstOuter zdiff s sy)
      (volsD s, s.m_list.foldl dInsert [])).1.length = (volsD s).length
  refine foldlInvariant
    (fun acc : List (GLVolume α) × List Nat => acc.1.length = (volsD s).length)
    (syncInstOuter zdiff s sy) s.m_list _ rfl ?_
  intro acc x hacc
  unfold syncInstOuter
  dsimp only
  split
  · exact hacc
  · split
    · exact hacc
    · refine foldlInvariant
        (fun acc2 : List (GLVolume α) × List Nat => acc2.1.length = (volsD s).length)
        _ _ acc hacc ?_
      intro acc2 j h2
      rw [syncInstInner_length, h2]

/-- Under SYNC_ROTATION_NONE the synchronization rewrites each target's
rotation to its own current value, so any projection reading only the
object identity and the instance rotation is preserved. -/
theorem syncNone_proj {γ : Type _} (zdiff : Vec3 α → Vec3 α → α) (s : Selection α)
    (g : GLVolume α → γ)
    (hg : ∀ (v : GLVolume α) (sc mir : Vec3 α),
      g { v with instance_rotation := v.instance_rotation
                 instance_scaling_factor := sc
                 instance_mirror := mir } = g v) :
    ∀ k, g (volAt (volsD (syncUnselectedInstances zdiff s
        SyncRotationType.SYNC_ROTATION_NONE)) k) = g (volAt (volsD s) k) := by
  refine foldl_proj_const Prod.fst g
    (syncInstOuter zdiff s SyncRotationType.SYNC_ROTATION_NONE) s.m_list
    (volsD s, s.m_list.foldl dInsert []) ?_
  intro acc x k
  unfold syncInstOuter
  dsimp only
  split
  · rfl
  · split
    · rfl
    · refine foldl_proj_const Prod.fst g _ _ acc ?_ k
      intro acc2 j k'
      unfold syncInstInner
      dsimp only
      split
      · rfl
      · split
        · rfl
        · split
          · rfl
          · have h2 : ∀ (F : GLVolume α → GLVolume α) (dn : List Nat),
                (j < acc2.1.length → g (F (volAt acc2.1 j)) = g (volAt acc2.1 j)) →
                g (volAt ((setVolAt acc2.1 j F, dn) :
                    List (GLVolume α) × List Nat).1 k') = g (volAt acc2.1 k') := by
              intro F dn hF
              exact proj_setVolAt_at g _ _ _ hF k'
            refine h2 _ _ ?_
            intro _
            exact hg (volAt acc2.1 j) _ _

end Selection

namespace Selection

/-- With a Volume-free classification, the rotation step body is the
instance-rotation helper whatever the single-full-instance flag says. -/
theorem rotateStep_instance_mode (s : Selection ℝ) (r : Vec3 ℝ) (tt : TransformationType)
    (ram : Nat) (sfi : Bool) (hmode : s.m_mode = SelectionMode.Instance)
    (acc : List (GLVolume ℝ) × List (Int × Nat)) (i : Nat) :
    rotateStep s r tt ram sfi false false acc i = rotateInstanceStep s r tt ram acc i := by
  cases sfi
  · unfold rotateStep
    have h1 : ¬((false : Bool) = true) := by simp
    rw [if_neg h1]
    have h2 : ¬((false : Bool) = true ∨ (false : Bool) = true) := by simp
    rw [if_neg h2, hmode]
  · rfl

end Selection

namespace Selection

/-- Writing a rotation whose X and Y components agree with the tracked
originals preserves the invariant observation at every index. -/
theorem step_xy_core (s : Selection ℝ) (r : Vec3 ℝ) (hrx : r.x = 0) (hry : r.y = 0)
    (i : Nat)
    (hci : i < (volsD s).length →
      (cacheAt s i).m_instance.rotation.x = (volAt (volsD s) i).instance_rotation.x ∧
      (cacheAt s i).m_instance.rotation.y = (volAt (volsD s) i).instance_rotation.y)
    (vols1 : List (GLVolume ℝ)) (tbl : List (Int × Nat))
    (hlen1 : vols1.length = (volsD s).length)
    (hinv1 : ∀ k, k < (volsD s).length →
      xyObs (volAt vols1 k) = xyObs (volAt (volsD s) k)) :
    ((setVolAt vols1 i (fun w =>
        { w with instance_rotation := r + (cacheAt s i).m_instance.rotation }), tbl) :
        List (GLVolume ℝ) × List (Int × Nat)).1.length = (volsD s).length ∧
    ∀ k, k < (volsD s).length →
      xyObs (volAt ((setVolAt vols1 i (fun w =>
        { w with instance_rotation := r + (cacheAt s i).m_instance.rotation }), tbl) :
        List (GLVolume ℝ) × List (Int × Nat)).1 k) = xyObs (volAt (volsD s) k) := by
  constructor
  · dsimp only
    rw [length_setVolAt, hlen1]
  · intro k hk
    dsimp only
    have hstep : xyObs (volAt (setVolAt vols1 i (fun w =>
        { w with instance_rotation := r + (cacheAt s i).m_instance.rotation })) k) =
        xyObs (volAt vols1 k) := by
      refine proj_setVolAt_at xyObs vols1 i _ ?_ k
      intro hi
      have hin : i < (volsD s).length := hlen1 ▸ hi
      obtain ⟨hcx, hcy⟩ := hci hin
      have hvi := hinv1 i hin
      simp only [xyObs, Prod.mk.injEq] at hvi ⊢
      obtain ⟨hv1, hv2, hv3⟩ := hvi
      refine ⟨?_, ?_, trivial⟩
      · rw [vec_add_x, hrx, zero_add, hcx, hv1]
      · rw [vec_add_y, hry, zero_add, hcy, hv2]
    exact hstep.trans (hinv1 k hk)

/-- One rotation step with dominant axis Z under a relative request with
zero X and Y components preserves the invariant observation. -/
theorem rotateInstanceStep_xy (s : Selection ℝ) (r : Vec3 ℝ) (tt : TransformationType)
    (htw : tt.world = false) (hta : tt.absolute = false) (hrx : r.x = 0) (hry : r.y = 0)
    (hcache : ∀ k, k < (volsD s).length →
      (cacheAt s k).m_instance.rotation.x = (volAt (volsD s) k).instance_rotation.x ∧
      (cacheAt s k).m_instance.rotation.y = (volAt (volsD s) k).instance_rotation.y)
    (acc : List (GLVolume ℝ) × List (Int × Nat)) (i : Nat)
    (hlen : acc.1.length = (volsD s).length)
    (hinv : ∀ k, k < (volsD s).length →
      xyObs (volAt acc.1 k) = xyObs (volAt (volsD s) k)) :
    (rotateInstanceStep s r tt 2 acc i).1.length = (volsD s).length ∧
    ∀ k, k < (volsD s).length →
      xyObs (volAt (rotateInstanceStep s r tt 2 acc i).1 k) =
        xyObs (volAt (volsD s) k) := by
  unfold rotateInstanceStep
  dsimp only
  split
  next fvi heq =>
    rw [if_neg (show ¬((2 : Nat) ≠ 2) from fun h => h rfl)] at heq
    exact Option.noConfusion heq
  next heq =>
    repeat' split
    all_goals first
      | exact absurd ‹tt.world = true› (by rw [htw]; exact Bool.false_ne_true)
      | exact absurd ‹tt.absolute = true› (by rw [hta]; exact Bool.false_ne_true)
      | (refine step_xy_core s r hrx hry i (fun hin => hcache i hin) _ _ ?_ ?_ <;>
         first
           | exact hlen
           | exact hinv
           | (rw [length_setVolAt]; exact hlen)
           | (intro k hk
              refine (proj_setVolAt xyObs acc.1 i _ ?_ k).trans (hinv k hk)
              intro v
              rfl))

end Selection

namespace Selection

/-- The whole per-selected-volume rotation pass preserves the invariant
observation of every volume. -/
theorem rotate_fold_xy (s : Selection ℝ) (r : Vec3 ℝ) (tt : TransformationType)
    (htw : tt.world = false) (hta : tt.absolute = false) (hrx : r.x = 0) (hry : r.y = 0)
    (hcache : ∀ k, k < (volsD s).length →
      (cacheAt s k).m_instance.rotation.x = (volAt (volsD s) k).instance_rotation.x ∧
      (cacheAt s k).m_instance.rotation.y = (volAt (volsD s) k).instance_rotation.y) :
    ((rotFold s r tt).length = (volsD s).length) ∧
    ∀ k, k < (volsD s).length →
      xyObs (volAt (rotFold s r tt) k) = xyObs (volAt (volsD s) k) := by
  refine foldlInvariant (fun acc : List (GLVolume ℝ) × List (Int × Nat) =>
      acc.1.length = (volsD s).length ∧
      ∀ k, k < (volsD s).length → xyObs (volAt acc.1 k) = xyObs (volAt (volsD s) k))
    (rotateInstanceStep s r tt 2) s.m_list ((volsD s), ([] : List (Int × Nat)))
    ⟨rfl, fun k hk => rfl⟩ ?_
  intro acc i hp
  exact rotateInstanceStep_xy s r tt htw hta hrx hry hcache acc i hp.1 hp.2

/-- rotate with a relative, XY-free request on a Volume-free classified
selection keeps every volume's X and Y instance-rotation components and
object identity, and the list length. -/
theorem rotate_xy (s : Selection ℝ) (r : Vec3 ℝ) (tt : TransformationType)
    (hval : s.m_valid = true) (hmode : s.m_mode = SelectionMode.Instance)
    (hsv : isSingleVolumeSel s = false) (hsm : isSingleModifierSel s = false)
    (htw : tt.world = false) (hta : tt.absolute = false)
    (hrx : r.x = 0) (hry : r.y = 0) (hrz : r.z ≠ 0)
    (hcache : ∀ k, k < (volsD s).length →
      (cacheAt s k).m_instance.rotation.x = (volAt (volsD s) k).instance_rotation.x ∧
      (cacheAt s k).m_instance.rotation.y = (volAt (volsD s) k).instance_rotation.y) :
    (volsD (Selection.rotate s r tt)).length = (volsD s).length ∧
    ∀ k, k < (volsD s).length →
      xyObs (volAt (volsD (Selection.rotate s r tt)) k) = xyObs (volAt (volsD s) k) := by
  have hnv : ¬(s.m_valid ≠ true) := by simp [hval]
  have hnz : ¬(r = Vec3.zero) := by
    intro h
    exact hrz (congrArg Vec3.z h)
  have hmax : maxAbsIdx r = 2 := by
    unfold maxAbsIdx
    rw [hrx, hry]
    rw [if_neg (lt_irrefl |(0 : ℝ)|)]
    rw [if_pos (show |r.z| > |(0 : ℝ)| from by rw [abs_zero]; exact abs_pos.mpr hrz)]
  have hred : Selection.rotate s r tt =
      rotateSync { s with m_volumes := some (rotFold s r tt) } 2 := by
    simp only [Selection.rotate]
    rw [if_neg hnv, if_neg hnz, hmax, hsv, hsm]
    have hfun : rotateStep s r tt 2 (isSingleFullInstance s) false false =
        rotateInstanceStep s r tt 2 := by
      funext acc i
      exact rotateStep_instance_mode s r tt 2 (isSingleFullInstance s) hmode acc i
    rw [hfun]
    rfl
  rw [hred]
  rw [rotateSync_instance { s with m_volumes := some (rotFold s r tt) } 2 hmode]
  rw [show (if (2 : Nat) = 2 then SyncRotationType.SYNC_ROTATION_NONE
      else SyncRotationType.SYNC_ROTATION_GENERAL) = SyncRotationType.SYNC_ROTATION_NONE
    from rfl]
  obtain ⟨hL, hP⟩ := rotate_fold_xy s r tt htw hta hrx hry hcache
  constructor
  · rw [syncUnselectedInstances_length]
    exact hL
  · intro k hk
    rw [syncNone_proj rotation_diff_z _ xyObs (fun v sc mir => rfl) k]
    exact hP k hk

end Selection

open Selection SelExamples in
/-- Claim C2, counterexample: on a valid Instance-mode single-full-instance
selection whose two sibling instances are both rotated by one radian about
X (so the claimed invariant holds), an absolute rotate request about Z
leaves the selected instance at rotation (0,0,1) while the dominant-Z
synchronization copies nothing to the unselected sibling, which stays at
(1,0,0): the instance rotations of the object no longer differ only by a
rotation about Z, refuting the claim. -/
theorem claim_C2_counterexample :
    pairwiseAboutZ 0 (volsD exSelC2c) ∧
    ¬ pairwiseAboutZ 0 (volsD (Selection.rotate exSelC2c ⟨0, 0, 1⟩ ttAbsolute)) := by
  constructor
  · intro i j hi hj h1 h2
    have hl : (volsD exSelC2c).length = 2 := rfl
    rw [hl] at hi hj
    interval_cases i <;> interval_cases j <;> exact aboutZ_of_eq_xy _ _ rfl rfl
  · intro h
    have hnz : ¬((⟨0, 0, 1⟩ : Vec3 ℝ) = Vec3.zero) :=
      fun hh => one_ne_zero (congrArg Vec3.z hh)
    have hmax : maxAbsIdx (⟨0, 0, 1⟩ : Vec3 ℝ) = 2 := by
      norm_num [maxAbsIdx]
    have hred : Selection.rotate exSelC2c ⟨0, 0, 1⟩ ttAbsolute = exC2out := by
      simp only [Selection.rotate]
      rw [if_neg (show ¬(exSelC2c.m_valid ≠ true) from by simp [exSelC2c]), if_neg hnz, hmax]
      rfl
    rw [hred] at h
    have hlen2 : (volsD exC2out).length = 2 := rfl
    have hrot0 : (volAt (volsD exC2out) 0).instance_rotation = (⟨0, 0, 1⟩ : Vec3 ℝ) := rfl
    have hrot1 : (volAt (volsD exC2out) 1).instance_rotation = (⟨1, 0, 0⟩ : Vec3 ℝ) := rfl
    have hob0 : (volAt (volsD exC2out) 0).object_idx = 0 := rfl
    have hob1 : (volAt (volsD exC2out) 1).object_idx = 0 := rfl
    have h01 := h 0 1 (by rw [hlen2]; norm_num) (by rw [hlen2]; norm_num) hob0 hob1
    rw [hrot0, hrot1] at h01
    obtain ⟨ps, hps⟩ := aboutZ_mid _ _ h01
    dsimp only at hps
    simp only [neg_zero, RotY_zero, RotX_zero, Matrix.one_mul, Matrix.mul_one] at hps
    have hent := congrFun (congrFun hps 2) 1
    simp [RotX, RotZ] at hent
    have hpos : (0 : ℝ) < Real.sin 1 :=
      Real.sin_pos_of_pos_of_lt_pi (by norm_num) (by linarith [Real.pi_gt_three])
    rw [hent] at hpos
    exact lt_irrefl 0 hpos

open Selection in
/-- Claim C2 (corrected): after an instance-mode rotate of a freshly
dragged selection with a relative rotation request about the Z axis alone
(the request shape the rotate gizmo issues), the instance rotations of
all volumes of any one object still differ only by a rotation about the
Z axis: the rotated volumes keep their X and Y rotation components
(the new rotation is the request plus the snapshot) and the dominant-Z
synchronization (SYNC_ROTATION_NONE) changes no rotation at all.  For
world or absolute requests the invariant is not maintained (see the
counterexample). -/
theorem claim_C2_amended (s : Selection ℝ) (center : Vec3 ℝ) (r : Vec3 ℝ)
    (tt : TransformationType) (o : Int)
    (hval : s.m_valid = true) (hmode : s.m_mode = SelectionMode.Instance)
    (hsv : isSingleVolumeSel s = false) (hsm : isSingleModifierSel s = false)
    (htw : tt.world = false) (hta : tt.absolute = false)
    (hrx : r.x = 0) (hry : r.y = 0) (hrz : r.z ≠ 0)
    (hpre : pairwiseAboutZ o (volsD s)) :
    pairwiseAboutZ o (volsD (Selection.rotate (start_dragging s center) r tt)) := by
  have hsd : start_dragging s center = setCaches s center := by
    unfold start_dragging
    rw [if_neg (show ¬(s.m_valid ≠ true) from by simp [hval])]
  rw [hsd]
  have hca : ∀ k, k < (volsD (setCaches s center)).length →
      (cacheAt (setCaches s center) k).m_instance.rotation.x =
        (volAt (volsD (setCaches s center)) k).instance_rotation.x ∧
      (cacheAt (setCaches s center) k).m_instance.rotation.y =
        (volAt (volsD (setCaches s center)) k).instance_rotation.y := by
    intro k hk
    rw [cacheAt_setCaches s center k hk]
    exact ⟨rfl, rfl⟩
  obtain ⟨hL, hP⟩ := rotate_xy (setCaches s center) r tt hval hmode hsv hsm htw hta
    hrx hry hrz hca
  intro i j hi hj hoi hoj
  have hi' : i < (volsD (setCaches s center)).length := hL ▸ hi
  have hj' : j < (volsD (setCaches s center)).length := hL ▸ hj
  have hPi := hP i hi'
  have hPj := hP j hj'
  simp only [xyObs, Prod.mk.injEq] at hPi hPj
  obtain ⟨hix, hiy, hio⟩ := hPi
  obtain ⟨hjx, hjy, hjo⟩ := hPj
  have h0 := hpre i j hi' hj' (hio.symm.trans hoi) (hjo.symm.trans hoj)
  exact aboutZ_congr_xy _ _ _ _ hix.symm hiy.symm hjx.symm hjy.symm h0

open Selection SelExamples in
/-- Witness for the corrected claim C2: the single-volume real selection,
snapshot taken, rotated by one radian about Z relatively. -/
theorem claim_C2_witness :
    (exSelR.m_valid = true ∧ exSelR.m_mode = SelectionMode.Instance ∧
     isSingleVolumeSel exSelR = false ∧ isSingleModifierSel exSelR = false ∧
     ttRelative.world = false ∧ ttRelative.absolute = false ∧
     (⟨0, 0, 1⟩ : Vec3 ℝ).x = 0 ∧ (⟨0, 0, 1⟩ : Vec3 ℝ).y = 0 ∧
     (⟨0, 0, 1⟩ : Vec3 ℝ).z ≠ 0 ∧ pairwiseAboutZ 0 (volsD exSelR)) ∧
    pairwiseAboutZ 0
      (volsD (Selection.rotate (start_dragging exSelR Vec3.zero) ⟨0, 0, 1⟩ ttRelative)) := by
  have hpre : pairwiseAboutZ 0 (volsD exSelR) := by
    intro i j hi hj h1 h2
    have hl : (volsD exSelR).length = 1 := rfl
    rw [hl] at hi hj
    have hi0 : i = 0 := Nat.lt_one_iff.mp hi
    have hj0 : j = 0 := Nat.lt_one_iff.mp hj
    subst hi0
    subst hj0
    exact aboutZ_of_eq_xy _ _ rfl rfl
  refine ⟨⟨rfl, rfl, rfl, rfl, rfl, rfl, rfl, rfl, one_ne_zero, hpre⟩, ?_⟩
  exact claim_C2_amended exSelR Vec3.zero ⟨0, 0, 1⟩ ttRelative 0 rfl rfl rfl rfl rfl rfl
    rfl rfl one_ne_zero hpre
